import Mathlib

/-!
Epoch models of reward-bounded model checking

A shallow embedding of
`src/storm/modelchecker/prctl/helper/rewardbounded/EpochModel.cpp`:
the four per-epoch analyzers (trivial / non-trivial, deterministic /
non-deterministic) and the two `analyzeSingleObjective` dispatchers; and of two
functions of its surroundings, `uint64_log2` of `src/utility/math.h` and
`stripQuotsFromName` of `src/parser/DFTGalileoParser.cpp`.

Conventions of the embedding

* `ValueType` is the exact instantiation `storm::RationalNumber`, embedded as `ℚ`.
* Indices (`uint64_t`) are natural numbers.
* A `std::vector` is a list; an element read is `List.getD` with the value type's
  zero outside the vector, an element write outside the vector leaves it as it is.
* An iterator is the position it has reached in its container.
* The vectors `x`, `b` and the solver handle, which the C++ code receives by
  reference, are the fields of a `Context` that every analyzer takes and returns.
* The calls made on the solver object are recorded, in order, in a trace of
  `SolverCall`s that is returned next to the result.
-/

namespace Storm

/-- The value type of the analyzers (`storm::RationalNumber`). -/
abbrev ValueType := ℚ

/-- Modelled from the spec: `storm::storage::BitVector`, whose declaration is not part of
the sources. A bit-set over the indices `0 .. bits.length - 1`. -/
structure BitVector where
  bits : List Bool
deriving DecidableEq, Repr

namespace BitVector

/-- Modelled from the spec: `BitVector::get`, the bit at `index`. -/
def get (bv : BitVector) (index : Nat) : Bool :=
  bv.bits.getD index false

/-- Modelled from the spec: the sequence that iterating over the bit vector yields, the
indices of the set bits in ascending order. -/
def setIndices (bv : BitVector) : List Nat :=
  (List.range bv.bits.length).filter (fun i => bv.bits.getD i false)

/-- Modelled from the spec: `BitVector::getNumberOfSetBits`, the number of set bits. -/
def getNumberOfSetBits (bv : BitVector) : Nat :=
  bv.setIndices.length

end BitVector

/-- Modelled from the spec: `storm::storage::SparseMatrix`, whose declaration is not part of
the sources. A row-oriented matrix: every row lists its stored entries as
(column, value) pairs; `rowGroupIndices` holds the first row of every row group, closed by
the row count. -/
structure SparseMatrix where
  columnCount : Nat
  rows : List (List (Nat × ValueType))
  rowGroupIndices : List Nat
deriving DecidableEq, Repr

namespace SparseMatrix

/-- Modelled from the spec: `getRowCount`, the number of rows (choices). -/
def getRowCount (m : SparseMatrix) : Nat :=
  m.rows.length

/-- Modelled from the spec: `getRowGroupCount`, the number of row groups (states). -/
def getRowGroupCount (m : SparseMatrix) : Nat :=
  m.rowGroupIndices.length - 1

/-- Modelled from the spec: `getRowGroupIndices`, the row-group boundaries (the first row
of every group, closed by the row count). -/
def getRowGroupIndices (m : SparseMatrix) : List Nat :=
  m.rowGroupIndices

/-- Modelled from the spec: `getEntryCount`, the total number of stored entries. -/
def getEntryCount (m : SparseMatrix) : Nat :=
  (m.rows.map List.length).sum

/-- The value of the matrix at (row, column): the first entry stored for that column in
the row, zero when none is stored. -/
def entryAt (m : SparseMatrix) (row column : Nat) : ValueType :=
  ((m.rows.getD row []).lookup column).getD 0

/-- Modelled from the spec: `isIdentityMatrix`, the identity predicate: the matrix is square
and its value is one on the diagonal and zero elsewhere. -/
def isIdentityMatrix (m : SparseMatrix) : Bool :=
  m.getRowCount == m.columnCount &&
    (List.range m.getRowCount).all (fun i =>
      (List.range m.columnCount).all (fun j =>
        decide (m.entryAt i j = if i = j then 1 else 0)))

/-- Modelled from the spec: `hasTrivialRowGrouping`: every row is a group of its own (no
nondeterminism). -/
def hasTrivialRowGrouping (m : SparseMatrix) : Bool :=
  m.rowGroupIndices == List.range (m.getRowCount + 1)

end SparseMatrix

/-- Modelled from the spec: `storm::solver::LinearEquationSolverProblemFormat`, declared
outside the sources: the equation system `A x = b`, which is the converted system
`(I - A) x = b` of the specification, and the fixed point system `x = A x + b`. -/
inductive LinearEquationSolverProblemFormat where
  | EquationSystem
  | FixedPointSystem
deriving DecidableEq, Repr

/-- Modelled from the spec: `storm::OptimizationDirection`, declared outside the sources:
minimize or maximize. -/
inductive OptimizationDirection where
  | Minimize
  | Maximize
deriving DecidableEq, Repr

/-- Modelled from the spec: `storm::solver::minimize`, declared outside the sources: whether
the direction is the minimizing one. -/
def minimize (dir : OptimizationDirection) : Bool :=
  match dir with
  | .Minimize => true
  | .Maximize => false

/-- Modelled from the spec: `EpochModel<ValueType, true>`, whose declaration (EpochModel.h)
is not part of the sources. The fields are those that EpochModel.cpp uses, with the types
of the data model of the specification: `stepChoices` is the sequence of choice indices
that iterating over it yields, `epochInStates` and the reward filters are bit-sets. -/
structure EpochModel where
  epochMatrixChanged : Bool
  epochMatrix : SparseMatrix
  stepChoices : List Nat
  stepSolutions : List ValueType
  objectiveRewards : List (List ValueType)
  objectiveRewardFilter : List BitVector
  epochInStates : BitVector
  equationSolverProblemFormat : Option LinearEquationSolverProblemFormat
deriving DecidableEq, Repr

namespace EpochModel

/-- The vector `objectiveRewards.front()`. -/
def objectiveValues (em : EpochModel) : List ValueType :=
  em.objectiveRewards.headD []

/-- The bit vector `objectiveRewardFilter.front()`. -/
def rewardFilter (em : EpochModel) : BitVector :=
  em.objectiveRewardFilter.headD ⟨[]⟩

end EpochModel

/-! ## The merge cursor of the trivial analyzers -/

/-- Modelled from the spec: the iterator of `stepChoices`, whose type is declared outside
the sources. The value of `*stepChoiceIt` at a position of the sequence: the choice index
at that position, and no index once the iterator has run through the sequence (the step
cursor of section 4.2, which then is neither below nor at any state, as in scenario A). -/
def stepChoiceAt (stepChoices : List Nat) (pos : Nat) : Option Nat :=
  stepChoices[pos]?

/-- The loop `while (*stepChoiceIt < bound) { ++stepChoiceIt; ++stepSolutionIt; }`.
Both iterators start at `begin()` and are only moved together, so one position stands for
both. -/
def advanceStepIt (stepChoices : List Nat) (bound : Nat) (pos : Nat) : Nat :=
  match h : stepChoiceAt stepChoices pos with
  | some choice =>
    if choice < bound then advanceStepIt stepChoices bound (pos + 1) else pos
  | none => pos
termination_by stepChoices.length - pos
decreasing_by
  have hlt := (List.getElem?_eq_some.mp h).1
  omega

/-- The test `*stepChoiceIt == index`. -/
def stepChoiceIs (stepChoices : List Nat) (pos : Nat) (index : Nat) : Bool :=
  stepChoiceAt stepChoices pos == some index

/-! ## Trivial analyzer, deterministic (lines 13-40) -/

/-- The body of the loop over `epochInStates`: the remaining in-states and the position of
the step iterators, returning the entries pushed onto `epochResult`. -/
def analyzeTrivialDtmcLoop (em : EpochModel) : List Nat → Nat → List ValueType
  | [], _ => []
  | state :: rest, pos =>
    let pos := advanceStepIt em.stepChoices state pos
    let entry : ValueType :=
      if em.rewardFilter.get state then
        if stepChoiceIs em.stepChoices pos state then
          em.objectiveValues.getD state 0 + em.stepSolutions.getD pos 0
        else
          em.objectiveValues.getD state 0
      else
        if stepChoiceIs em.stepChoices pos state then
          em.stepSolutions.getD pos 0
        else
          0
    entry :: analyzeTrivialDtmcLoop em rest pos

/-- The function `analyzeTrivialDtmcEpochModel`. -/
def analyzeTrivialDtmcEpochModel (em : EpochModel) : List ValueType :=
  analyzeTrivialDtmcLoop em em.epochInStates.setIndices 0

/-! ## Trivial analyzer, non-deterministic (lines 84-132) -/

/-- The ways in which a call ends without a result. -/
inductive Failure where
  /-- The exception thrown by `STORM_LOG_THROW`, with its message. -/
  | UncheckedRequirementException (message : String)
  /-- A failed `assert` or `STORM_LOG_ASSERT`, with the text of the assertion. -/
  | AssertionFailure (assertion : String)
  /-- A member call through a solver handle that holds no solver. -/
  | NullSolver
deriving DecidableEq, Repr

/-- The variables of the loop over the choices of one state: the position of the step
iterators, `bestValue` and `isFirstChoice`. -/
structure BestChoice where
  stepPos : Nat
  bestValue : ValueType
  isFirstChoice : Bool
deriving DecidableEq, Repr

/-- The value `choiceValue` computed in lines 105-111, for the step iterators at `pos`. -/
def choiceValueAt (em : EpochModel) (pos choice : Nat) : ValueType :=
  let choiceValue : ValueType := 0
  let choiceValue :=
    if em.rewardFilter.get choice then choiceValue + em.objectiveValues.getD choice 0
    else choiceValue
  if stepChoiceIs em.stepChoices pos choice then choiceValue + em.stepSolutions.getD pos 0
  else choiceValue

/-- One round of the loop over the choices of a state (lines 100-126). -/
def bestChoiceStep (dir : OptimizationDirection) (em : EpochModel) (st : BestChoice)
    (choice : Nat) : BestChoice :=
  let pos := advanceStepIt em.stepChoices choice st.stepPos
  let choiceValue := choiceValueAt em pos choice
  if st.isFirstChoice then
    ⟨pos, choiceValue, false⟩
  else if minimize dir then
    if choiceValue < st.bestValue then ⟨pos, choiceValue, false⟩ else ⟨pos, st.bestValue, false⟩
  else
    if choiceValue > st.bestValue then ⟨pos, choiceValue, false⟩ else ⟨pos, st.bestValue, false⟩

/-- The loop `for (choice = rowGroupIndices[state]; choice < lastChoice; ++choice)` of one
state, entered with the step iterators at `pos`. The default-constructed `bestValue` is
the zero of `storm::RationalNumber`. -/
def bestChoiceOfState (dir : OptimizationDirection) (em : EpochModel) (state pos : Nat) :
    BestChoice :=
  let lastChoice := em.epochMatrix.getRowGroupIndices.getD (state + 1) 0
  let firstChoice := em.epochMatrix.getRowGroupIndices.getD state 0
  (List.range' firstChoice (lastChoice - firstChoice)).foldl (bestChoiceStep dir em)
    ⟨pos, 0, true⟩

/-- The loop over `epochInStates` (lines 94-130). -/
def analyzeTrivialMdpLoop (dir : OptimizationDirection) (em : EpochModel) :
    List Nat → Nat → List ValueType
  | [], _ => []
  | state :: rest, pos =>
    let st := bestChoiceOfState dir em state pos
    st.bestValue :: analyzeTrivialMdpLoop dir em rest st.stepPos

/-- The function `analyzeTrivialMdpEpochModel`. -/
def analyzeTrivialMdpEpochModel (dir : OptimizationDirection) (em : EpochModel) :
    Except Failure (List ValueType) :=
  if em.epochMatrix.getEntryCount == 0 then
    .ok (analyzeTrivialMdpLoop dir em em.epochInStates.setIndices 0)
  else
    .error (.AssertionFailure "epochModel.epochMatrix.getEntryCount() == 0")

/-! ## The solver interface -/

/-- The analyzer functions. -/
inductive Analyzer where
  | TrivialDtmc
  | NonTrivialDtmc
  | TrivialMdp
  | NonTrivialMdp
deriving DecidableEq, Repr

/-- What a call leaves in its trace: the analyzer that a dispatcher runs, and the member
calls made on the solver and on the solver factory, with their arguments. -/
inductive SolverCall where
  | analyzer (which : Analyzer)
  | create (matrix : SparseMatrix)
  | setHasUniqueSolution
  | setOptimizationDirection (dir : OptimizationDirection)
  | setCachingEnabled (value : Bool)
  | setTrackScheduler (value : Bool)
  | getRequirements
  | setLowerBound (value : ValueType)
  | setUpperBound (value : ValueType)
  | setRequirementsChecked
  | getSchedulerChoices
  | setInitialScheduler (choices : List Nat)
  | solveEquations (x b : List ValueType)
deriving DecidableEq, Repr

/-- The operations of `storm::solver::LinearEquationSolver`, of its factory and of its
requirements object, none of which is part of the sources: they are parameters of the
analyzers. `S` is the type of solver objects, `R` the type of requirement sets; the
environment argument is fixed inside the operations. `solveEquations` returns the solver
after the call together with the new content of `x`. -/
structure LinearEquationSolver (S R : Type) where
  create : SparseMatrix → S
  setCachingEnabled : S → Bool → S
  getRequirements : S → R
  setLowerBound : S → ValueType → S
  setUpperBound : S → ValueType → S
  solveEquations : S → List ValueType → List ValueType → S × List ValueType
  clearLowerBounds : R → R
  clearUpperBounds : R → R
  hasEnabledCriticalRequirement : R → Bool
  getEnabledRequirementsAsString : R → String

/-- The operations of `storm::solver::MinMaxLinearEquationSolver`, of its factory and of
its requirements object: parameters of the analyzers, as for `LinearEquationSolver`. -/
structure MinMaxLinearEquationSolver (S R : Type) where
  create : SparseMatrix → S
  setHasUniqueSolution : S → S
  setOptimizationDirection : S → OptimizationDirection → S
  setCachingEnabled : S → Bool → S
  setTrackScheduler : S → Bool → S
  getRequirements : S → OptimizationDirection → Bool → R
  setLowerBound : S → ValueType → S
  setUpperBound : S → ValueType → S
  setRequirementsChecked : S → S
  getSchedulerChoices : S → List Nat
  setInitialScheduler : S → List Nat → S
  solveEquations : S → List ValueType → List ValueType → S × List ValueType
  clearLowerBounds : R → R
  clearUpperBounds : R → R
  hasEnabledCriticalRequirement : R → Bool
  getEnabledRequirementsAsString : R → String

/-- The solver-cache context: the vectors `x` and `b` and the solver handle
(`std::unique_ptr`, empty when `none`) that the analyzers receive by reference. -/
structure Context (S : Type) where
  x : List ValueType
  b : List ValueType
  solver : Option S

/-- The outcome of one call: the context it leaves, the trace of its calls, and the vector
it returns or the failure it ends with. -/
structure Run (S : Type) where
  context : Context S
  calls : List SolverCall
  result : Except Failure (List ValueType)

/-- Modelled from the spec: `storm::utility::vector::filterVector`, which is not part of the
sources: the compacted sub-vector of a dense vector at the indices of an ascending
index set, in the same ascending order. -/
def filterVector (values : List ValueType) (filter : BitVector) : List ValueType :=
  filter.setIndices.map (fun i => values.getD i 0)

/-- The message of the exception of lines 60 and 155. -/
def uncheckedRequirementMessage (requirements : String) : String :=
  "Solver requirements " ++ requirements ++ " not checked."

/-! ## Non-trivial analyzer, deterministic (lines 42-80) -/

/-- The loop `for (choice : objectiveRewardFilter.front()) b[choice] = objectiveValues[choice]`
(lines 66-68 and 165-167). -/
def assignObjectiveRewards (em : EpochModel) (b : List ValueType) : List ValueType :=
  em.rewardFilter.setIndices.foldl
    (fun b choice => b.set choice (em.objectiveValues.getD choice 0)) b

/-- The loop `for (choice : stepChoices) { b[choice] += *stepSolutionIt; ++stepSolutionIt; }`
(lines 70-73), on the pair of `b` and the position of `stepSolutionIt`. -/
def addStepSolutionsDtmc (em : EpochModel) (b : List ValueType) : List ValueType × Nat :=
  em.stepChoices.foldl
    (fun (acc : List ValueType × Nat) choice =>
      (acc.1.set choice (acc.1.getD choice 0 + em.stepSolutions.getD acc.2 0), acc.2 + 1))
    (b, 0)

/-- The right-hand side of lines 64-73 and the final position of `stepSolutionIt`. -/
def prepareRhsDtmc (em : EpochModel) : List ValueType × Nat :=
  let b : List ValueType := List.replicate em.epochMatrix.getRowCount 0
  let b := assignObjectiveRewards em b
  addStepSolutionsDtmc em b

/-- Lines 63-79 of `analyzeNonTrivialDtmcEpochModel`: the construction of `b`, the
assertion on `stepSolutionIt`, the solve and the returned sub-vector. `calls` is the trace
of the first part of the function. -/
def solveDtmc {S R : Type} (api : LinearEquationSolver S R) (em : EpochModel)
    (ctx : Context S) (calls : List SolverCall) : Run S :=
  let rhs := prepareRhsDtmc em
  let b := rhs.1
  if rhs.2 ≠ em.stepSolutions.length then
    ⟨{ ctx with b := b }, calls,
      .error (.AssertionFailure "stepSolutionIt == epochModel.stepSolutions.end()")⟩
  else
    match ctx.solver with
    | none => ⟨{ ctx with b := b }, calls, .error .NullSolver⟩
    | some solver =>
      let solved := api.solveEquations solver ctx.x b
      ⟨{ x := solved.2, b := b, solver := some solved.1 },
        calls ++ [.solveEquations ctx.x b],
        .ok (filterVector solved.2 em.epochInStates)⟩

/-- The solver that lines 48-59 build and configure. -/
def setUpLinearEquationSolver {S R : Type} (api : LinearEquationSolver S R) (em : EpochModel)
    (lowerBound upperBound : Option ValueType) : S :=
  let solver := api.create em.epochMatrix
  let solver := api.setCachingEnabled solver true
  let solver := match lowerBound with
    | some value => api.setLowerBound solver value
    | none => solver
  match upperBound with
  | some value => api.setUpperBound solver value
  | none => solver

/-- The requirements `req` as they stand at line 60: those of the new solver, queried
after `setCachingEnabled`, with the lower and upper bound requirements cleared when the
bound is supplied. -/
def remainingRequirementsDtmc {S R : Type} (api : LinearEquationSolver S R) (em : EpochModel)
    (lowerBound upperBound : Option ValueType) : R :=
  let req := api.getRequirements (api.setCachingEnabled (api.create em.epochMatrix) true)
  let req := match lowerBound with
    | some _ => api.clearLowerBounds req
    | none => req
  match upperBound with
  | some _ => api.clearUpperBounds req
  | none => req

/-- The trace of lines 48-59. -/
def setUpCallsDtmc (em : EpochModel) (lowerBound upperBound : Option ValueType) :
    List SolverCall :=
  [.create em.epochMatrix, .setCachingEnabled true, .getRequirements]
    ++ (match lowerBound with
        | some value => [.setLowerBound value]
        | none => [])
    ++ (match upperBound with
        | some value => [.setUpperBound value]
        | none => [])

/-- The function `analyzeNonTrivialDtmcEpochModel`. -/
def analyzeNonTrivialDtmcEpochModel {S R : Type} (api : LinearEquationSolver S R)
    (em : EpochModel) (ctx : Context S) (lowerBound upperBound : Option ValueType) : Run S :=
  if em.epochMatrixChanged then
    let x : List ValueType := List.replicate em.epochMatrix.getRowGroupCount 0
    let solver := setUpLinearEquationSolver api em lowerBound upperBound
    let req := remainingRequirementsDtmc api em lowerBound upperBound
    let calls := setUpCallsDtmc em lowerBound upperBound
    let ctx : Context S := { ctx with x := x, solver := some solver }
    if api.hasEnabledCriticalRequirement req then
      ⟨ctx, calls, .error (.UncheckedRequirementException
        (uncheckedRequirementMessage (api.getEnabledRequirementsAsString req)))⟩
    else
      solveDtmc api em ctx calls
  else
    solveDtmc api em ctx []

/-! ## Non-trivial analyzer, non-deterministic (lines 134-179) -/

/-- The loop of lines 169-172, on the pair of `b` and the position of `stepSolutionIt`. -/
def addStepSolutionsMdp (em : EpochModel) (b : List ValueType) : List ValueType × Nat :=
  em.stepChoices.foldl
    (fun (acc : List ValueType × Nat) choice =>
      (acc.1.set choice (acc.1.getD choice 0 + em.stepSolutions.getD acc.2 0), acc.2 + 1))
    (b, 0)

/-- The right-hand side of lines 163-172 and the final position of `stepSolutionIt`. -/
def prepareRhsMdp (em : EpochModel) : List ValueType × Nat :=
  let b : List ValueType := List.replicate em.epochMatrix.getRowCount 0
  let b := assignObjectiveRewards em b
  addStepSolutionsMdp em b

/-- Lines 162-178 of `analyzeNonTrivialMdpEpochModel`. -/
def solveMdp {S R : Type} (api : MinMaxLinearEquationSolver S R) (em : EpochModel)
    (ctx : Context S) (calls : List SolverCall) : Run S :=
  let rhs := prepareRhsMdp em
  let b := rhs.1
  if rhs.2 ≠ em.stepSolutions.length then
    ⟨{ ctx with b := b }, calls,
      .error (.AssertionFailure "stepSolutionIt == epochModel.stepSolutions.end()")⟩
  else
    match ctx.solver with
    | none => ⟨{ ctx with b := b }, calls, .error .NullSolver⟩
    | some solver =>
      let solved := api.solveEquations solver ctx.x b
      ⟨{ x := solved.2, b := b, solver := some solved.1 },
        calls ++ [.solveEquations ctx.x b],
        .ok (filterVector solved.2 em.epochInStates)⟩

/-- The solver that lines 141-153 build and configure. -/
def setUpMinMaxSolver {S R : Type} (api : MinMaxLinearEquationSolver S R)
    (dir : OptimizationDirection) (em : EpochModel)
    (lowerBound upperBound : Option ValueType) : S :=
  let solver := api.create em.epochMatrix
  let solver := api.setHasUniqueSolution solver
  let solver := api.setOptimizationDirection solver dir
  let solver := api.setCachingEnabled solver true
  let solver := api.setTrackScheduler solver true
  let solver := match lowerBound with
    | some value => api.setLowerBound solver value
    | none => solver
  match upperBound with
  | some value => api.setUpperBound solver value
  | none => solver

/-- The requirements `req` as they stand at line 155. -/
def remainingRequirementsMdp {S R : Type} (api : MinMaxLinearEquationSolver S R)
    (dir : OptimizationDirection) (em : EpochModel)
    (lowerBound upperBound : Option ValueType) : R :=
  let solver := api.create em.epochMatrix
  let solver := api.setHasUniqueSolution solver
  let solver := api.setOptimizationDirection solver dir
  let solver := api.setCachingEnabled solver true
  let solver := api.setTrackScheduler solver true
  let req := api.getRequirements solver dir false
  let req := match lowerBound with
    | some _ => api.clearLowerBounds req
    | none => req
  match upperBound with
  | some _ => api.clearUpperBounds req
  | none => req

/-- The trace of lines 141-153. -/
def setUpCallsMdp (dir : OptimizationDirection) (em : EpochModel)
    (lowerBound upperBound : Option ValueType) : List SolverCall :=
  [.create em.epochMatrix, .setHasUniqueSolution, .setOptimizationDirection dir,
    .setCachingEnabled true, .setTrackScheduler true, .getRequirements]
    ++ (match lowerBound with
        | some value => [.setLowerBound value]
        | none => [])
    ++ (match upperBound with
        | some value => [.setUpperBound value]
        | none => [])

/-- The function `analyzeNonTrivialMdpEpochModel`. -/
def analyzeNonTrivialMdpEpochModel {S R : Type} (api : MinMaxLinearEquationSolver S R)
    (dir : OptimizationDirection) (em : EpochModel) (ctx : Context S)
    (lowerBound upperBound : Option ValueType) : Run S :=
  if em.epochMatrixChanged then
    let x : List ValueType := List.replicate em.epochMatrix.getRowGroupCount 0
    let solver := setUpMinMaxSolver api dir em lowerBound upperBound
    let req := remainingRequirementsMdp api dir em lowerBound upperBound
    let calls := setUpCallsMdp dir em lowerBound upperBound
    if api.hasEnabledCriticalRequirement req then
      ⟨{ ctx with x := x, solver := some solver }, calls,
        .error (.UncheckedRequirementException
          (uncheckedRequirementMessage (api.getEnabledRequirementsAsString req)))⟩
    else
      solveMdp api em { ctx with x := x, solver := some (api.setRequirementsChecked solver) }
        (calls ++ [.setRequirementsChecked])
  else
    match ctx.solver with
    | none => ⟨ctx, [], .error .NullSolver⟩
    | some solver =>
      let choicesTmp := api.getSchedulerChoices solver
      let solver := api.setInitialScheduler solver choicesTmp
      solveMdp api em { ctx with solver := some solver }
        [.getSchedulerChoices, .setInitialScheduler choicesTmp]

/-! ## The dispatchers (lines 181-239) -/

/-- The overload of `EpochModel::analyzeSingleObjective` that takes a
`LinearEquationSolver` (lines 181-195 and 211-225). -/
def EpochModel.analyzeSingleObjective {S R : Type} (api : LinearEquationSolver S R)
    (em : EpochModel) (ctx : Context S) (lowerBound upperBound : Option ValueType) : Run S :=
  if !em.epochMatrix.hasTrivialRowGrouping then
    ⟨ctx, [], .error (.AssertionFailure
      "This operation is only allowed if no nondeterminism is present.")⟩
  else if !em.equationSolverProblemFormat.isSome then
    ⟨ctx, [], .error (.AssertionFailure "Unknown equation problem format.")⟩
  else
    let convertToEquationSystem : Bool :=
      em.equationSolverProblemFormat == some .EquationSystem
    if (convertToEquationSystem && em.epochMatrix.isIdentityMatrix)
        || (!convertToEquationSystem && em.epochMatrix.getEntryCount == 0) then
      ⟨ctx, [.analyzer .TrivialDtmc], .ok (analyzeTrivialDtmcEpochModel em)⟩
    else
      let run := analyzeNonTrivialDtmcEpochModel api em ctx lowerBound upperBound
      { run with calls := .analyzer .NonTrivialDtmc :: run.calls }

/-- The overload of `EpochModel::analyzeSingleObjective` that takes an optimization
direction and a `MinMaxLinearEquationSolver` (lines 197-209 and 227-239). -/
def EpochModel.analyzeSingleObjectiveMinMax {S R : Type} (api : MinMaxLinearEquationSolver S R)
    (dir : OptimizationDirection) (em : EpochModel) (ctx : Context S)
    (lowerBound upperBound : Option ValueType) : Run S :=
  if em.epochMatrix.getEntryCount == 0 then
    ⟨ctx, [.analyzer .TrivialMdp], analyzeTrivialMdpEpochModel dir em⟩
  else
    let run := analyzeNonTrivialMdpEpochModel api dir em ctx lowerBound upperBound
    { run with calls := .analyzer .NonTrivialMdp :: run.calls }

/-! ## Concrete solvers and epoch models for the examples -/

/-- A requirement set of three requirements; a flag is true when the requirement is
enabled and critical. -/
structure Requirements where
  lowerBounds : Bool
  upperBounds : Bool
  convergence : Bool
deriving DecidableEq, Repr

/-- The value `(A x)[row]` for one stored row. -/
def rowTimesVector (row : List (Nat × ValueType)) (x : List ValueType) : ValueType :=
  (row.map (fun entry => entry.2 * x.getD entry.1 0)).sum

/-- A solver object for the fixed point system `x = A x + b` that performs `sweeps` rounds
of `x := A x + b`, starting from the `x` it is handed. -/
structure SweepSolver where
  matrix : SparseMatrix
  sweeps : Nat
  requirements : Requirements
  cachingEnabled : Bool
  lowerBound : Option ValueType
  upperBound : Option ValueType
deriving DecidableEq, Repr

/-- One round `x := A x + b`. -/
def sweepOnce (matrix : SparseMatrix) (b x : List ValueType) : List ValueType :=
  (List.range matrix.getRowCount).map
    (fun row => rowTimesVector (matrix.rows.getD row []) x + b.getD row 0)

/-- The operations of the sweep solver: the factory builds solvers that perform `sweeps`
rounds and report `requirements`. -/
def sweepSolverApi (sweeps : Nat) (requirements : Requirements) :
    LinearEquationSolver SweepSolver Requirements where
  create := fun matrix => ⟨matrix, sweeps, requirements, false, none, none⟩
  setCachingEnabled := fun solver value => { solver with cachingEnabled := value }
  getRequirements := fun solver => solver.requirements
  setLowerBound := fun solver value => { solver with lowerBound := some value }
  setUpperBound := fun solver value => { solver with upperBound := some value }
  solveEquations := fun solver x b =>
    (solver, Nat.iterate (sweepOnce solver.matrix b) solver.sweeps x)
  clearLowerBounds := fun req => { req with lowerBounds := false }
  clearUpperBounds := fun req => { req with upperBounds := false }
  hasEnabledCriticalRequirement := fun req =>
    req.lowerBounds || req.upperBounds || req.convergence
  getEnabledRequirementsAsString := fun req =>
    (if req.lowerBounds then "lowerBounds " else "")
      ++ (if req.upperBounds then "upperBounds " else "")
      ++ (if req.convergence then "convergence " else "")

/-- A min/max solver object that performs `sweeps` rounds of value iteration and records
the choice offsets of the last round as its scheduler. -/
structure ValueIterationSolver where
  matrix : SparseMatrix
  sweeps : Nat
  requirements : Requirements
  hasUniqueSolution : Bool
  direction : Option OptimizationDirection
  cachingEnabled : Bool
  trackScheduler : Bool
  requirementsChecked : Bool
  lowerBound : Option ValueType
  upperBound : Option ValueType
  schedulerChoices : List Nat
  initialScheduler : Option (List Nat)
deriving DecidableEq, Repr

/-- The better of two (offset, value) pairs; the earlier one is kept on a tie. -/
def betterChoice (dir : Option OptimizationDirection) (best next : Nat × ValueType) :
    Nat × ValueType :=
  if dir = some .Maximize then (if best.2 < next.2 then next else best)
  else (if next.2 < best.2 then next else best)

/-- The optimal (offset, value) pair among the rows of one row group. -/
def optimizeGroup (solver : ValueIterationSolver) (b x : List ValueType) (group : Nat) :
    Nat × ValueType :=
  let first := solver.matrix.rowGroupIndices.getD group 0
  let last := solver.matrix.rowGroupIndices.getD (group + 1) 0
  let values := (List.range (last - first)).map (fun offset =>
    (offset, rowTimesVector (solver.matrix.rows.getD (first + offset) []) x
      + b.getD (first + offset) 0))
  match values with
  | [] => (0, 0)
  | head :: tail => tail.foldl (betterChoice solver.direction) head

/-- One round of value iteration. -/
def valueIterationOnce (solver : ValueIterationSolver) (b x : List ValueType) :
    List ValueType :=
  (List.range solver.matrix.getRowGroupCount).map (fun group =>
    (optimizeGroup solver b x group).2)

/-- The operations of the value iteration solver. -/
def valueIterationApi (sweeps : Nat) (requirements : Requirements) :
    MinMaxLinearEquationSolver ValueIterationSolver Requirements where
  create := fun matrix =>
    ⟨matrix, sweeps, requirements, false, none, false, false, false, none, none, [], none⟩
  setHasUniqueSolution := fun solver => { solver with hasUniqueSolution := true }
  setOptimizationDirection := fun solver dir => { solver with direction := some dir }
  setCachingEnabled := fun solver value => { solver with cachingEnabled := value }
  setTrackScheduler := fun solver value => { solver with trackScheduler := value }
  getRequirements := fun solver _ _ => solver.requirements
  setLowerBound := fun solver value => { solver with lowerBound := some value }
  setUpperBound := fun solver value => { solver with upperBound := some value }
  setRequirementsChecked := fun solver => { solver with requirementsChecked := true }
  getSchedulerChoices := fun solver => solver.schedulerChoices
  setInitialScheduler := fun solver choices => { solver with initialScheduler := some choices }
  solveEquations := fun solver x b =>
    let solution := Nat.iterate (valueIterationOnce solver b) solver.sweeps x
    ({ solver with
        schedulerChoices := (List.range solver.matrix.getRowGroupCount).map (fun group =>
          (optimizeGroup solver b solution group).1) },
      solution)
  clearLowerBounds := fun req => { req with lowerBounds := false }
  clearUpperBounds := fun req => { req with upperBounds := false }
  hasEnabledCriticalRequirement := fun req =>
    req.lowerBounds || req.upperBounds || req.convergence
  getEnabledRequirementsAsString := fun req =>
    (if req.lowerBounds then "lowerBounds " else "")
      ++ (if req.upperBounds then "upperBounds " else "")
      ++ (if req.convergence then "convergence " else "")

/-- The requirement set without any critical requirement. -/
def noRequirements : Requirements := ⟨false, false, false⟩

/-- Scenario A: no matrix entries, in-states {2}, reward 3 at choice 2, no step choices. -/
def scenarioA : EpochModel where
  epochMatrixChanged := false
  epochMatrix := ⟨3, [[], [], []], [0, 1, 2, 3]⟩
  stepChoices := []
  stepSolutions := []
  objectiveRewards := [[0, 0, 3]]
  objectiveRewardFilter := [⟨[false, false, true]⟩]
  epochInStates := ⟨[false, false, true]⟩
  equationSolverProblemFormat := some .FixedPointSystem

/-- A deterministic epoch model with three states, in-states {0, 2}, step choices 1 and 2
and a reward on the choices 0 and 2. -/
def mergeExample : EpochModel where
  epochMatrixChanged := false
  epochMatrix := ⟨3, [[], [], []], [0, 1, 2, 3]⟩
  stepChoices := [1, 2]
  stepSolutions := [5, 7]
  objectiveRewards := [[4, 0, 3]]
  objectiveRewardFilter := [⟨[true, false, true]⟩]
  epochInStates := ⟨[true, false, true]⟩
  equationSolverProblemFormat := some .FixedPointSystem

/-- The step solution paired with a choice: the entry of `stepSolutions` at the position
at which the choice occurs in `stepChoices`, zero when it does not occur. -/
def pairedStepSolution (stepChoices : List Nat) (stepSolutions : List ValueType)
    (choice : Nat) : ValueType :=
  if choice ∈ stepChoices then stepSolutions.getD (stepChoices.indexOf choice) 0 else 0

/-- The value of a choice: its objective reward (zero when the reward filter does not mark
it) plus the step solution paired with it (zero when it is no step choice). -/
def choiceValue (em : EpochModel) (choice : Nat) : ValueType :=
  (if em.rewardFilter.get choice then em.objectiveValues.getD choice 0 else 0)
    + pairedStepSolution em.stepChoices em.stepSolutions choice

/-- Scenario B: one state with the choices 0 and 1, of values 5 and 2. -/
def scenarioB : EpochModel where
  epochMatrixChanged := false
  epochMatrix := ⟨1, [[], []], [0, 2]⟩
  stepChoices := []
  stepSolutions := []
  objectiveRewards := [[5, 2]]
  objectiveRewardFilter := [⟨[true, true]⟩]
  epochInStates := ⟨[true]⟩
  equationSolverProblemFormat := none

/-- A non-deterministic epoch model without matrix entries: state 0 with the choices 0
and 1, state 1 with the choice 2; the choices 1 and 2 are step choices. -/
def mdpExample : EpochModel where
  epochMatrixChanged := false
  epochMatrix := ⟨2, [[], [], []], [0, 2, 3]⟩
  stepChoices := [1, 2]
  stepSolutions := [1, 4]
  objectiveRewards := [[5, 2, 0]]
  objectiveRewardFilter := [⟨[true, true, false]⟩]
  epochInStates := ⟨[true, true]⟩
  equationSolverProblemFormat := none

/-- Scenario C, epoch 1: one state with a self-loop of weight 1/2 and reward 1; the matrix
is new. -/
def scenarioC1 : EpochModel where
  epochMatrixChanged := true
  epochMatrix := ⟨1, [[(0, 1 / 2)]], [0, 1]⟩
  stepChoices := []
  stepSolutions := []
  objectiveRewards := [[1]]
  objectiveRewardFilter := [⟨[true]⟩]
  epochInStates := ⟨[true]⟩
  equationSolverProblemFormat := some .FixedPointSystem

/-- Scenario C, epoch 0: the matrix of epoch 1, unchanged, and a step choice into epoch 1
with the step solution 1. -/
def scenarioC0 : EpochModel where
  epochMatrixChanged := false
  epochMatrix := ⟨1, [[(0, 1 / 2)]], [0, 1]⟩
  stepChoices := [0]
  stepSolutions := [1]
  objectiveRewards := [[1]]
  objectiveRewardFilter := [⟨[true]⟩]
  epochInStates := ⟨[true]⟩
  equationSolverProblemFormat := some .FixedPointSystem

/-- A context without a solver, holding the vectors [9] and [9]. -/
def staleContext (S : Type) : Context S := ⟨[9], [9], none⟩

/-- A deterministic epoch model whose matrix is the 1 x 1 identity, new in this epoch, in
the fixed point format. -/
def identityFixedPoint : EpochModel where
  epochMatrixChanged := true
  epochMatrix := ⟨1, [[(0, 1)]], [0, 1]⟩
  stepChoices := []
  stepSolutions := []
  objectiveRewards := [[1]]
  objectiveRewardFilter := [⟨[true]⟩]
  epochInStates := ⟨[true]⟩
  equationSolverProblemFormat := some .FixedPointSystem

/-- The epoch model `identityFixedPoint` in the equation system format. -/
def identityEquationSystem : EpochModel :=
  { identityFixedPoint with equationSolverProblemFormat := some .EquationSystem }

/-- A non-deterministic epoch model whose matrix is the 1 x 1 identity. -/
def identityMdp : EpochModel where
  epochMatrixChanged := true
  epochMatrix := ⟨1, [[(0, 1)]], [0, 1]⟩
  stepChoices := []
  stepSolutions := []
  objectiveRewards := [[1]]
  objectiveRewardFilter := [⟨[true]⟩]
  epochInStates := ⟨[true]⟩
  equationSolverProblemFormat := none

/-- The requirement set whose only critical requirement is the one on lower bounds. -/
def lowerBoundsRequired : Requirements := ⟨true, false, false⟩

/-- The requirement set whose only critical requirement is the one on convergence. -/
def convergenceRequired : Requirements := ⟨false, false, true⟩

/-- The context left by the non-trivial deterministic analyzer after epoch 1 of scenario C,
for sweep solvers that require lower bounds, called with the lower bound 0. -/
def contextAfterEpoch1 : Context SweepSolver :=
  (analyzeNonTrivialDtmcEpochModel (sweepSolverApi 1 lowerBoundsRequired) scenarioC1
    (staleContext SweepSolver) (some 0) none).context

/-- A context for the matrix of scenario C: the vector `x` is [0] and the handle holds a
sweep solver that performs one round per solve. -/
def coldContext : Context SweepSolver :=
  ⟨[0], [], some ⟨scenarioC0.epochMatrix, 1, noRequirements, true, none, none⟩⟩

/-- A context for the matrix of scenario C whose `x` is the solution [4] of epoch 0,
`x = x / 2 + 2`. -/
def solvedContext : Context SweepSolver :=
  ⟨[4], [], some ⟨scenarioC0.epochMatrix, 1, noRequirements, true, none, none⟩⟩

/-! ## The choice behind `bestValue` -/

/-- The loop variables of `BestChoice` together with a ghost variable `selected`: the
choice whose value the last assignment to `bestValue` moved there. The code keeps no such
variable; it is written wherever lines 114, 119 and 123 assign `bestValue`. -/
structure TrackedBestChoice where
  stepPos : Nat
  bestValue : ValueType
  isFirstChoice : Bool
  selected : Nat
deriving DecidableEq, Repr

/-- The loop variables without the ghost variable. -/
def TrackedBestChoice.toBestChoice (st : TrackedBestChoice) : BestChoice :=
  ⟨st.stepPos, st.bestValue, st.isFirstChoice⟩

/-- One round of the loop over the choices of a state (lines 100-126), with the ghost
variable. -/
def bestChoiceStepTracked (dir : OptimizationDirection) (em : EpochModel)
    (st : TrackedBestChoice) (choice : Nat) : TrackedBestChoice :=
  let pos := advanceStepIt em.stepChoices choice st.stepPos
  let choiceValue := choiceValueAt em pos choice
  if st.isFirstChoice then
    ⟨pos, choiceValue, false, choice⟩
  else if minimize dir then
    if choiceValue < st.bestValue then ⟨pos, choiceValue, false, choice⟩
    else ⟨pos, st.bestValue, false, st.selected⟩
  else
    if choiceValue > st.bestValue then ⟨pos, choiceValue, false, choice⟩
    else ⟨pos, st.bestValue, false, st.selected⟩

/-- The loop over the choices of one state, with the ghost variable. -/
def trackedBestChoiceOfState (dir : OptimizationDirection) (em : EpochModel)
    (state pos : Nat) : TrackedBestChoice :=
  let lastChoice := em.epochMatrix.getRowGroupIndices.getD (state + 1) 0
  let firstChoice := em.epochMatrix.getRowGroupIndices.getD state 0
  (List.range' firstChoice (lastChoice - firstChoice)).foldl (bestChoiceStepTracked dir em)
    ⟨pos, 0, true, 0⟩

/-- The loop over `epochInStates` (lines 94-130), returning for every in-state the selected
choice next to the value pushed onto `epochResult`. -/
def analyzeTrivialMdpLoopTracked (dir : OptimizationDirection) (em : EpochModel) :
    List Nat → Nat → List (Nat × ValueType)
  | [], _ => []
  | state :: rest, pos =>
    let st := trackedBestChoiceOfState dir em state pos
    (st.selected, st.bestValue) :: analyzeTrivialMdpLoopTracked dir em rest st.stepPos

/-- The value `a` is a strict improvement on `b`: smaller when minimizing, larger when
maximizing. -/
def improves (dir : OptimizationDirection) (a b : ValueType) : Bool :=
  if minimize dir then decide (a < b) else decide (a > b)

/-- A non-deterministic epoch model without matrix entries whose state 0 has the choices
0, 1 and 2, of values 2, 1 and 1, and whose state 1 has the choice 3. -/
def tieExample : EpochModel where
  epochMatrixChanged := false
  epochMatrix := ⟨2, [[], [], [], []], [0, 3, 4]⟩
  stepChoices := []
  stepSolutions := []
  objectiveRewards := [[2, 1, 1, 0]]
  objectiveRewardFilter := [⟨[true, true, true, false]⟩]
  epochInStates := ⟨[true, true]⟩
  equationSolverProblemFormat := none

/-- A deterministic dispatch on a matrix with row groups: scenario B in the fixed point
format. -/
def groupedFixedPoint : EpochModel :=
  { scenarioB with equationSolverProblemFormat := some .FixedPointSystem }

/-- Scenario C, epoch 0, with the matrix flagged as changed. -/
def scenarioC0Changed : EpochModel :=
  { scenarioC0 with epochMatrixChanged := true }

/-! ## Sequences of calls on one cache context -/

/-- The arguments of one call of a dispatcher: the epoch model, the optimization direction
(used by the non-deterministic dispatcher only) and the bounds. -/
structure EpochCall where
  epochModel : EpochModel
  dir : OptimizationDirection
  lowerBound : Option ValueType
  upperBound : Option ValueType

/-- The call of the deterministic dispatcher with these arguments. -/
def EpochCall.run {S R : Type} (api : LinearEquationSolver S R) (ctx : Context S)
    (call : EpochCall) : Run S :=
  call.epochModel.analyzeSingleObjective api ctx call.lowerBound call.upperBound

/-- The call of the non-deterministic dispatcher with these arguments. -/
def EpochCall.runMinMax {S R : Type} (api : MinMaxLinearEquationSolver S R) (ctx : Context S)
    (call : EpochCall) : Run S :=
  call.epochModel.analyzeSingleObjectiveMinMax api call.dir ctx call.lowerBound
    call.upperBound

/-- The calls of the deterministic dispatcher made in order on one cache context: every
call receives the context that the call before it left. -/
def analyzeSequence {S R : Type} (api : LinearEquationSolver S R) :
    Context S → List EpochCall → List (Run S)
  | _, [] => []
  | ctx, call :: rest => call.run api ctx :: analyzeSequence api (call.run api ctx).context rest

/-- The calls of the non-deterministic dispatcher made in order on one cache context. -/
def analyzeSequenceMinMax {S R : Type} (api : MinMaxLinearEquationSolver S R) :
    Context S → List EpochCall → List (Run S)
  | _, [] => []
  | ctx, call :: rest =>
    call.runMinMax api ctx :: analyzeSequenceMinMax api (call.runMinMax api ctx).context rest

/-- The deterministic dispatcher hands the epoch model to the non-trivial analyzer: both
assertions hold and the condition of line 190 fails. -/
def EpochModel.reachesNonTrivialDtmc (em : EpochModel) : Bool :=
  em.epochMatrix.hasTrivialRowGrouping && em.equationSolverProblemFormat.isSome &&
    !(((em.equationSolverProblemFormat == some .EquationSystem)
          && em.epochMatrix.isIdentityMatrix)
      || (!(em.equationSolverProblemFormat == some .EquationSystem)
          && em.epochMatrix.getEntryCount == 0))

/-- The non-deterministic dispatcher hands the epoch model to the non-trivial analyzer:
the condition of line 204 fails. -/
def EpochModel.reachesNonTrivialMdp (em : EpochModel) : Bool :=
  !(em.epochMatrix.getEntryCount == 0)

/-- The first epoch of the sequence that reaches the non-trivial analyzer, when there is
one, has a changed matrix. -/
def firstNonTrivialIsChanged (reaches : EpochModel → Bool) : List EpochCall → Prop
  | [] => True
  | call :: rest =>
    if reaches call.epochModel then call.epochModel.epochMatrixChanged = true
    else firstNonTrivialIsChanged reaches rest

/-- Scenario C, epoch 0, in the equation system format: the matrix has the sparsity pattern
and the row grouping of the 1 x 1 identity and is flagged as unchanged. -/
def halfEquationSystem : EpochModel :=
  { scenarioC0 with equationSolverProblemFormat := some .EquationSystem }

/-- The three epochs of a run on one context: scenario A (no matrix entries), then
scenario C with epoch 1 (changed matrix) and epoch 0 (unchanged matrix). -/
def scenarioSequence : List EpochCall :=
  [⟨scenarioA, .Minimize, none, none⟩, ⟨scenarioC1, .Minimize, none, none⟩,
    ⟨scenarioC0, .Minimize, none, none⟩]

/-- Two epochs in the equation system format: the 1 x 1 identity matrix, flagged as
changed, and then the matrix with the same sparsity pattern of scenario C, flagged as
unchanged. -/
def identityThenHalf : List EpochCall :=
  [⟨identityEquationSystem, .Minimize, none, none⟩,
    ⟨halfEquationSystem, .Minimize, none, none⟩]

/-- Every epoch of the sequence that is flagged as unchanged has the matrix and the problem
format of the epoch before it; the first argument is the epoch before the sequence. -/
def unchangedKeepsMatrix : EpochCall → List EpochCall → Prop
  | _, [] => True
  | previous, call :: rest =>
    (call.epochModel.epochMatrixChanged = false →
      call.epochModel.epochMatrix = previous.epochModel.epochMatrix ∧
        call.epochModel.equationSolverProblemFormat =
          previous.epochModel.equationSolverProblemFormat) ∧
    unchangedKeepsMatrix call rest

/-- The deterministic epoch model `mergeExample` with a matrix that is new in this epoch. -/
def mergeExampleChanged : EpochModel :=
  { mergeExample with epochMatrixChanged := true }

/-- The deterministic epoch model `mergeExample` read as a non-deterministic one: every
state has exactly one choice. -/
def mergeExampleMdp : EpochModel :=
  { mergeExample with equationSolverProblemFormat := none }

/-- A context for the matrix of scenario C whose handle holds a value iteration solver that
performs one round per solve. -/
def coldMinMaxContext : Context ValueIterationSolver :=
  ⟨[0], [], some ((valueIterationApi 1 noRequirements).create scenarioC0.epochMatrix)⟩

/-! ## The integer logarithm of `src/utility/math.h` (lines 21-27) -/

namespace math

/-- The macro `S(k)` of `uint64_log2`, `if (n >= (UINT64_C(1) << k)) { i += k; n >>= k; }`,
on the pair of the variables `n` and `i`, both of type `uint64_t`. -/
def S (k : Nat) (st : Nat × Nat) : Nat × Nat :=
  if st.1 ≥ (1 <<< k) % 2 ^ 64 then (st.1 >>> k, (st.2 + k) % 2 ^ 64) else st

/-- The function `uint64_log2`, for an argument `n` below `2 ^ 64`. The assertion of line
23 is taken as enabled. -/
def uint64_log2 (n : Nat) : Except Failure Nat :=
  if n = 0 then .error (.AssertionFailure "n != 0")
  else .ok (S 1 (S 2 (S 4 (S 8 (S 16 (S 32 (n, 0))))))).2

end math

/-! ## `stripQuotsFromName` of `src/parser/DFTGalileoParser.cpp` (lines 21-30)

A `std::string` is the list of its characters; `size_t` has 64 bits. -/

namespace StdString

/-- The constant `std::string::npos`, the largest value of `size_t`. -/
def npos : Nat := 2 ^ 64 - 1

/-- The member function `std::string::find` of the C++ standard library for a string of the
one character `c`: the position of the first occurrence of `c` at or after `pos`, and
`npos` when there is none. -/
def find (name : List Char) (c : Char) (pos : Nat) : Nat :=
  if c ∈ name.drop pos then pos + (name.drop pos).indexOf c else npos

/-- The member function `std::string::substr` of the C++ standard library: the characters
from position `pos` on, at most `len` of them; it throws `std::out_of_range`, here `none`,
when `pos` is beyond the end of the string. -/
def substr (name : List Char) (pos len : Nat) : Option (List Char) :=
  if pos > name.length then none else some ((name.drop pos).take len)

end StdString

/-- The double quote, the character of the string literal of lines 22 and 23. -/
def doubleQuote : Char := Char.ofNat 34

/-- The function `stripQuotsFromName`. The sum `firstQuots+1` and the difference
`secondQuots-1` are computed in `size_t`. -/
def stripQuotsFromName (name : List Char) : Option (List Char) :=
  let firstQuots := StdString.find name doubleQuote 0
  let secondQuots := StdString.find name doubleQuote ((firstQuots + 1) % 2 ^ 64)
  if firstQuots = StdString.npos then
    some name
  else
    StdString.substr name ((firstQuots + 1) % 2 ^ 64) ((secondQuots + 2 ^ 64 - 1) % 2 ^ 64)

/-- The characters strictly between the first and the second double quote of a string. -/
def betweenQuotes (name : List Char) : List Char :=
  ((name.dropWhile (fun c => c != doubleQuote)).drop 1).takeWhile (fun c => c != doubleQuote)

/-- A string whose first double quote is not its first character: a blank, the name A in
double quotes, and a semicolon. -/
def toplevelRest : List Char :=
  [' ', doubleQuote, 'A', doubleQuote, ';']

/-- The argument of the call of line 63 for the line `toplevel  "A";` written with two
blanks: lines 58 and 59 cut the line before its first semicolon, and
`line.substr(topleveltoken.size()+1)` drops the keyword and one blank, which leaves a
blank and the name A in double quotes. -/
def toplevelArgument : List Char :=
  [' ', doubleQuote, 'A', doubleQuote]

/-! ## The accesses of the trivial analyzers

The trivial analyzers are written a second time with a ghost trace: next to what the code
computes, the list of the iterator and vector accesses it makes, in order. -/

theorem advanceStepIt_of_some (sc : List Nat) (bound pos choice : Nat)
    (hsome : stepChoiceAt sc pos = some choice) :
    advanceStepIt sc bound pos =
      if choice < bound then advanceStepIt sc bound (pos + 1) else pos := by
  rw [advanceStepIt]
  split
  · next c hc =>
    rw [hsome] at hc
    cases hc
    rfl
  · next hnone => rw [hsome] at hnone; cases hnone

theorem advanceStepIt_of_none (sc : List Nat) (bound pos : Nat)
    (hnone : stepChoiceAt sc pos = none) : advanceStepIt sc bound pos = pos := by
  rw [advanceStepIt]
  split
  · next c hc => rw [hnone] at hc; cases hc
  · rfl

theorem advanceStepIt_spec (sc : List Nat) (bound : Nat) (pos : Nat)
    (hinv : ∀ i, i < pos → ∀ h : i < sc.length, sc[i] < bound) :
    pos ≤ advanceStepIt sc bound pos ∧
    (∀ i, i < advanceStepIt sc bound pos → ∀ h : i < sc.length, sc[i] < bound) ∧
    (∀ h : advanceStepIt sc bound pos < sc.length, bound ≤ sc[advanceStepIt sc bound pos]) := by
  generalize hn : sc.length - pos = n
  induction n using Nat.strong_induction_on generalizing pos with
  | _ n ih =>
    cases hat : stepChoiceAt sc pos with
    | some choice =>
      obtain ⟨hlt, hget⟩ := List.getElem?_eq_some.mp hat
      rw [advanceStepIt_of_some sc bound pos choice hat]
      by_cases hb : choice < bound
      · simp only [hb, if_true]
        have hinv2 : ∀ i, i < pos + 1 → ∀ h : i < sc.length, sc[i] < bound := by
          intro i hi h
          rcases Nat.lt_succ_iff_lt_or_eq.mp hi with h1 | h1
          · exact hinv i h1 h
          · subst h1; rw [hget]; exact hb
        obtain ⟨h1, h2, h3⟩ := ih (sc.length - (pos + 1)) (by omega) (pos + 1) hinv2 rfl
        exact ⟨by omega, h2, h3⟩
      · simp only [hb, if_false]
        exact ⟨le_refl _, hinv, fun _ => by rw [hget]; exact not_lt.mp hb⟩
    | none =>
      have hge : sc.length ≤ pos := List.getElem?_eq_none_iff.mp hat
      rw [advanceStepIt_of_none sc bound pos hat]
      exact ⟨le_refl _, hinv, fun h => absurd h (by omega)⟩

theorem advanceStepIt_nil (bound pos : Nat) : advanceStepIt [] bound pos = pos :=
  advanceStepIt_of_none [] bound pos rfl

theorem sorted_getElem_lt {sc : List Nat} (hs : sc.Sorted (· < ·)) {i j : Nat}
    (hj : j < sc.length) (hij : i < j) : sc[i] < sc[j] :=
  (List.pairwise_iff_getElem.mp hs) i j (lt_trans hij hj) hj hij

theorem stepChoiceIs_spec {sc : List Nat} (hs : sc.Sorted (· < ·)) (ss : List ValueType)
    (s p : Nat) (hbelow : ∀ i, i < p → ∀ h : i < sc.length, sc[i] < s)
    (habove : ∀ h : p < sc.length, s ≤ sc[p]) :
    (if stepChoiceIs sc p s then ss.getD p 0 else 0) = pairedStepSolution sc ss s := by
  unfold stepChoiceIs stepChoiceAt pairedStepSolution
  by_cases hmem : s ∈ sc
  · obtain ⟨j, hj, hjs⟩ := List.mem_iff_getElem.mp hmem
    have hjp : j = p := by
      rcases Nat.lt_trichotomy j p with h | h | h
      · have := hbelow j h hj; omega
      · exact h
      · have h1 := sorted_getElem_lt hs hj h
        have h2 := habove (lt_trans h hj)
        omega
    subst hjp
    have hidx : sc.indexOf s = j := by
      rw [← hjs]; exact List.indexOf_getElem hs.nodup j hj
    simp [hmem, hidx, List.getElem?_eq_getElem hj, hjs]
  · have : sc[p]? ≠ some s := by
      intro h
      exact hmem (List.mem_iff_getElem?.mpr ⟨p, h⟩)
    simp [hmem, this]

theorem pairedStepSolution_of_get {sc : List Nat} (hs : sc.Sorted (· < ·))
    (ss : List ValueType) (s j : Nat) (hj : sc[j]? = some s) :
    pairedStepSolution sc ss s = ss.getD j 0 := by
  obtain ⟨hlt, hjs⟩ := List.getElem?_eq_some.mp hj
  have hmem : s ∈ sc := List.mem_iff_getElem?.mpr ⟨j, hj⟩
  have hidx : sc.indexOf s = j := by
    rw [← hjs]; exact List.indexOf_getElem hs.nodup j hlt
  simp [pairedStepSolution, hmem, hidx]

theorem pairedStepSolution_of_not_mem (sc : List Nat) (ss : List ValueType) (s : Nat)
    (hs : s ∉ sc) : pairedStepSolution sc ss s = 0 := by
  simp [pairedStepSolution, hs]

theorem setIndices_sorted (bv : BitVector) : bv.setIndices.Sorted (· < ·) :=
  (List.sorted_lt_range _).filter _

/-! ## The trivial deterministic analyzer -/

theorem analyzeTrivialDtmcLoop_eq (em : EpochModel) (hs : em.stepChoices.Sorted (· < ·)) :
    ∀ (states : List Nat) (pos : Nat), states.Sorted (· < ·) →
      (∀ i, i < pos → ∀ h : i < em.stepChoices.length, ∀ s ∈ states, em.stepChoices[i] < s) →
      analyzeTrivialDtmcLoop em states pos = states.map (fun s =>
        (if em.rewardFilter.get s then em.objectiveValues.getD s 0 else 0)
          + pairedStepSolution em.stepChoices em.stepSolutions s) := by
  intro states
  induction states with
  | nil => intro pos _ _; rfl
  | cons state rest ih =>
    intro pos hsorted hinv
    obtain ⟨_, hbelow, habove⟩ := advanceStepIt_spec em.stepChoices state pos
      (fun i hi h => hinv i hi h state (List.mem_cons_self _ _))
    have hrest := List.sorted_cons.mp hsorted
    have hinv2 : ∀ i, i < advanceStepIt em.stepChoices state pos →
        ∀ h : i < em.stepChoices.length, ∀ s ∈ rest, em.stepChoices[i] < s :=
      fun i hi h s hsr => lt_trans (hbelow i hi h) (hrest.1 s hsr)
    have hmatch := stepChoiceIs_spec hs em.stepSolutions state _ hbelow habove
    simp only [analyzeTrivialDtmcLoop, List.map_cons]
    rw [ih _ hrest.2 hinv2, ← hmatch]
    congr 1
    split_ifs <;> simp

theorem analyzeTrivialDtmcEpochModel_eq (em : EpochModel)
    (hs : em.stepChoices.Sorted (· < ·)) :
    analyzeTrivialDtmcEpochModel em = em.epochInStates.setIndices.map (fun s =>
      (if em.rewardFilter.get s then em.objectiveValues.getD s 0 else 0)
        + pairedStepSolution em.stepChoices em.stepSolutions s) :=
  analyzeTrivialDtmcLoop_eq em hs _ 0 (setIndices_sorted _) (fun _ hi => absurd hi (Nat.not_lt_zero _))

/-- C1: for a deterministic epoch model with strictly ascending step choices and as many
step solutions as step choices, the entry of the trivial analyzer's result for the k-th
in-state s is the objective reward of s (zero when the reward filter does not mark s) plus
the step solution at the position at which s occurs among the step choices (zero when s
is no step choice); scenario A yields the vector [3]. -/
theorem analyzeTrivialDtmcEpochModel_entry (em : EpochModel)
    (hsorted : em.stepChoices.Sorted (· < ·))
    (hlen : em.stepSolutions.length = em.stepChoices.length)
    (k s : Nat) (hk : em.epochInStates.setIndices[k]? = some s) :
    (∀ j : Nat, em.stepChoices[j]? = some s →
      ∃ v : ValueType, em.stepSolutions[j]? = some v ∧
        (analyzeTrivialDtmcEpochModel em)[k]? =
          some ((if em.rewardFilter.get s then em.objectiveValues.getD s 0 else 0) + v)) ∧
    (s ∉ em.stepChoices →
      (analyzeTrivialDtmcEpochModel em)[k]? =
        some ((if em.rewardFilter.get s then em.objectiveValues.getD s 0 else 0) + 0)) ∧
    analyzeTrivialDtmcEpochModel scenarioA = [3] := by
  have hres : (analyzeTrivialDtmcEpochModel em)[k]? =
      some ((if em.rewardFilter.get s then em.objectiveValues.getD s 0 else 0)
        + pairedStepSolution em.stepChoices em.stepSolutions s) := by
    rw [analyzeTrivialDtmcEpochModel_eq em hsorted, List.getElem?_map, hk]
    rfl
  refine ⟨?_, ?_, ?_⟩
  · intro j hj
    have hlt : j < em.stepSolutions.length := by
      rw [hlen]; exact (List.getElem?_eq_some.mp hj).1
    refine ⟨em.stepSolutions[j], List.getElem?_eq_getElem hlt, ?_⟩
    rw [hres, pairedStepSolution_of_get hsorted _ _ _ hj]
    simp [List.getD_eq_getElem?_getD, List.getElem?_eq_getElem hlt]
  · intro hnot
    rw [hres, pairedStepSolution_of_not_mem _ _ _ hnot]
  · simp [analyzeTrivialDtmcEpochModel, analyzeTrivialDtmcLoop, scenarioA,
      BitVector.setIndices, List.range, List.range.loop, advanceStepIt_nil,
      EpochModel.rewardFilter, BitVector.get, stepChoiceIs, stepChoiceAt,
      EpochModel.objectiveValues]

/-- C1 at `mergeExample`: the in-state 2 (the second one) is the step choice at position 1,
and its entry is the reward 3 plus the step solution 7. -/
theorem analyzeTrivialDtmcEpochModel_entry_witness :
    mergeExample.stepChoices.Sorted (· < ·) ∧
    mergeExample.stepSolutions.length = mergeExample.stepChoices.length ∧
    mergeExample.epochInStates.setIndices[1]? = some 2 ∧
    mergeExample.stepChoices[1]? = some 2 ∧
    ∃ v : ValueType, mergeExample.stepSolutions[1]? = some v ∧
      (analyzeTrivialDtmcEpochModel mergeExample)[1]? =
        some ((if mergeExample.rewardFilter.get 2 then
          mergeExample.objectiveValues.getD 2 0 else 0) + v) :=
  ⟨by decide, by decide, by decide, by decide,
    (analyzeTrivialDtmcEpochModel_entry mergeExample (by decide) (by decide) 1 2
      (by decide)).1 1 (by decide)⟩

/-! ## The trivial non-deterministic analyzer -/

theorem choiceValueAt_advance (em : EpochModel) (hs : em.stepChoices.Sorted (· < ·))
    (choice pos : Nat)
    (hinv : ∀ i, i < pos → ∀ h : i < em.stepChoices.length, em.stepChoices[i] < choice) :
    choiceValueAt em (advanceStepIt em.stepChoices choice pos) choice = choiceValue em choice := by
  obtain ⟨_, hbelow, habove⟩ := advanceStepIt_spec em.stepChoices choice pos hinv
  have hmatch := stepChoiceIs_spec hs em.stepSolutions choice _ hbelow habove
  unfold choiceValueAt choiceValue
  rw [← hmatch]
  split_ifs <;> simp

theorem bestChoiceStep_of_not_first (dir : OptimizationDirection) (em : EpochModel)
    (st : BestChoice) (c : Nat) (hfirst : st.isFirstChoice = false) :
    bestChoiceStep dir em st c =
      ⟨advanceStepIt em.stepChoices c st.stepPos,
        if minimize dir = true then
          (if choiceValueAt em (advanceStepIt em.stepChoices c st.stepPos) c < st.bestValue then
            choiceValueAt em (advanceStepIt em.stepChoices c st.stepPos) c else st.bestValue)
        else
          (if choiceValueAt em (advanceStepIt em.stepChoices c st.stepPos) c > st.bestValue then
            choiceValueAt em (advanceStepIt em.stepChoices c st.stepPos) c else st.bestValue),
        false⟩ := by
  unfold bestChoiceStep
  simp only [hfirst, Bool.false_eq_true, if_false]
  split_ifs <;> rfl

theorem bestChoiceStep_fold (dir : OptimizationDirection) (em : EpochModel)
    (hs : em.stepChoices.Sorted (· < ·)) :
    ∀ (cs : List Nat) (st : BestChoice), st.isFirstChoice = false → cs.Sorted (· < ·) →
      (∀ i, i < st.stepPos → ∀ h : i < em.stepChoices.length, ∀ c ∈ cs, em.stepChoices[i] < c) →
      (cs.foldl (bestChoiceStep dir em) st).isFirstChoice = false ∧
      (∀ bound, (∀ c ∈ cs, c < bound) →
        (∀ i, i < st.stepPos → ∀ h : i < em.stepChoices.length, em.stepChoices[i] < bound) →
        ∀ i, i < (cs.foldl (bestChoiceStep dir em) st).stepPos →
          ∀ h : i < em.stepChoices.length, em.stepChoices[i] < bound) ∧
      ((cs.foldl (bestChoiceStep dir em) st).bestValue = st.bestValue ∨
        ∃ c ∈ cs, (cs.foldl (bestChoiceStep dir em) st).bestValue = choiceValue em c) ∧
      (minimize dir = true →
        (cs.foldl (bestChoiceStep dir em) st).bestValue ≤ st.bestValue ∧
        ∀ c ∈ cs, (cs.foldl (bestChoiceStep dir em) st).bestValue ≤ choiceValue em c) ∧
      (minimize dir = false →
        st.bestValue ≤ (cs.foldl (bestChoiceStep dir em) st).bestValue ∧
        ∀ c ∈ cs, choiceValue em c ≤ (cs.foldl (bestChoiceStep dir em) st).bestValue) := by
  intro cs
  induction cs with
  | nil =>
    intro st hfirst _ _
    exact ⟨hfirst, fun _ _ h => h, Or.inl rfl, fun _ => ⟨le_refl _, by simp⟩,
      fun _ => ⟨le_refl _, by simp⟩⟩
  | cons c rest ih =>
    intro st hfirst hsorted hinv
    have hrest := List.sorted_cons.mp hsorted
    have hinvc : ∀ i, i < st.stepPos → ∀ h : i < em.stepChoices.length,
        em.stepChoices[i] < c := fun i hi h => hinv i hi h c (List.mem_cons_self _ _)
    obtain ⟨_, hbelow, _⟩ := advanceStepIt_spec em.stepChoices c st.stepPos hinvc
    have hval := choiceValueAt_advance em hs c st.stepPos hinvc
    have hstep := bestChoiceStep_of_not_first dir em st c hfirst
    rw [hval] at hstep
    have hpos : (bestChoiceStep dir em st c).stepPos =
        advanceStepIt em.stepChoices c st.stepPos := by rw [hstep]
    have hfirst2 : (bestChoiceStep dir em st c).isFirstChoice = false := by rw [hstep]
    have hinv2 : ∀ i, i < (bestChoiceStep dir em st c).stepPos →
        ∀ h : i < em.stepChoices.length, ∀ c2 ∈ rest, em.stepChoices[i] < c2 := by
      intro i hi h c2 hc2
      rw [hpos] at hi
      exact lt_trans (hbelow i hi h) (hrest.1 c2 hc2)
    obtain ⟨h1, h2, h3, h4, h5⟩ := ih (bestChoiceStep dir em st c) hfirst2 hrest.2 hinv2
    have hbest : (bestChoiceStep dir em st c).bestValue =
        if minimize dir = true then
          (if choiceValue em c < st.bestValue then choiceValue em c else st.bestValue)
        else (if choiceValue em c > st.bestValue then choiceValue em c else st.bestValue) := by
      rw [hstep]
    simp only [List.foldl_cons]
    refine ⟨h1, ?_, ?_, ?_, ?_⟩
    · intro bound hb hib i hi h
      refine h2 bound (fun c2 hc2 => hb c2 (List.mem_cons_of_mem _ hc2)) ?_ i hi h
      intro i2 hi2 h
      rw [hpos] at hi2
      exact lt_trans (hbelow i2 hi2 h) (hb c (List.mem_cons_self _ _))
    · rcases h3 with h3 | ⟨c2, hc2, h3⟩
      · rw [h3, hbest]
        split_ifs
        · exact Or.inr ⟨c, List.mem_cons_self _ _, rfl⟩
        · exact Or.inl rfl
        · exact Or.inr ⟨c, List.mem_cons_self _ _, rfl⟩
        · exact Or.inl rfl
      · exact Or.inr ⟨c2, List.mem_cons_of_mem _ hc2, h3⟩
    · intro hmin
      obtain ⟨h41, h42⟩ := h4 hmin
      rw [hbest] at h41
      simp only [hmin, if_true] at h41
      have hle : (List.foldl (bestChoiceStep dir em) (bestChoiceStep dir em st c) rest).bestValue
          ≤ st.bestValue ∧
          (List.foldl (bestChoiceStep dir em) (bestChoiceStep dir em st c) rest).bestValue
          ≤ choiceValue em c := by
        split_ifs at h41 with hlt
        · exact ⟨le_trans h41 (le_of_lt hlt), h41⟩
        · exact ⟨h41, le_trans h41 (not_lt.mp hlt)⟩
      refine ⟨hle.1, ?_⟩
      intro c2 hc2
      rcases List.mem_cons.mp hc2 with h | h
      · rw [h]; exact hle.2
      · exact h42 c2 h
    · intro hmax
      obtain ⟨h51, h52⟩ := h5 hmax
      rw [hbest] at h51
      simp only [hmax] at h51
      have hle : st.bestValue ≤
          (List.foldl (bestChoiceStep dir em) (bestChoiceStep dir em st c) rest).bestValue ∧
          choiceValue em c ≤
          (List.foldl (bestChoiceStep dir em) (bestChoiceStep dir em st c) rest).bestValue := by
        simp only [Bool.false_eq_true, if_false] at h51
        split_ifs at h51 with hlt
        · exact ⟨le_trans (le_of_lt hlt) h51, h51⟩
        · exact ⟨h51, le_trans (not_lt.mp hlt) h51⟩
      refine ⟨hle.1, ?_⟩
      intro c2 hc2
      rcases List.mem_cons.mp hc2 with h | h
      · rw [h]; exact hle.2
      · exact h52 c2 h

theorem getD_le_getD_of_sorted {rg : List Nat} (hrg : rg.Sorted (· ≤ ·)) {a b : Nat}
    (hab : a ≤ b) (hb : b < rg.length) : rg.getD a 0 ≤ rg.getD b 0 := by
  have ha : a < rg.length := lt_of_le_of_lt hab hb
  rw [List.getD_eq_getElem _ _ ha, List.getD_eq_getElem _ _ hb]
  rcases Nat.lt_or_eq_of_le hab with h | h
  · exact (List.pairwise_iff_getElem.mp hrg) a b ha hb h
  · subst h; exact le_refl _

theorem bestChoiceOfState_of_empty (dir : OptimizationDirection) (em : EpochModel)
    (state pos : Nat)
    (hempty : ¬ em.epochMatrix.getRowGroupIndices.getD state 0
      < em.epochMatrix.getRowGroupIndices.getD (state + 1) 0) :
    bestChoiceOfState dir em state pos = ⟨pos, 0, true⟩ := by
  unfold bestChoiceOfState
  have h : em.epochMatrix.getRowGroupIndices.getD (state + 1) 0
      - em.epochMatrix.getRowGroupIndices.getD state 0 = 0 := by omega
  simp only [h, List.range'_zero, List.foldl_nil]

theorem bestChoiceOfState_spec (dir : OptimizationDirection) (em : EpochModel)
    (hs : em.stepChoices.Sorted (· < ·)) (state pos : Nat)
    (hne : em.epochMatrix.getRowGroupIndices.getD state 0
      < em.epochMatrix.getRowGroupIndices.getD (state + 1) 0)
    (hinv : ∀ i, i < pos → ∀ h : i < em.stepChoices.length,
      em.stepChoices[i] < em.epochMatrix.getRowGroupIndices.getD state 0) :
    (∀ i, i < (bestChoiceOfState dir em state pos).stepPos →
      ∀ h : i < em.stepChoices.length,
        em.stepChoices[i] < em.epochMatrix.getRowGroupIndices.getD (state + 1) 0) ∧
    (∃ c, em.epochMatrix.getRowGroupIndices.getD state 0 ≤ c ∧
      c < em.epochMatrix.getRowGroupIndices.getD (state + 1) 0 ∧
      (bestChoiceOfState dir em state pos).bestValue = choiceValue em c) ∧
    (∀ c, em.epochMatrix.getRowGroupIndices.getD state 0 ≤ c →
      c < em.epochMatrix.getRowGroupIndices.getD (state + 1) 0 →
      if minimize dir = true then (bestChoiceOfState dir em state pos).bestValue ≤ choiceValue em c
      else choiceValue em c ≤ (bestChoiceOfState dir em state pos).bestValue) := by
  obtain ⟨n, hn⟩ : ∃ n, em.epochMatrix.getRowGroupIndices.getD (state + 1) 0
      - em.epochMatrix.getRowGroupIndices.getD state 0 = n + 1 := ⟨_, (Nat.succ_pred_eq_of_pos
        (Nat.sub_pos_of_lt hne)).symm⟩
  generalize hfirst : em.epochMatrix.getRowGroupIndices.getD state 0 = first at *
  generalize hlast : em.epochMatrix.getRowGroupIndices.getD (state + 1) 0 = last at *
  have hlast2 : last = first + (n + 1) := by omega
  obtain ⟨_, hbelow, _⟩ := advanceStepIt_spec em.stepChoices first pos hinv
  have hval := choiceValueAt_advance em hs first pos hinv
  have hunf : bestChoiceOfState dir em state pos =
      (List.range' (first + 1) n).foldl (bestChoiceStep dir em)
        ⟨advanceStepIt em.stepChoices first pos, choiceValue em first, false⟩ := by
    unfold bestChoiceOfState
    simp only [hfirst, hlast, hn, List.range'_succ, List.foldl_cons]
    congr 1
    unfold bestChoiceStep
    simp [hval]
  have hsortedRange : (List.range' (first + 1) n).Sorted (· < ·) := by
    simpa [List.Sorted] using List.pairwise_lt_range' (first + 1) n
  have hmemRange : ∀ c, c ∈ List.range' (first + 1) n ↔ first + 1 ≤ c ∧ c < last := by
    intro c; rw [List.mem_range'_1]; omega
  obtain ⟨_, h2, h3, h4, h5⟩ := bestChoiceStep_fold dir em hs (List.range' (first + 1) n)
    ⟨advanceStepIt em.stepChoices first pos, choiceValue em first, false⟩ rfl hsortedRange
    (fun i hi h c hc => lt_trans (hbelow i hi h) (by have := (hmemRange c).mp hc; omega))
  rw [hunf]
  refine ⟨?_, ?_, ?_⟩
  · refine h2 last (fun c hc => ((hmemRange c).mp hc).2) ?_
    intro i hi h
    exact lt_trans (hbelow i hi h) (by omega)
  · rcases h3 with h3 | ⟨c, hc, h3⟩
    · exact ⟨first, le_refl _, by omega, h3⟩
    · have := (hmemRange c).mp hc
      exact ⟨c, by omega, this.2, h3⟩
  · intro c hc1 hc2
    by_cases hmin : minimize dir = true
    · rw [if_pos hmin]
      obtain ⟨h41, h42⟩ := h4 hmin
      rcases Nat.eq_or_lt_of_le hc1 with h | h
      · rw [← h]; exact h41
      · exact h42 c ((hmemRange c).mpr ⟨h, hc2⟩)
    · rw [if_neg hmin]
      obtain ⟨h51, h52⟩ := h5 (by simpa using hmin)
      rcases Nat.eq_or_lt_of_le hc1 with h | h
      · rw [← h]; exact h51
      · exact h52 c ((hmemRange c).mpr ⟨h, hc2⟩)

theorem analyzeTrivialMdpLoop_entry (dir : OptimizationDirection) (em : EpochModel)
    (hs : em.stepChoices.Sorted (· < ·))
    (hrg : em.epochMatrix.getRowGroupIndices.Sorted (· ≤ ·)) :
    ∀ (states : List Nat) (pos : Nat), states.Sorted (· < ·) →
      (∀ s ∈ states, em.epochMatrix.getRowGroupIndices.getD s 0
          < em.epochMatrix.getRowGroupIndices.getD (s + 1) 0 →
        ∀ i, i < pos → ∀ h : i < em.stepChoices.length,
          em.stepChoices[i] < em.epochMatrix.getRowGroupIndices.getD s 0) →
      ∀ (k s : Nat), states[k]? = some s →
        em.epochMatrix.getRowGroupIndices.getD s 0
          < em.epochMatrix.getRowGroupIndices.getD (s + 1) 0 →
        ∃ v : ValueType, (analyzeTrivialMdpLoop dir em states pos)[k]? = some v ∧
          (∃ c, em.epochMatrix.getRowGroupIndices.getD s 0 ≤ c ∧
            c < em.epochMatrix.getRowGroupIndices.getD (s + 1) 0 ∧ v = choiceValue em c) ∧
          (∀ c, em.epochMatrix.getRowGroupIndices.getD s 0 ≤ c →
            c < em.epochMatrix.getRowGroupIndices.getD (s + 1) 0 →
            if minimize dir = true then v ≤ choiceValue em c else choiceValue em c ≤ v) := by
  intro states
  induction states with
  | nil => intro pos _ _ k s hk; simp at hk
  | cons state rest ih =>
    intro pos hsorted hinv k s hk hne
    have hrest := List.sorted_cons.mp hsorted
    cases k with
    | zero =>
      simp only [List.getElem?_cons_zero, Option.some.injEq] at hk
      subst hk
      obtain ⟨_, h2, h3⟩ := bestChoiceOfState_spec dir em hs state pos hne
        (hinv state (List.mem_cons_self _ _) hne)
      exact ⟨_, by simp [analyzeTrivialMdpLoop], h2, h3⟩
    | succ k =>
      simp only [List.getElem?_cons_succ] at hk
      have hinv2 : ∀ s2 ∈ rest, em.epochMatrix.getRowGroupIndices.getD s2 0
          < em.epochMatrix.getRowGroupIndices.getD (s2 + 1) 0 →
          ∀ i, i < (bestChoiceOfState dir em state pos).stepPos →
            ∀ h : i < em.stepChoices.length,
              em.stepChoices[i] < em.epochMatrix.getRowGroupIndices.getD s2 0 := by
        intro s2 hs2 hne2 i hi h
        by_cases hhead : em.epochMatrix.getRowGroupIndices.getD state 0
            < em.epochMatrix.getRowGroupIndices.getD (state + 1) 0
        · obtain ⟨h1, _, _⟩ := bestChoiceOfState_spec dir em hs state pos hhead
            (hinv state (List.mem_cons_self _ _) hhead)
          have hlt : state < s2 := hrest.1 s2 hs2
          have hin : s2 < em.epochMatrix.getRowGroupIndices.length := by
            by_contra hcon
            rw [List.getD_eq_default _ _ (by omega), List.getD_eq_default _ _ (by omega)] at hne2
            exact absurd hne2 (lt_irrefl _)
          exact lt_of_lt_of_le (h1 i hi h) (getD_le_getD_of_sorted hrg hlt hin)
        · rw [bestChoiceOfState_of_empty dir em state pos hhead] at hi
          exact hinv s2 (List.mem_cons_of_mem _ hs2) hne2 i hi h
      obtain ⟨v, hv, hrestv⟩ := ih (bestChoiceOfState dir em state pos).stepPos hrest.2 hinv2
        k s hk hne
      exact ⟨v, by simpa [analyzeTrivialMdpLoop] using hv, hrestv⟩

/-- C2: for a non-deterministic epoch model with zero matrix entries, strictly ascending
step choices, as many step solutions as step choices and nondecreasing row-group
boundaries, the trivial analyzer returns a result whose entry for the k-th in-state s,
when the choice range of s is not empty, is the value of some choice of that range and is
the least (minimizing) or the greatest (maximizing) of the values of the choices of the
range; minimizing over the values 5 and 2 of scenario B yields 2. -/
theorem analyzeTrivialMdpEpochModel_entry (dir : OptimizationDirection) (em : EpochModel)
    (hzero : em.epochMatrix.getEntryCount = 0)
    (hsorted : em.stepChoices.Sorted (· < ·))
    (_hlen : em.stepSolutions.length = em.stepChoices.length)
    (hrg : em.epochMatrix.getRowGroupIndices.Sorted (· ≤ ·))
    (k s : Nat) (hk : em.epochInStates.setIndices[k]? = some s)
    (hne : em.epochMatrix.getRowGroupIndices.getD s 0
      < em.epochMatrix.getRowGroupIndices.getD (s + 1) 0) :
    (∃ (result : List ValueType) (v : ValueType),
      analyzeTrivialMdpEpochModel dir em = .ok result ∧ result[k]? = some v ∧
      (∃ c, em.epochMatrix.getRowGroupIndices.getD s 0 ≤ c ∧
        c < em.epochMatrix.getRowGroupIndices.getD (s + 1) 0 ∧ v = choiceValue em c) ∧
      (∀ c, em.epochMatrix.getRowGroupIndices.getD s 0 ≤ c →
        c < em.epochMatrix.getRowGroupIndices.getD (s + 1) 0 →
        if minimize dir = true then v ≤ choiceValue em c else choiceValue em c ≤ v)) ∧
    analyzeTrivialMdpEpochModel .Minimize scenarioB = .ok [2] := by
  constructor
  · obtain ⟨v, hv, hspec⟩ := analyzeTrivialMdpLoop_entry dir em hsorted hrg
      em.epochInStates.setIndices 0 (setIndices_sorted _)
      (fun _ _ _ i hi => absurd hi (Nat.not_lt_zero _)) k s hk hne
    refine ⟨_, v, ?_, hv, hspec⟩
    simp [analyzeTrivialMdpEpochModel, hzero]
  · simp [analyzeTrivialMdpEpochModel, analyzeTrivialMdpLoop, bestChoiceOfState, scenarioB,
      SparseMatrix.getEntryCount, SparseMatrix.getRowGroupIndices, BitVector.setIndices,
      List.range, List.range.loop, List.range', bestChoiceStep, advanceStepIt_nil,
      choiceValueAt, EpochModel.rewardFilter, BitVector.get, stepChoiceIs, stepChoiceAt,
      EpochModel.objectiveValues, minimize]
    norm_num

/-- C2 at `mdpExample`, minimizing: state 0 has the choices 0 and 1, of values 5 and
2 + 1. -/
theorem analyzeTrivialMdpEpochModel_entry_witness :
    mdpExample.epochMatrix.getEntryCount = 0 ∧
    mdpExample.stepChoices.Sorted (· < ·) ∧
    mdpExample.stepSolutions.length = mdpExample.stepChoices.length ∧
    mdpExample.epochMatrix.getRowGroupIndices.Sorted (· ≤ ·) ∧
    mdpExample.epochInStates.setIndices[0]? = some 0 ∧
    mdpExample.epochMatrix.getRowGroupIndices.getD 0 0
      < mdpExample.epochMatrix.getRowGroupIndices.getD (0 + 1) 0 ∧
    ∃ (result : List ValueType) (v : ValueType),
      analyzeTrivialMdpEpochModel .Minimize mdpExample = .ok result ∧ result[0]? = some v ∧
      (∃ c, mdpExample.epochMatrix.getRowGroupIndices.getD 0 0 ≤ c ∧
        c < mdpExample.epochMatrix.getRowGroupIndices.getD (0 + 1) 0 ∧
        v = choiceValue mdpExample c) ∧
      (∀ c, mdpExample.epochMatrix.getRowGroupIndices.getD 0 0 ≤ c →
        c < mdpExample.epochMatrix.getRowGroupIndices.getD (0 + 1) 0 →
        if minimize .Minimize = true then v ≤ choiceValue mdpExample c
        else choiceValue mdpExample c ≤ v) :=
  ⟨by decide, by decide, by decide, by decide, by decide, by decide,
    (analyzeTrivialMdpEpochModel_entry .Minimize mdpExample (by decide) (by decide)
      (by decide) (by decide) 0 0 (by decide) (by decide)).1⟩

/-! ## The right-hand side of the non-trivial analyzers -/

theorem mem_setIndices (bv : BitVector) (i : Nat) : i ∈ bv.setIndices ↔ bv.get i = true := by
  unfold BitVector.setIndices BitVector.get
  rw [List.mem_filter, List.mem_range]
  constructor
  · exact fun h => h.2
  · intro h
    refine ⟨?_, h⟩
    by_contra hcon
    rw [List.getD_eq_default _ _ (by omega)] at h
    exact Bool.false_ne_true h

theorem foldl_set_spec (f : Nat → ValueType) :
    ∀ (l : List Nat) (b : List ValueType),
      (l.foldl (fun b choice => b.set choice (f choice)) b).length = b.length ∧
      ∀ c, c < b.length →
        (l.foldl (fun b choice => b.set choice (f choice)) b).getD c 0 =
          if c ∈ l then f c else b.getD c 0 := by
  intro l
  induction l with
  | nil => intro b; simp
  | cons h t ih =>
    intro b
    obtain ⟨h1, h2⟩ := ih (b.set h (f h))
    simp only [List.foldl_cons]
    refine ⟨by rw [h1, List.length_set], ?_⟩
    intro c hc
    rw [h2 c (by rw [List.length_set]; exact hc)]
    by_cases hct : c ∈ t
    · simp [hct]
    · by_cases hch : c = h
      · subst hch
        simp [hct, List.getD_eq_getElem?_getD, List.getElem?_set, hc]
      · have hhc : h ≠ c := fun e => hch e.symm
        simp [hct, hch, List.getD_eq_getElem?_getD, List.getElem?_set, hhc]

theorem assignObjectiveRewards_spec (em : EpochModel) (b : List ValueType) :
    (assignObjectiveRewards em b).length = b.length ∧
    ∀ c, c < b.length → (assignObjectiveRewards em b).getD c 0 =
      if em.rewardFilter.get c then em.objectiveValues.getD c 0 else b.getD c 0 := by
  obtain ⟨h1, h2⟩ := foldl_set_spec (fun c => em.objectiveValues.getD c 0)
    em.rewardFilter.setIndices b
  refine ⟨h1, ?_⟩
  intro c hc
  unfold assignObjectiveRewards
  rw [h2 c hc]
  by_cases hf : em.rewardFilter.get c = true
  · simp [hf, (mem_setIndices _ _).mpr hf]
  · have : c ∉ em.rewardFilter.setIndices := fun h => hf ((mem_setIndices _ _).mp h)
    simp [hf, this]

theorem foldl_add_spec (ss : List ValueType) :
    ∀ (l : List Nat) (b : List ValueType) (pos : Nat), l.Nodup →
      (l.foldl (fun (acc : List ValueType × Nat) choice =>
        (acc.1.set choice (acc.1.getD choice 0 + ss.getD acc.2 0), acc.2 + 1)) (b, pos)).2
          = pos + l.length ∧
      (l.foldl (fun (acc : List ValueType × Nat) choice =>
        (acc.1.set choice (acc.1.getD choice 0 + ss.getD acc.2 0), acc.2 + 1)) (b, pos)).1.length
          = b.length ∧
      ∀ c, c < b.length →
        (l.foldl (fun (acc : List ValueType × Nat) choice =>
          (acc.1.set choice (acc.1.getD choice 0 + ss.getD acc.2 0), acc.2 + 1)) (b, pos)).1.getD c 0
          = b.getD c 0 + (if c ∈ l then ss.getD (pos + l.indexOf c) 0 else 0) := by
  intro l
  induction l with
  | nil => intro b pos _; simp
  | cons h t ih =>
    intro b pos hnd
    have hnd2 := List.nodup_cons.mp hnd
    obtain ⟨h1, h2, h3⟩ := ih (b.set h (b.getD h 0 + ss.getD pos 0)) (pos + 1) hnd2.2
    simp only [List.foldl_cons]
    refine ⟨by rw [h1, List.length_cons]; omega, by rw [h2, List.length_set], ?_⟩
    intro c hc
    rw [h3 c (by rw [List.length_set]; exact hc)]
    by_cases hch : c = h
    · subst hch
      simp [hnd2.1, List.getD_eq_getElem?_getD, List.getElem?_set, hc]
    · have hhc : h ≠ c := fun e => hch e.symm
      by_cases hct : c ∈ t
      · simp [hct, hch, hhc, List.getD_eq_getElem?_getD, List.getElem?_set,
          List.indexOf_cons_ne _ hhc]
        congr 2
        omega
      · simp [hct, hch, hhc, List.getD_eq_getElem?_getD, List.getElem?_set]

theorem prepareRhsDtmc_spec (em : EpochModel) (hsorted : em.stepChoices.Sorted (· < ·)) :
    (prepareRhsDtmc em).2 = em.stepChoices.length ∧
    (prepareRhsDtmc em).1.length = em.epochMatrix.getRowCount ∧
    ∀ c, c < em.epochMatrix.getRowCount →
      (prepareRhsDtmc em).1[c]? = some (choiceValue em c) := by
  obtain ⟨ha1, ha2⟩ := assignObjectiveRewards_spec em
    (List.replicate em.epochMatrix.getRowCount 0)
  obtain ⟨h1, h2, h3⟩ := foldl_add_spec em.stepSolutions em.stepChoices
    (assignObjectiveRewards em (List.replicate em.epochMatrix.getRowCount 0)) 0 hsorted.nodup
  rw [ha1, List.length_replicate] at h2 h3
  rw [List.length_replicate] at ha2
  unfold prepareRhsDtmc addStepSolutionsDtmc
  refine ⟨by simpa using h1, h2, ?_⟩
  intro c hc
  have hget := h3 c hc
  rw [ha2 c hc] at hget
  rw [List.getElem?_eq_getElem (by rw [h2]; exact hc)]
  rw [List.getD_eq_getElem _ _ (by rw [h2]; exact hc)] at hget
  rw [hget]
  simp [choiceValue, pairedStepSolution, List.getD_eq_getElem?_getD, hc]

theorem prepareRhsMdp_eq (em : EpochModel) : prepareRhsMdp em = prepareRhsDtmc em := rfl

/-! ## The non-trivial deterministic analyzer -/

theorem solveDtmc_of_solver {S R : Type} (api : LinearEquationSolver S R) (em : EpochModel)
    (ctx : Context S) (calls : List SolverCall) (solver : S)
    (hlen : (prepareRhsDtmc em).2 = em.stepSolutions.length) (hsolver : ctx.solver = some solver) :
    solveDtmc api em ctx calls =
      ⟨{ x := (api.solveEquations solver ctx.x (prepareRhsDtmc em).1).2,
         b := (prepareRhsDtmc em).1,
         solver := some (api.solveEquations solver ctx.x (prepareRhsDtmc em).1).1 },
       calls ++ [.solveEquations ctx.x (prepareRhsDtmc em).1],
       .ok (filterVector (api.solveEquations solver ctx.x (prepareRhsDtmc em).1).2
         em.epochInStates)⟩ := by
  unfold solveDtmc
  simp [hlen, hsolver]

theorem solveDtmc_of_assert {S R : Type} (api : LinearEquationSolver S R) (em : EpochModel)
    (ctx : Context S) (calls : List SolverCall)
    (hlen : (prepareRhsDtmc em).2 ≠ em.stepSolutions.length) :
    solveDtmc api em ctx calls =
      ⟨{ ctx with b := (prepareRhsDtmc em).1 }, calls,
        .error (.AssertionFailure "stepSolutionIt == epochModel.stepSolutions.end()")⟩ := by
  unfold solveDtmc
  simp [hlen]

theorem solveDtmc_of_null {S R : Type} (api : LinearEquationSolver S R) (em : EpochModel)
    (ctx : Context S) (calls : List SolverCall)
    (hlen : (prepareRhsDtmc em).2 = em.stepSolutions.length) (hsolver : ctx.solver = none) :
    solveDtmc api em ctx calls =
      ⟨{ ctx with b := (prepareRhsDtmc em).1 }, calls, .error .NullSolver⟩ := by
  unfold solveDtmc
  simp [hlen, hsolver]

theorem analyzeNonTrivialDtmcEpochModel_of_critical {S R : Type}
    (api : LinearEquationSolver S R) (em : EpochModel) (ctx : Context S)
    (lowerBound upperBound : Option ValueType) (hchanged : em.epochMatrixChanged = true)
    (hcrit : api.hasEnabledCriticalRequirement
      (remainingRequirementsDtmc api em lowerBound upperBound) = true) :
    analyzeNonTrivialDtmcEpochModel api em ctx lowerBound upperBound =
      ⟨{ ctx with x := List.replicate em.epochMatrix.getRowGroupCount 0,
                  solver := some (setUpLinearEquationSolver api em lowerBound upperBound) },
        setUpCallsDtmc em lowerBound upperBound,
        .error (.UncheckedRequirementException (uncheckedRequirementMessage
          (api.getEnabledRequirementsAsString
            (remainingRequirementsDtmc api em lowerBound upperBound))))⟩ := by
  unfold analyzeNonTrivialDtmcEpochModel
  simp [hchanged, hcrit]

theorem analyzeNonTrivialDtmcEpochModel_of_changed {S R : Type}
    (api : LinearEquationSolver S R) (em : EpochModel) (ctx : Context S)
    (lowerBound upperBound : Option ValueType) (hchanged : em.epochMatrixChanged = true)
    (hcrit : api.hasEnabledCriticalRequirement
      (remainingRequirementsDtmc api em lowerBound upperBound) = false) :
    analyzeNonTrivialDtmcEpochModel api em ctx lowerBound upperBound =
      solveDtmc api em
        { ctx with x := List.replicate em.epochMatrix.getRowGroupCount 0,
                   solver := some (setUpLinearEquationSolver api em lowerBound upperBound) }
        (setUpCallsDtmc em lowerBound upperBound) := by
  unfold analyzeNonTrivialDtmcEpochModel
  simp [hchanged, hcrit]

theorem analyzeNonTrivialDtmcEpochModel_of_unchanged {S R : Type}
    (api : LinearEquationSolver S R) (em : EpochModel) (ctx : Context S)
    (lowerBound upperBound : Option ValueType) (hchanged : em.epochMatrixChanged = false) :
    analyzeNonTrivialDtmcEpochModel api em ctx lowerBound upperBound =
      solveDtmc api em ctx [] := by
  unfold analyzeNonTrivialDtmcEpochModel
  simp [hchanged]

theorem solveDtmc_calls_mem {S R : Type} (api : LinearEquationSolver S R) (em : EpochModel)
    (ctx : Context S) (calls : List SolverCall) (call : SolverCall)
    (hmem : call ∈ (solveDtmc api em ctx calls).calls) :
    call ∈ calls ∨ call = .solveEquations ctx.x (prepareRhsDtmc em).1 := by
  by_cases hlen : (prepareRhsDtmc em).2 = em.stepSolutions.length
  · cases hsolver : ctx.solver with
    | none => rw [solveDtmc_of_null api em ctx calls hlen hsolver] at hmem; exact Or.inl hmem
    | some solver =>
      rw [solveDtmc_of_solver api em ctx calls solver hlen hsolver] at hmem
      simpa using hmem
  · rw [solveDtmc_of_assert api em ctx calls hlen] at hmem; exact Or.inl hmem

theorem solveDtmc_result_ok {S R : Type} (api : LinearEquationSolver S R) (em : EpochModel)
    (ctx : Context S) (calls : List SolverCall) (r : List ValueType)
    (hok : (solveDtmc api em ctx calls).result = .ok r) :
    (prepareRhsDtmc em).2 = em.stepSolutions.length ∧ ∃ solver, ctx.solver = some solver := by
  by_cases hlen : (prepareRhsDtmc em).2 = em.stepSolutions.length
  · cases hsolver : ctx.solver with
    | none => rw [solveDtmc_of_null api em ctx calls hlen hsolver] at hok; cases hok
    | some solver => exact ⟨hlen, solver, rfl⟩
  · rw [solveDtmc_of_assert api em ctx calls hlen] at hok; cases hok

theorem setUpCallsDtmc_mem (em : EpochModel) (lowerBound upperBound : Option ValueType)
    (call : SolverCall) (hmem : call ∈ setUpCallsDtmc em lowerBound upperBound) :
    call = .create em.epochMatrix ∨ call = .setCachingEnabled true ∨ call = .getRequirements ∨
      (∃ v, lowerBound = some v ∧ call = .setLowerBound v) ∨
      (∃ v, upperBound = some v ∧ call = .setUpperBound v) := by
  unfold setUpCallsDtmc at hmem
  cases lowerBound <;> cases upperBound <;> simp at hmem <;> aesop

theorem analyzeNonTrivialDtmcEpochModel_solve_mem {S R : Type}
    (api : LinearEquationSolver S R) (em : EpochModel) (ctx : Context S)
    (lowerBound upperBound : Option ValueType) (x b : List ValueType)
    (hmem : SolverCall.solveEquations x b ∈
      (analyzeNonTrivialDtmcEpochModel api em ctx lowerBound upperBound).calls) :
    b = (prepareRhsDtmc em).1 ∧
      x = if em.epochMatrixChanged then List.replicate em.epochMatrix.getRowGroupCount 0
        else ctx.x := by
  have hsetup : SolverCall.solveEquations x b ∉ setUpCallsDtmc em lowerBound upperBound := by
    intro h
    rcases setUpCallsDtmc_mem _ _ _ _ h with h | h | h | ⟨_, _, h⟩ | ⟨_, _, h⟩ <;> cases h
  cases hchanged : em.epochMatrixChanged with
  | true =>
    cases hcrit : api.hasEnabledCriticalRequirement
        (remainingRequirementsDtmc api em lowerBound upperBound) with
    | true =>
      rw [analyzeNonTrivialDtmcEpochModel_of_critical api em ctx _ _ hchanged hcrit] at hmem
      exact absurd hmem hsetup
    | false =>
      rw [analyzeNonTrivialDtmcEpochModel_of_changed api em ctx _ _ hchanged hcrit] at hmem
      rcases solveDtmc_calls_mem _ _ _ _ _ hmem with h | h
      · exact absurd h hsetup
      · simp only [SolverCall.solveEquations.injEq] at h
        exact ⟨h.2, by simp [h.1]⟩
  | false =>
    rw [analyzeNonTrivialDtmcEpochModel_of_unchanged api em ctx _ _ hchanged] at hmem
    rcases solveDtmc_calls_mem _ _ _ _ _ hmem with h | h
    · simp at h
    · simp only [SolverCall.solveEquations.injEq] at h
      exact ⟨h.2, by simp [h.1]⟩

theorem analyzeNonTrivialDtmcEpochModel_result_ok {S R : Type}
    (api : LinearEquationSolver S R) (em : EpochModel) (ctx : Context S)
    (lowerBound upperBound : Option ValueType) (r : List ValueType)
    (hok : (analyzeNonTrivialDtmcEpochModel api em ctx lowerBound upperBound).result = .ok r) :
    ∃ (solver : S) (x : List ValueType),
      (analyzeNonTrivialDtmcEpochModel api em ctx lowerBound upperBound).calls.getLast?
        = some (.solveEquations x (prepareRhsDtmc em).1) ∧
      (analyzeNonTrivialDtmcEpochModel api em ctx lowerBound upperBound).context.x
        = (api.solveEquations solver x (prepareRhsDtmc em).1).2 ∧
      (analyzeNonTrivialDtmcEpochModel api em ctx lowerBound upperBound).context.b
        = (prepareRhsDtmc em).1 ∧
      (analyzeNonTrivialDtmcEpochModel api em ctx lowerBound upperBound).context.solver
        = some (api.solveEquations solver x (prepareRhsDtmc em).1).1 ∧
      r = filterVector (api.solveEquations solver x (prepareRhsDtmc em).1).2
        em.epochInStates := by
  cases hchanged : em.epochMatrixChanged with
  | true =>
    cases hcrit : api.hasEnabledCriticalRequirement
        (remainingRequirementsDtmc api em lowerBound upperBound) with
    | true =>
      rw [analyzeNonTrivialDtmcEpochModel_of_critical api em ctx _ _ hchanged hcrit] at hok
      cases hok
    | false =>
      rw [analyzeNonTrivialDtmcEpochModel_of_changed api em ctx _ _ hchanged hcrit] at hok ⊢
      obtain ⟨hlen, solver, hsolver⟩ := solveDtmc_result_ok _ _ _ _ _ hok
      rw [solveDtmc_of_solver api em _ _ solver hlen hsolver] at hok ⊢
      refine ⟨solver, _, by simp, rfl, rfl, rfl, ?_⟩
      simpa using hok.symm
  | false =>
    rw [analyzeNonTrivialDtmcEpochModel_of_unchanged api em ctx _ _ hchanged] at hok ⊢
    obtain ⟨hlen, solver, hsolver⟩ := solveDtmc_result_ok _ _ _ _ _ hok
    rw [solveDtmc_of_solver api em _ _ solver hlen hsolver] at hok ⊢
    refine ⟨solver, _, by simp, rfl, rfl, rfl, ?_⟩
    simpa using hok.symm

/-- C3: for an epoch model with strictly ascending step choices and as many step solutions
as step choices, whatever the buffer held before and whether or not the matrix changed,
every right-hand side that the non-trivial deterministic analyzer hands to the solver has
the length of the row count and holds, at every choice, the objective reward of the choice
(zero when the filter does not mark it) plus the step solution paired with it (zero when
it is no step choice); a call that returns a result has handed such a right-hand side to
the solver and leaves it in the buffer. -/
theorem analyzeNonTrivialDtmcEpochModel_rhs {S R : Type} (api : LinearEquationSolver S R)
    (em : EpochModel) (ctx : Context S) (lowerBound upperBound : Option ValueType)
    (hsorted : em.stepChoices.Sorted (· < ·))
    (_hlen : em.stepSolutions.length = em.stepChoices.length) :
    (∀ x b, SolverCall.solveEquations x b ∈
        (analyzeNonTrivialDtmcEpochModel api em ctx lowerBound upperBound).calls →
      b.length = em.epochMatrix.getRowCount ∧
      ∀ c, c < em.epochMatrix.getRowCount →
        b[c]? = some ((if em.rewardFilter.get c then em.objectiveValues.getD c 0 else 0)
          + pairedStepSolution em.stepChoices em.stepSolutions c)) ∧
    (∀ r, (analyzeNonTrivialDtmcEpochModel api em ctx lowerBound upperBound).result = .ok r →
      ∃ x b, (analyzeNonTrivialDtmcEpochModel api em ctx lowerBound upperBound).calls.getLast?
          = some (.solveEquations x b) ∧
        (analyzeNonTrivialDtmcEpochModel api em ctx lowerBound upperBound).context.b = b) := by
  obtain ⟨_, h2, h3⟩ := prepareRhsDtmc_spec em hsorted
  constructor
  · intro x b hmem
    obtain ⟨hb, _⟩ := analyzeNonTrivialDtmcEpochModel_solve_mem _ _ _ _ _ _ _ hmem
    subst hb
    exact ⟨h2, h3⟩
  · intro r hok
    obtain ⟨solver, x, hlast, _, hb, _, _⟩ :=
      analyzeNonTrivialDtmcEpochModel_result_ok _ _ _ _ _ _ hok
    exact ⟨x, _, hlast, hb⟩

/-- C3 at scenario C, epoch 0, with the sweep solver. -/
theorem analyzeNonTrivialDtmcEpochModel_rhs_witness :
    scenarioC0.stepChoices.Sorted (· < ·) ∧
    scenarioC0.stepSolutions.length = scenarioC0.stepChoices.length ∧
    (∀ x b, SolverCall.solveEquations x b ∈
        (analyzeNonTrivialDtmcEpochModel (sweepSolverApi 1 noRequirements) scenarioC0
          ⟨[0], [9], some ⟨scenarioC0.epochMatrix, 1, noRequirements, true, none, none⟩⟩
          none none).calls →
      b.length = scenarioC0.epochMatrix.getRowCount ∧
      ∀ c, c < scenarioC0.epochMatrix.getRowCount →
        b[c]? = some ((if scenarioC0.rewardFilter.get c then
            scenarioC0.objectiveValues.getD c 0 else 0)
          + pairedStepSolution scenarioC0.stepChoices scenarioC0.stepSolutions c)) :=
  ⟨by decide, by decide,
    (analyzeNonTrivialDtmcEpochModel_rhs (sweepSolverApi 1 noRequirements) scenarioC0
      ⟨[0], [9], some ⟨scenarioC0.epochMatrix, 1, noRequirements, true, none, none⟩⟩
      none none (by decide) (by decide)).1⟩

/-! ## The non-trivial non-deterministic analyzer -/

theorem solveMdp_of_solver {S R : Type} (api : MinMaxLinearEquationSolver S R)
    (em : EpochModel) (ctx : Context S) (calls : List SolverCall) (solver : S)
    (hlen : (prepareRhsMdp em).2 = em.stepSolutions.length) (hsolver : ctx.solver = some solver) :
    solveMdp api em ctx calls =
      ⟨{ x := (api.solveEquations solver ctx.x (prepareRhsMdp em).1).2,
         b := (prepareRhsMdp em).1,
         solver := some (api.solveEquations solver ctx.x (prepareRhsMdp em).1).1 },
       calls ++ [.solveEquations ctx.x (prepareRhsMdp em).1],
       .ok (filterVector (api.solveEquations solver ctx.x (prepareRhsMdp em).1).2
         em.epochInStates)⟩ := by
  unfold solveMdp
  simp [hlen, hsolver]

theorem solveMdp_of_assert {S R : Type} (api : MinMaxLinearEquationSolver S R)
    (em : EpochModel) (ctx : Context S) (calls : List SolverCall)
    (hlen : (prepareRhsMdp em).2 ≠ em.stepSolutions.length) :
    solveMdp api em ctx calls =
      ⟨{ ctx with b := (prepareRhsMdp em).1 }, calls,
        .error (.AssertionFailure "stepSolutionIt == epochModel.stepSolutions.end()")⟩ := by
  unfold solveMdp
  simp [hlen]

theorem solveMdp_of_null {S R : Type} (api : MinMaxLinearEquationSolver S R)
    (em : EpochModel) (ctx : Context S) (calls : List SolverCall)
    (hlen : (prepareRhsMdp em).2 = em.stepSolutions.length) (hsolver : ctx.solver = none) :
    solveMdp api em ctx calls =
      ⟨{ ctx with b := (prepareRhsMdp em).1 }, calls, .error .NullSolver⟩ := by
  unfold solveMdp
  simp [hlen, hsolver]

theorem analyzeNonTrivialMdpEpochModel_of_critical {S R : Type}
    (api : MinMaxLinearEquationSolver S R) (dir : OptimizationDirection) (em : EpochModel)
    (ctx : Context S) (lowerBound upperBound : Option ValueType)
    (hchanged : em.epochMatrixChanged = true)
    (hcrit : api.hasEnabledCriticalRequirement
      (remainingRequirementsMdp api dir em lowerBound upperBound) = true) :
    analyzeNonTrivialMdpEpochModel api dir em ctx lowerBound upperBound =
      ⟨{ ctx with x := List.replicate em.epochMatrix.getRowGroupCount 0,
                  solver := some (setUpMinMaxSolver api dir em lowerBound upperBound) },
        setUpCallsMdp dir em lowerBound upperBound,
        .error (.UncheckedRequirementException (uncheckedRequirementMessage
          (api.getEnabledRequirementsAsString
            (remainingRequirementsMdp api dir em lowerBound upperBound))))⟩ := by
  unfold analyzeNonTrivialMdpEpochModel
  simp [hchanged, hcrit]

theorem analyzeNonTrivialMdpEpochModel_of_changed {S R : Type}
    (api : MinMaxLinearEquationSolver S R) (dir : OptimizationDirection) (em : EpochModel)
    (ctx : Context S) (lowerBound upperBound : Option ValueType)
    (hchanged : em.epochMatrixChanged = true)
    (hcrit : api.hasEnabledCriticalRequirement
      (remainingRequirementsMdp api dir em lowerBound upperBound) = false) :
    analyzeNonTrivialMdpEpochModel api dir em ctx lowerBound upperBound =
      solveMdp api em
        { ctx with x := List.replicate em.epochMatrix.getRowGroupCount 0,
                   solver := some (api.setRequirementsChecked
                     (setUpMinMaxSolver api dir em lowerBound upperBound)) }
        (setUpCallsMdp dir em lowerBound upperBound ++ [.setRequirementsChecked]) := by
  unfold analyzeNonTrivialMdpEpochModel
  simp [hchanged, hcrit]

theorem analyzeNonTrivialMdpEpochModel_of_unchanged_null {S R : Type}
    (api : MinMaxLinearEquationSolver S R) (dir : OptimizationDirection) (em : EpochModel)
    (ctx : Context S) (lowerBound upperBound : Option ValueType)
    (hchanged : em.epochMatrixChanged = false) (hsolver : ctx.solver = none) :
    analyzeNonTrivialMdpEpochModel api dir em ctx lowerBound upperBound =
      ⟨ctx, [], .error .NullSolver⟩ := by
  unfold analyzeNonTrivialMdpEpochModel
  simp [hchanged, hsolver]

theorem analyzeNonTrivialMdpEpochModel_of_unchanged {S R : Type}
    (api : MinMaxLinearEquationSolver S R) (dir : OptimizationDirection) (em : EpochModel)
    (ctx : Context S) (lowerBound upperBound : Option ValueType) (solver : S)
    (hchanged : em.epochMatrixChanged = false) (hsolver : ctx.solver = some solver) :
    analyzeNonTrivialMdpEpochModel api dir em ctx lowerBound upperBound =
      solveMdp api em
        { ctx with solver := some (api.setInitialScheduler solver
            (api.getSchedulerChoices solver)) }
        [.getSchedulerChoices, .setInitialScheduler (api.getSchedulerChoices solver)] := by
  unfold analyzeNonTrivialMdpEpochModel
  simp [hchanged, hsolver]

theorem solveMdp_result_ok {S R : Type} (api : MinMaxLinearEquationSolver S R)
    (em : EpochModel) (ctx : Context S) (calls : List SolverCall) (r : List ValueType)
    (hok : (solveMdp api em ctx calls).result = .ok r) :
    (prepareRhsMdp em).2 = em.stepSolutions.length ∧ ∃ solver, ctx.solver = some solver := by
  by_cases hlen : (prepareRhsMdp em).2 = em.stepSolutions.length
  · cases hsolver : ctx.solver with
    | none => rw [solveMdp_of_null api em ctx calls hlen hsolver] at hok; cases hok
    | some solver => exact ⟨hlen, solver, rfl⟩
  · rw [solveMdp_of_assert api em ctx calls hlen] at hok; cases hok

theorem analyzeNonTrivialMdpEpochModel_result_ok {S R : Type}
    (api : MinMaxLinearEquationSolver S R) (dir : OptimizationDirection) (em : EpochModel)
    (ctx : Context S) (lowerBound upperBound : Option ValueType) (r : List ValueType)
    (hok : (analyzeNonTrivialMdpEpochModel api dir em ctx lowerBound upperBound).result
      = .ok r) :
    ∃ (solver : S) (x : List ValueType),
      (analyzeNonTrivialMdpEpochModel api dir em ctx lowerBound upperBound).calls.getLast?
        = some (.solveEquations x (prepareRhsMdp em).1) ∧
      (analyzeNonTrivialMdpEpochModel api dir em ctx lowerBound upperBound).context.x
        = (api.solveEquations solver x (prepareRhsMdp em).1).2 ∧
      (analyzeNonTrivialMdpEpochModel api dir em ctx lowerBound upperBound).context.b
        = (prepareRhsMdp em).1 ∧
      (analyzeNonTrivialMdpEpochModel api dir em ctx lowerBound upperBound).context.solver
        = some (api.solveEquations solver x (prepareRhsMdp em).1).1 ∧
      r = filterVector (api.solveEquations solver x (prepareRhsMdp em).1).2
        em.epochInStates := by
  cases hchanged : em.epochMatrixChanged with
  | true =>
    cases hcrit : api.hasEnabledCriticalRequirement
        (remainingRequirementsMdp api dir em lowerBound upperBound) with
    | true =>
      rw [analyzeNonTrivialMdpEpochModel_of_critical api dir em ctx _ _ hchanged hcrit] at hok
      cases hok
    | false =>
      rw [analyzeNonTrivialMdpEpochModel_of_changed api dir em ctx _ _ hchanged hcrit] at hok ⊢
      obtain ⟨hlen, solver, hsolver⟩ := solveMdp_result_ok _ _ _ _ _ hok
      rw [solveMdp_of_solver api em _ _ solver hlen hsolver] at hok ⊢
      refine ⟨solver, _, by simp, rfl, rfl, rfl, ?_⟩
      simpa using hok.symm
  | false =>
    cases hctx : ctx.solver with
    | none =>
      rw [analyzeNonTrivialMdpEpochModel_of_unchanged_null api dir em ctx _ _ hchanged hctx] at hok
      cases hok
    | some old =>
      rw [analyzeNonTrivialMdpEpochModel_of_unchanged api dir em ctx _ _ old hchanged hctx] at hok ⊢
      obtain ⟨hlen, solver, hsolver⟩ := solveMdp_result_ok _ _ _ _ _ hok
      rw [solveMdp_of_solver api em _ _ solver hlen hsolver] at hok ⊢
      refine ⟨solver, _, by simp, rfl, rfl, rfl, ?_⟩
      simpa using hok.symm

theorem filterVector_spec (x : List ValueType) (filter : BitVector) :
    (filterVector x filter).length = filter.setIndices.length ∧
    ∀ k s : Nat, filter.setIndices[k]? = some s →
      (filterVector x filter)[k]? = some (x.getD s 0) := by
  unfold filterVector
  refine ⟨List.length_map _ _, ?_⟩
  intro k s hk
  rw [List.getElem?_map, hk]
  rfl

theorem prepareRhsDtmc_pos (em : EpochModel) :
    (prepareRhsDtmc em).2 = em.stepChoices.length := by
  have h : ∀ (l : List Nat) (acc : List ValueType × Nat),
      (l.foldl (fun (acc : List ValueType × Nat) choice =>
        (acc.1.set choice (acc.1.getD choice 0 + em.stepSolutions.getD acc.2 0), acc.2 + 1))
        acc).2 = acc.2 + l.length := by
    intro l
    induction l with
    | nil => intro acc; simp
    | cons c t ih => intro acc; simp only [List.foldl_cons, List.length_cons]; rw [ih]; omega
  unfold prepareRhsDtmc addStepSolutionsDtmc
  rw [h]
  simp

theorem analyzeNonTrivialDtmcEpochModel_succeeds {S R : Type}
    (api : LinearEquationSolver S R) (em : EpochModel) (ctx : Context S)
    (lowerBound upperBound : Option ValueType)
    (hlen : em.stepSolutions.length = em.stepChoices.length)
    (hsolver : if em.epochMatrixChanged then
        api.hasEnabledCriticalRequirement
          (remainingRequirementsDtmc api em lowerBound upperBound) = false
      else ctx.solver.isSome) :
    ∃ r, (analyzeNonTrivialDtmcEpochModel api em ctx lowerBound upperBound).result = .ok r := by
  have hpos : (prepareRhsDtmc em).2 = em.stepSolutions.length := by
    rw [prepareRhsDtmc_pos, hlen]
  cases hchanged : em.epochMatrixChanged with
  | true =>
    simp only [hchanged, if_true] at hsolver
    rw [analyzeNonTrivialDtmcEpochModel_of_changed api em ctx _ _ hchanged hsolver,
      solveDtmc_of_solver api em _ _ _ hpos rfl]
    exact ⟨_, rfl⟩
  | false =>
    simp only [hchanged, Bool.false_eq_true, if_false] at hsolver
    obtain ⟨solver, hs⟩ := Option.isSome_iff_exists.mp hsolver
    rw [analyzeNonTrivialDtmcEpochModel_of_unchanged api em ctx _ _ hchanged,
      solveDtmc_of_solver api em _ _ solver hpos hs]
    exact ⟨_, rfl⟩

theorem analyzeNonTrivialMdpEpochModel_succeeds {S R : Type}
    (api : MinMaxLinearEquationSolver S R) (dir : OptimizationDirection) (em : EpochModel)
    (ctx : Context S) (lowerBound upperBound : Option ValueType)
    (hlen : em.stepSolutions.length = em.stepChoices.length)
    (hsolver : if em.epochMatrixChanged then
        api.hasEnabledCriticalRequirement
          (remainingRequirementsMdp api dir em lowerBound upperBound) = false
      else ctx.solver.isSome) :
    ∃ r, (analyzeNonTrivialMdpEpochModel api dir em ctx lowerBound upperBound).result
      = .ok r := by
  have hpos : (prepareRhsMdp em).2 = em.stepSolutions.length := by
    rw [prepareRhsMdp_eq, prepareRhsDtmc_pos, hlen]
  cases hchanged : em.epochMatrixChanged with
  | true =>
    simp only [hchanged, if_true] at hsolver
    rw [analyzeNonTrivialMdpEpochModel_of_changed api dir em ctx _ _ hchanged hsolver,
      solveMdp_of_solver api em _ _ _ hpos rfl]
    exact ⟨_, rfl⟩
  | false =>
    simp only [hchanged, Bool.false_eq_true, if_false] at hsolver
    obtain ⟨solver, hs⟩ := Option.isSome_iff_exists.mp hsolver
    rw [analyzeNonTrivialMdpEpochModel_of_unchanged api dir em ctx _ _ solver hchanged hs,
      solveMdp_of_solver api em _ _ _ hpos rfl]
    exact ⟨_, rfl⟩

/-- C4: a call of the non-trivial deterministic or non-deterministic analyzer that does not
fail ends with a `solveEquations` call, leaves in `x` the vector that this call produced,
and returns the restriction of that `x` to the in-states: one entry per in-state, the
k-th entry being `x` at the k-th smallest in-state. A call does not fail when there are
as many step solutions as step choices and the requirement check passes (changed matrix)
or the handle holds a solver (unchanged matrix). -/
theorem analyzeNonTrivial_result_is_filtered_solution {S R S2 R2 : Type}
    (api : LinearEquationSolver S R) (apiM : MinMaxLinearEquationSolver S2 R2)
    (dir : OptimizationDirection) (em : EpochModel) (ctx : Context S) (ctxM : Context S2)
    (lowerBound upperBound : Option ValueType) :
    (∀ r, (analyzeNonTrivialDtmcEpochModel api em ctx lowerBound upperBound).result = .ok r →
      (∃ solver x b,
        (analyzeNonTrivialDtmcEpochModel api em ctx lowerBound upperBound).calls.getLast?
          = some (.solveEquations x b) ∧
        (analyzeNonTrivialDtmcEpochModel api em ctx lowerBound upperBound).context.x
          = (api.solveEquations solver x b).2) ∧
      r = filterVector
        (analyzeNonTrivialDtmcEpochModel api em ctx lowerBound upperBound).context.x
        em.epochInStates ∧
      r.length = em.epochInStates.setIndices.length ∧
      ∀ k s : Nat, em.epochInStates.setIndices[k]? = some s →
        r[k]? = some ((analyzeNonTrivialDtmcEpochModel api em ctx lowerBound
          upperBound).context.x.getD s 0)) ∧
    (∀ r, (analyzeNonTrivialMdpEpochModel apiM dir em ctxM lowerBound upperBound).result
        = .ok r →
      (∃ solver x b,
        (analyzeNonTrivialMdpEpochModel apiM dir em ctxM lowerBound upperBound).calls.getLast?
          = some (.solveEquations x b) ∧
        (analyzeNonTrivialMdpEpochModel apiM dir em ctxM lowerBound upperBound).context.x
          = (apiM.solveEquations solver x b).2) ∧
      r = filterVector
        (analyzeNonTrivialMdpEpochModel apiM dir em ctxM lowerBound upperBound).context.x
        em.epochInStates ∧
      r.length = em.epochInStates.setIndices.length ∧
      ∀ k s : Nat, em.epochInStates.setIndices[k]? = some s →
        r[k]? = some ((analyzeNonTrivialMdpEpochModel apiM dir em ctxM lowerBound
          upperBound).context.x.getD s 0)) ∧
    (em.stepSolutions.length = em.stepChoices.length →
      (if em.epochMatrixChanged then
        api.hasEnabledCriticalRequirement
          (remainingRequirementsDtmc api em lowerBound upperBound) = false
      else ctx.solver.isSome) →
      ∃ r, (analyzeNonTrivialDtmcEpochModel api em ctx lowerBound upperBound).result = .ok r) ∧
    (em.stepSolutions.length = em.stepChoices.length →
      (if em.epochMatrixChanged then
        apiM.hasEnabledCriticalRequirement
          (remainingRequirementsMdp apiM dir em lowerBound upperBound) = false
      else ctxM.solver.isSome) →
      ∃ r, (analyzeNonTrivialMdpEpochModel apiM dir em ctxM lowerBound upperBound).result
        = .ok r) := by
  refine ⟨?_, ?_, analyzeNonTrivialDtmcEpochModel_succeeds api em ctx _ _,
    analyzeNonTrivialMdpEpochModel_succeeds apiM dir em ctxM _ _⟩
  · intro r hok
    obtain ⟨solver, x, hlast, hx, _, _, hr⟩ :=
      analyzeNonTrivialDtmcEpochModel_result_ok _ _ _ _ _ _ hok
    rw [← hx] at hr
    refine ⟨⟨solver, x, _, hlast, hx⟩, hr, ?_, ?_⟩
    · rw [hr]; exact (filterVector_spec _ _).1
    · rw [hr]; exact (filterVector_spec _ _).2
  · intro r hok
    obtain ⟨solver, x, hlast, hx, _, _, hr⟩ :=
      analyzeNonTrivialMdpEpochModel_result_ok _ _ _ _ _ _ _ hok
    rw [← hx] at hr
    refine ⟨⟨solver, x, _, hlast, hx⟩, hr, ?_, ?_⟩
    · rw [hr]; exact (filterVector_spec _ _).1
    · rw [hr]; exact (filterVector_spec _ _).2

/-- C4 at scenario C, epoch 1, with the sweep solver: the call returns a vector, which is
the restriction of the `x` it leaves. -/
theorem analyzeNonTrivial_result_is_filtered_solution_witness :
    ∃ r, (analyzeNonTrivialDtmcEpochModel (sweepSolverApi 2 noRequirements) scenarioC1
        (staleContext SweepSolver) none none).result = .ok r ∧
      r = filterVector (analyzeNonTrivialDtmcEpochModel (sweepSolverApi 2 noRequirements)
        scenarioC1 (staleContext SweepSolver) none none).context.x scenarioC1.epochInStates :=
  have h := analyzeNonTrivial_result_is_filtered_solution (sweepSolverApi 2 noRequirements)
    (valueIterationApi 2 noRequirements) .Minimize scenarioC1 (staleContext SweepSolver)
    (staleContext ValueIterationSolver) none none
  (h.2.2.1 (by decide) (by decide)).elim (fun r hr => ⟨r, hr, (h.1 r hr).2.1⟩)

/-! ## The dispatchers -/

theorem analyzeNonTrivialDtmcEpochModel_calls_mem {S R : Type}
    (api : LinearEquationSolver S R) (em : EpochModel) (ctx : Context S)
    (lowerBound upperBound : Option ValueType) (call : SolverCall)
    (hmem : call ∈ (analyzeNonTrivialDtmcEpochModel api em ctx lowerBound upperBound).calls) :
    (em.epochMatrixChanged = true ∧ call ∈ setUpCallsDtmc em lowerBound upperBound) ∨
      ∃ x b, call = .solveEquations x b := by
  cases hchanged : em.epochMatrixChanged with
  | true =>
    cases hcrit : api.hasEnabledCriticalRequirement
        (remainingRequirementsDtmc api em lowerBound upperBound) with
    | true =>
      rw [analyzeNonTrivialDtmcEpochModel_of_critical api em ctx _ _ hchanged hcrit] at hmem
      exact Or.inl ⟨rfl, hmem⟩
    | false =>
      rw [analyzeNonTrivialDtmcEpochModel_of_changed api em ctx _ _ hchanged hcrit] at hmem
      rcases solveDtmc_calls_mem _ _ _ _ _ hmem with h | h
      · exact Or.inl ⟨rfl, h⟩
      · exact Or.inr ⟨_, _, h⟩
  | false =>
    rw [analyzeNonTrivialDtmcEpochModel_of_unchanged api em ctx _ _ hchanged] at hmem
    rcases solveDtmc_calls_mem _ _ _ _ _ hmem with h | h
    · simp at h
    · exact Or.inr ⟨_, _, h⟩

theorem analyzeNonTrivialDtmcEpochModel_no_analyzer {S R : Type}
    (api : LinearEquationSolver S R) (em : EpochModel) (ctx : Context S)
    (lowerBound upperBound : Option ValueType) (a : Analyzer) :
    SolverCall.analyzer a ∉
      (analyzeNonTrivialDtmcEpochModel api em ctx lowerBound upperBound).calls := by
  intro hmem
  rcases analyzeNonTrivialDtmcEpochModel_calls_mem _ _ _ _ _ _ hmem with ⟨_, h⟩ | ⟨_, _, h⟩
  · rcases setUpCallsDtmc_mem _ _ _ _ h with h | h | h | ⟨_, _, h⟩ | ⟨_, _, h⟩ <;> cases h
  · cases h

theorem analyzeSingleObjective_of_trivial {S R : Type} (api : LinearEquationSolver S R)
    (em : EpochModel) (ctx : Context S) (lowerBound upperBound : Option ValueType)
    (hgroup : em.epochMatrix.hasTrivialRowGrouping = true)
    (hcond : (em.equationSolverProblemFormat = some .EquationSystem ∧
        em.epochMatrix.isIdentityMatrix = true) ∨
      (em.equationSolverProblemFormat = some .FixedPointSystem ∧
        em.epochMatrix.getEntryCount = 0)) :
    em.analyzeSingleObjective api ctx lowerBound upperBound =
      ⟨ctx, [.analyzer .TrivialDtmc], .ok (analyzeTrivialDtmcEpochModel em)⟩ := by
  unfold EpochModel.analyzeSingleObjective
  rcases hcond with ⟨hf, hid⟩ | ⟨hf, hzero⟩
  · simp [hgroup, hf, hid]
  · simp [hgroup, hf, hzero]

theorem analyzeSingleObjective_of_nonTrivial {S R : Type} (api : LinearEquationSolver S R)
    (em : EpochModel) (ctx : Context S) (lowerBound upperBound : Option ValueType)
    (hgroup : em.epochMatrix.hasTrivialRowGrouping = true)
    (hformat : em.equationSolverProblemFormat.isSome = true)
    (hcond : ¬ ((em.equationSolverProblemFormat = some .EquationSystem ∧
        em.epochMatrix.isIdentityMatrix = true) ∨
      (em.equationSolverProblemFormat = some .FixedPointSystem ∧
        em.epochMatrix.getEntryCount = 0))) :
    em.analyzeSingleObjective api ctx lowerBound upperBound =
      { analyzeNonTrivialDtmcEpochModel api em ctx lowerBound upperBound with
        calls := .analyzer .NonTrivialDtmc ::
          (analyzeNonTrivialDtmcEpochModel api em ctx lowerBound upperBound).calls } := by
  unfold EpochModel.analyzeSingleObjective
  obtain ⟨f, hf⟩ := Option.isSome_iff_exists.mp hformat
  cases f with
  | EquationSystem =>
    have hid : em.epochMatrix.isIdentityMatrix = false := by
      cases h : em.epochMatrix.isIdentityMatrix with
      | true => exact absurd (Or.inl ⟨hf, h⟩) hcond
      | false => rfl
    simp [hgroup, hf, hid]
  | FixedPointSystem =>
    have hzero : em.epochMatrix.getEntryCount ≠ 0 := fun h => hcond (Or.inr ⟨hf, h⟩)
    simp [hgroup, hf, hzero]

theorem solveDtmc_calls_prefix {S R : Type} (api : LinearEquationSolver S R)
    (em : EpochModel) (ctx : Context S) (calls : List SolverCall) :
    ∃ rest, (solveDtmc api em ctx calls).calls = calls ++ rest := by
  by_cases hlen : (prepareRhsDtmc em).2 = em.stepSolutions.length
  · cases hsolver : ctx.solver with
    | none => rw [solveDtmc_of_null api em ctx calls hlen hsolver]; exact ⟨[], by simp⟩
    | some solver =>
      rw [solveDtmc_of_solver api em ctx calls solver hlen hsolver]; exact ⟨_, rfl⟩
  · rw [solveDtmc_of_assert api em ctx calls hlen]; exact ⟨[], by simp⟩

theorem analyzeNonTrivialDtmcEpochModel_calls_of_changed {S R : Type}
    (api : LinearEquationSolver S R) (em : EpochModel) (ctx : Context S)
    (lowerBound upperBound : Option ValueType) (hchanged : em.epochMatrixChanged = true) :
    ∃ rest, (analyzeNonTrivialDtmcEpochModel api em ctx lowerBound upperBound).calls =
      setUpCallsDtmc em lowerBound upperBound ++ rest := by
  cases hcrit : api.hasEnabledCriticalRequirement
      (remainingRequirementsDtmc api em lowerBound upperBound) with
  | true =>
    rw [analyzeNonTrivialDtmcEpochModel_of_critical api em ctx _ _ hchanged hcrit]
    exact ⟨[], by simp⟩
  | false =>
    rw [analyzeNonTrivialDtmcEpochModel_of_changed api em ctx _ _ hchanged hcrit]
    exact solveDtmc_calls_prefix _ _ _ _

theorem isIdentityMatrix_identityFixedPoint :
    identityFixedPoint.epochMatrix.isIdentityMatrix = true := by
  simp [SparseMatrix.isIdentityMatrix, identityFixedPoint, SparseMatrix.getRowCount,
    SparseMatrix.entryAt, List.range, List.range.loop, List.lookup]

/-- C5, as amended: for a deterministic epoch model (trivial row grouping, problem format
set) the deterministic dispatcher runs the trivial analyzer exactly when the format is the
equation system and the matrix is the identity, or the format is the fixed point system
and the matrix has no entries; otherwise it runs the non-trivial analyzer. -/
theorem analyzeSingleObjective_trivial_iff {S R : Type} (api : LinearEquationSolver S R)
    (em : EpochModel) (ctx : Context S) (lowerBound upperBound : Option ValueType)
    (hgroup : em.epochMatrix.hasTrivialRowGrouping = true)
    (hformat : em.equationSolverProblemFormat.isSome = true) :
    (SolverCall.analyzer .TrivialDtmc ∈
        (em.analyzeSingleObjective api ctx lowerBound upperBound).calls ↔
      ((em.equationSolverProblemFormat = some .EquationSystem ∧
          em.epochMatrix.isIdentityMatrix = true) ∨
        (em.equationSolverProblemFormat = some .FixedPointSystem ∧
          em.epochMatrix.getEntryCount = 0))) ∧
    (SolverCall.analyzer .NonTrivialDtmc ∈
        (em.analyzeSingleObjective api ctx lowerBound upperBound).calls ↔
      ¬ ((em.equationSolverProblemFormat = some .EquationSystem ∧
          em.epochMatrix.isIdentityMatrix = true) ∨
        (em.equationSolverProblemFormat = some .FixedPointSystem ∧
          em.epochMatrix.getEntryCount = 0))) ∧
    (((em.equationSolverProblemFormat = some .EquationSystem ∧
          em.epochMatrix.isIdentityMatrix = true) ∨
        (em.equationSolverProblemFormat = some .FixedPointSystem ∧
          em.epochMatrix.getEntryCount = 0)) →
      (em.analyzeSingleObjective api ctx lowerBound upperBound).result =
        .ok (analyzeTrivialDtmcEpochModel em)) ∧
    (¬ ((em.equationSolverProblemFormat = some .EquationSystem ∧
          em.epochMatrix.isIdentityMatrix = true) ∨
        (em.equationSolverProblemFormat = some .FixedPointSystem ∧
          em.epochMatrix.getEntryCount = 0)) →
      (em.analyzeSingleObjective api ctx lowerBound upperBound).result =
        (analyzeNonTrivialDtmcEpochModel api em ctx lowerBound upperBound).result) := by
  by_cases hcond : (em.equationSolverProblemFormat = some .EquationSystem ∧
      em.epochMatrix.isIdentityMatrix = true) ∨
    (em.equationSolverProblemFormat = some .FixedPointSystem ∧
      em.epochMatrix.getEntryCount = 0)
  · rw [analyzeSingleObjective_of_trivial api em ctx _ _ hgroup hcond]
    simp [hcond]
  · rw [analyzeSingleObjective_of_nonTrivial api em ctx _ _ hgroup hformat hcond]
    have hno := analyzeNonTrivialDtmcEpochModel_no_analyzer api em ctx lowerBound upperBound
      .TrivialDtmc
    simp [hcond, hno]

/-- C5 as amended, at `identityEquationSystem`: the identity matrix in the equation
system format is analyzed by the trivial analyzer. -/
theorem analyzeSingleObjective_trivial_iff_witness :
    identityEquationSystem.epochMatrix.hasTrivialRowGrouping = true ∧
    identityEquationSystem.equationSolverProblemFormat.isSome = true ∧
    SolverCall.analyzer .TrivialDtmc ∈
      (identityEquationSystem.analyzeSingleObjective (sweepSolverApi 1 noRequirements)
        (staleContext SweepSolver) none none).calls :=
  ⟨by decide, by decide,
    (analyzeSingleObjective_trivial_iff (sweepSolverApi 1 noRequirements)
      identityEquationSystem (staleContext SweepSolver) none none (by decide) (by decide)).1.mpr
      (Or.inl ⟨rfl, isIdentityMatrix_identityFixedPoint⟩)⟩

/-- C5 as stated fails at `identityFixedPoint`: the format is the fixed point system and the
matrix is the identity, yet the dispatcher runs the non-trivial analyzer and not the
trivial one. -/
theorem analyzeSingleObjective_fixedPoint_identity_runs_nonTrivial :
    identityFixedPoint.epochMatrix.hasTrivialRowGrouping = true ∧
    identityFixedPoint.equationSolverProblemFormat = some .FixedPointSystem ∧
    identityFixedPoint.epochMatrix.isIdentityMatrix = true ∧
    SolverCall.analyzer .NonTrivialDtmc ∈
      (identityFixedPoint.analyzeSingleObjective (sweepSolverApi 1 noRequirements)
        (staleContext SweepSolver) none none).calls ∧
    SolverCall.analyzer .TrivialDtmc ∉
      (identityFixedPoint.analyzeSingleObjective (sweepSolverApi 1 noRequirements)
        (staleContext SweepSolver) none none).calls := by
  have hcond : ¬ ((identityFixedPoint.equationSolverProblemFormat = some .EquationSystem ∧
        identityFixedPoint.epochMatrix.isIdentityMatrix = true) ∨
      (identityFixedPoint.equationSolverProblemFormat = some .FixedPointSystem ∧
        identityFixedPoint.epochMatrix.getEntryCount = 0)) := by
    rintro (⟨h, _⟩ | ⟨_, h⟩)
    · exact absurd h (by decide)
    · exact absurd h (by decide)
  refine ⟨by decide, rfl, isIdentityMatrix_identityFixedPoint, ?_, ?_⟩
  · rw [analyzeSingleObjective_of_nonTrivial _ _ _ _ _ (by decide) (by decide) hcond]
    exact List.mem_cons_self _ _
  · rw [analyzeSingleObjective_of_nonTrivial _ _ _ _ _ (by decide) (by decide) hcond]
    intro h
    rcases List.mem_cons.mp h with h | h
    · cases h
    · exact analyzeNonTrivialDtmcEpochModel_no_analyzer _ _ _ _ _ _ h

/-- C6, as amended: for a deterministic epoch model whose matrix is the identity and whose
format is the equation system, the dispatcher takes the trivial path: it returns the
trivial analyzer's result, leaves the context as it is and creates no solver. -/
theorem analyzeSingleObjective_identity_equationSystem {S R : Type}
    (api : LinearEquationSolver S R) (em : EpochModel) (ctx : Context S)
    (lowerBound upperBound : Option ValueType)
    (hgroup : em.epochMatrix.hasTrivialRowGrouping = true)
    (hid : em.epochMatrix.isIdentityMatrix = true)
    (hformat : em.equationSolverProblemFormat = some .EquationSystem) :
    (em.analyzeSingleObjective api ctx lowerBound upperBound).result =
      .ok (analyzeTrivialDtmcEpochModel em) ∧
    (em.analyzeSingleObjective api ctx lowerBound upperBound).calls
      = [.analyzer .TrivialDtmc] ∧
    (∀ m, SolverCall.create m ∉
      (em.analyzeSingleObjective api ctx lowerBound upperBound).calls) ∧
    (em.analyzeSingleObjective api ctx lowerBound upperBound).context = ctx := by
  rw [analyzeSingleObjective_of_trivial api em ctx _ _ hgroup (Or.inl ⟨hformat, hid⟩)]
  simp

/-- C6 as amended, at `identityEquationSystem`. -/
theorem analyzeSingleObjective_identity_equationSystem_witness :
    identityEquationSystem.epochMatrix.hasTrivialRowGrouping = true ∧
    identityEquationSystem.epochMatrix.isIdentityMatrix = true ∧
    identityEquationSystem.equationSolverProblemFormat = some .EquationSystem ∧
    (identityEquationSystem.analyzeSingleObjective (sweepSolverApi 1 noRequirements)
        (staleContext SweepSolver) none none).calls = [.analyzer .TrivialDtmc] :=
  ⟨by decide, isIdentityMatrix_identityFixedPoint, rfl,
    (analyzeSingleObjective_identity_equationSystem (sweepSolverApi 1 noRequirements)
      identityEquationSystem (staleContext SweepSolver) none none (by decide)
      isIdentityMatrix_identityFixedPoint rfl).2.1⟩

/-- C6 as stated fails at `identityFixedPoint`: the matrix is the identity and the format is
the fixed point system, yet the dispatcher creates a solver. -/
theorem analyzeSingleObjective_fixedPoint_identity_creates_solver :
    identityFixedPoint.epochMatrix.hasTrivialRowGrouping = true ∧
    identityFixedPoint.epochMatrix.isIdentityMatrix = true ∧
    identityFixedPoint.equationSolverProblemFormat = some .FixedPointSystem ∧
    SolverCall.create identityFixedPoint.epochMatrix ∈
      (identityFixedPoint.analyzeSingleObjective (sweepSolverApi 1 noRequirements)
        (staleContext SweepSolver) none none).calls := by
  have hcond : ¬ ((identityFixedPoint.equationSolverProblemFormat = some .EquationSystem ∧
        identityFixedPoint.epochMatrix.isIdentityMatrix = true) ∨
      (identityFixedPoint.equationSolverProblemFormat = some .FixedPointSystem ∧
        identityFixedPoint.epochMatrix.getEntryCount = 0)) := by
    rintro (⟨h, _⟩ | ⟨_, h⟩)
    · exact absurd h (by decide)
    · exact absurd h (by decide)
  refine ⟨by decide, isIdentityMatrix_identityFixedPoint, rfl, ?_⟩
  rw [analyzeSingleObjective_of_nonTrivial _ _ _ _ _ (by decide) (by decide) hcond]
  obtain ⟨rest, hrest⟩ := analyzeNonTrivialDtmcEpochModel_calls_of_changed
    (sweepSolverApi 1 noRequirements) identityFixedPoint (staleContext SweepSolver) none none rfl
  simp only [hrest]
  simp [setUpCallsDtmc]

theorem setUpCallsMdp_mem (dir : OptimizationDirection) (em : EpochModel)
    (lowerBound upperBound : Option ValueType)
    (call : SolverCall) (hmem : call ∈ setUpCallsMdp dir em lowerBound upperBound) :
    call = .create em.epochMatrix ∨ call = .setHasUniqueSolution ∨
      call = .setOptimizationDirection dir ∨ call = .setCachingEnabled true ∨
      call = .setTrackScheduler true ∨ call = .getRequirements ∨
      (∃ v, lowerBound = some v ∧ call = .setLowerBound v) ∨
      (∃ v, upperBound = some v ∧ call = .setUpperBound v) := by
  unfold setUpCallsMdp at hmem
  cases lowerBound <;> cases upperBound <;> simp at hmem <;> aesop

theorem solveMdp_calls_mem {S R : Type} (api : MinMaxLinearEquationSolver S R)
    (em : EpochModel) (ctx : Context S) (calls : List SolverCall) (call : SolverCall)
    (hmem : call ∈ (solveMdp api em ctx calls).calls) :
    call ∈ calls ∨ call = .solveEquations ctx.x (prepareRhsMdp em).1 := by
  by_cases hlen : (prepareRhsMdp em).2 = em.stepSolutions.length
  · cases hsolver : ctx.solver with
    | none => rw [solveMdp_of_null api em ctx calls hlen hsolver] at hmem; exact Or.inl hmem
    | some solver =>
      rw [solveMdp_of_solver api em ctx calls solver hlen hsolver] at hmem
      simpa using hmem
  · rw [solveMdp_of_assert api em ctx calls hlen] at hmem; exact Or.inl hmem

theorem solveMdp_result_cases {S R : Type} (api : MinMaxLinearEquationSolver S R)
    (em : EpochModel) (ctx : Context S) (calls : List SolverCall) :
    (∃ r, (solveMdp api em ctx calls).result = .ok r) ∨
      (solveMdp api em ctx calls).result = .error .NullSolver ∨
      (solveMdp api em ctx calls).result =
        .error (.AssertionFailure "stepSolutionIt == epochModel.stepSolutions.end()") := by
  by_cases hlen : (prepareRhsMdp em).2 = em.stepSolutions.length
  · cases hsolver : ctx.solver with
    | none => rw [solveMdp_of_null api em ctx calls hlen hsolver]; exact Or.inr (Or.inl rfl)
    | some solver =>
      rw [solveMdp_of_solver api em ctx calls solver hlen hsolver]; exact Or.inl ⟨_, rfl⟩
  · rw [solveMdp_of_assert api em ctx calls hlen]; exact Or.inr (Or.inr rfl)

theorem analyzeNonTrivialMdpEpochModel_calls_mem {S R : Type}
    (api : MinMaxLinearEquationSolver S R) (dir : OptimizationDirection) (em : EpochModel)
    (ctx : Context S) (lowerBound upperBound : Option ValueType) (call : SolverCall)
    (hmem : call ∈
      (analyzeNonTrivialMdpEpochModel api dir em ctx lowerBound upperBound).calls) :
    (em.epochMatrixChanged = true ∧
        (call ∈ setUpCallsMdp dir em lowerBound upperBound ∨ call = .setRequirementsChecked)) ∨
      (em.epochMatrixChanged = false ∧
        (call = .getSchedulerChoices ∨ ∃ choices, call = .setInitialScheduler choices)) ∨
      ∃ x b, call = .solveEquations x b := by
  cases hchanged : em.epochMatrixChanged with
  | true =>
    cases hcrit : api.hasEnabledCriticalRequirement
        (remainingRequirementsMdp api dir em lowerBound upperBound) with
    | true =>
      rw [analyzeNonTrivialMdpEpochModel_of_critical api dir em ctx _ _ hchanged hcrit] at hmem
      exact Or.inl ⟨rfl, Or.inl hmem⟩
    | false =>
      rw [analyzeNonTrivialMdpEpochModel_of_changed api dir em ctx _ _ hchanged hcrit] at hmem
      rcases solveMdp_calls_mem _ _ _ _ _ hmem with h | h
      · rcases List.mem_append.mp h with h | h
        · exact Or.inl ⟨rfl, Or.inl h⟩
        · exact Or.inl ⟨rfl, Or.inr (List.mem_singleton.mp h)⟩
      · exact Or.inr (Or.inr ⟨_, _, h⟩)
  | false =>
    cases hctx : ctx.solver with
    | none =>
      rw [analyzeNonTrivialMdpEpochModel_of_unchanged_null api dir em ctx _ _ hchanged hctx]
        at hmem
      simp at hmem
    | some old =>
      rw [analyzeNonTrivialMdpEpochModel_of_unchanged api dir em ctx _ _ old hchanged hctx]
        at hmem
      rcases solveMdp_calls_mem _ _ _ _ _ hmem with h | h
      · simp only [List.mem_cons, List.mem_singleton, List.not_mem_nil, or_false] at h
        rcases h with h | h
        · exact Or.inr (Or.inl ⟨rfl, Or.inl h⟩)
        · exact Or.inr (Or.inl ⟨rfl, Or.inr ⟨_, h⟩⟩)
      · exact Or.inr (Or.inr ⟨_, _, h⟩)

theorem analyzeNonTrivialMdpEpochModel_no_analyzer {S R : Type}
    (api : MinMaxLinearEquationSolver S R) (dir : OptimizationDirection) (em : EpochModel)
    (ctx : Context S) (lowerBound upperBound : Option ValueType) (a : Analyzer) :
    SolverCall.analyzer a ∉
      (analyzeNonTrivialMdpEpochModel api dir em ctx lowerBound upperBound).calls := by
  intro hmem
  rcases analyzeNonTrivialMdpEpochModel_calls_mem _ _ _ _ _ _ _ hmem with
    ⟨_, h | h⟩ | ⟨_, h | ⟨_, h⟩⟩ | ⟨_, _, h⟩
  · rcases setUpCallsMdp_mem _ _ _ _ _ h with
      h | h | h | h | h | h | ⟨_, _, h⟩ | ⟨_, _, h⟩ <;> cases h
  all_goals cases h

theorem analyzeNonTrivialMdpEpochModel_result_cases {S R : Type}
    (api : MinMaxLinearEquationSolver S R) (dir : OptimizationDirection) (em : EpochModel)
    (ctx : Context S) (lowerBound upperBound : Option ValueType) :
    (∃ r, (analyzeNonTrivialMdpEpochModel api dir em ctx lowerBound upperBound).result
        = .ok r) ∨
      (analyzeNonTrivialMdpEpochModel api dir em ctx lowerBound upperBound).result
        = .error .NullSolver ∨
      (analyzeNonTrivialMdpEpochModel api dir em ctx lowerBound upperBound).result =
        .error (.AssertionFailure "stepSolutionIt == epochModel.stepSolutions.end()") ∨
      ∃ message, (analyzeNonTrivialMdpEpochModel api dir em ctx lowerBound upperBound).result
        = .error (.UncheckedRequirementException message) := by
  cases hchanged : em.epochMatrixChanged with
  | true =>
    cases hcrit : api.hasEnabledCriticalRequirement
        (remainingRequirementsMdp api dir em lowerBound upperBound) with
    | true =>
      rw [analyzeNonTrivialMdpEpochModel_of_critical api dir em ctx _ _ hchanged hcrit]
      exact Or.inr (Or.inr (Or.inr ⟨_, rfl⟩))
    | false =>
      rw [analyzeNonTrivialMdpEpochModel_of_changed api dir em ctx _ _ hchanged hcrit]
      rcases solveMdp_result_cases api em _ _ with h | h | h
      · exact Or.inl h
      · exact Or.inr (Or.inl h)
      · exact Or.inr (Or.inr (Or.inl h))
  | false =>
    cases hctx : ctx.solver with
    | none =>
      rw [analyzeNonTrivialMdpEpochModel_of_unchanged_null api dir em ctx _ _ hchanged hctx]
      exact Or.inr (Or.inl rfl)
    | some old =>
      rw [analyzeNonTrivialMdpEpochModel_of_unchanged api dir em ctx _ _ old hchanged hctx]
      rcases solveMdp_result_cases api em _ _ with h | h | h
      · exact Or.inl h
      · exact Or.inr (Or.inl h)
      · exact Or.inr (Or.inr (Or.inl h))

theorem getEntryCount_pos_of_identity (m : SparseMatrix)
    (hid : m.isIdentityMatrix = true) (hrows : 0 < m.getRowCount) : 0 < m.getEntryCount := by
  unfold SparseMatrix.isIdentityMatrix at hid
  simp only [Bool.and_eq_true, beq_iff_eq, List.all_eq_true, List.mem_range,
    decide_eq_true_eq] at hid
  obtain ⟨hsq, hall⟩ := hid
  have h00 := hall 0 hrows 0 (by omega)
  simp only [SparseMatrix.entryAt, if_true] at h00
  unfold SparseMatrix.getRowCount at hrows
  unfold SparseMatrix.getEntryCount
  obtain ⟨row, rest, hrowsEq⟩ : ∃ row rest, m.rows = row :: rest := by
    cases hm : m.rows with
    | nil => rw [hm] at hrows; simp at hrows
    | cons row rest => exact ⟨row, rest, rfl⟩
  rw [hrowsEq] at h00 ⊢
  simp only [List.getD_cons_zero] at h00
  cases row with
  | nil => simp [List.lookup] at h00
  | cons e es => simp

theorem analyzeSingleObjectiveMinMax_of_trivial {S R : Type}
    (api : MinMaxLinearEquationSolver S R) (dir : OptimizationDirection) (em : EpochModel)
    (ctx : Context S) (lowerBound upperBound : Option ValueType)
    (hzero : em.epochMatrix.getEntryCount = 0) :
    em.analyzeSingleObjectiveMinMax api dir ctx lowerBound upperBound =
      ⟨ctx, [.analyzer .TrivialMdp],
        .ok (analyzeTrivialMdpLoop dir em em.epochInStates.setIndices 0)⟩ := by
  unfold EpochModel.analyzeSingleObjectiveMinMax analyzeTrivialMdpEpochModel
  simp [hzero]

theorem analyzeSingleObjectiveMinMax_of_nonTrivial {S R : Type}
    (api : MinMaxLinearEquationSolver S R) (dir : OptimizationDirection) (em : EpochModel)
    (ctx : Context S) (lowerBound upperBound : Option ValueType)
    (hzero : em.epochMatrix.getEntryCount ≠ 0) :
    em.analyzeSingleObjectiveMinMax api dir ctx lowerBound upperBound =
      { analyzeNonTrivialMdpEpochModel api dir em ctx lowerBound upperBound with
        calls := .analyzer .NonTrivialMdp ::
          (analyzeNonTrivialMdpEpochModel api dir em ctx lowerBound upperBound).calls } := by
  unfold EpochModel.analyzeSingleObjectiveMinMax
  simp [hzero]

/-- C7: the non-deterministic dispatcher runs the trivial analyzer exactly when the matrix
has no entries and the non-trivial analyzer otherwise; an identity matrix with at least one
row goes to the non-trivial analyzer; and the call never ends with the failure of the
trivial analyzer's assertion that the matrix has no entries. -/
theorem analyzeSingleObjectiveMinMax_trivial_iff {S R : Type}
    (api : MinMaxLinearEquationSolver S R) (dir : OptimizationDirection) (em : EpochModel)
    (ctx : Context S) (lowerBound upperBound : Option ValueType) :
    (SolverCall.analyzer .TrivialMdp ∈
        (em.analyzeSingleObjectiveMinMax api dir ctx lowerBound upperBound).calls ↔
      em.epochMatrix.getEntryCount = 0) ∧
    (SolverCall.analyzer .NonTrivialMdp ∈
        (em.analyzeSingleObjectiveMinMax api dir ctx lowerBound upperBound).calls ↔
      em.epochMatrix.getEntryCount ≠ 0) ∧
    (em.epochMatrix.getEntryCount = 0 →
      (em.analyzeSingleObjectiveMinMax api dir ctx lowerBound upperBound).result =
        analyzeTrivialMdpEpochModel dir em) ∧
    (em.epochMatrix.getEntryCount ≠ 0 →
      (em.analyzeSingleObjectiveMinMax api dir ctx lowerBound upperBound).result =
        (analyzeNonTrivialMdpEpochModel api dir em ctx lowerBound upperBound).result) ∧
    (em.epochMatrix.isIdentityMatrix = true → 0 < em.epochMatrix.getRowCount →
      SolverCall.analyzer .NonTrivialMdp ∈
        (em.analyzeSingleObjectiveMinMax api dir ctx lowerBound upperBound).calls ∧
      SolverCall.analyzer .TrivialMdp ∉
        (em.analyzeSingleObjectiveMinMax api dir ctx lowerBound upperBound).calls) ∧
    (em.analyzeSingleObjectiveMinMax api dir ctx lowerBound upperBound).result ≠
      .error (.AssertionFailure "epochModel.epochMatrix.getEntryCount() == 0") := by
  have hno := analyzeNonTrivialMdpEpochModel_no_analyzer api dir em ctx lowerBound upperBound
  by_cases hzero : em.epochMatrix.getEntryCount = 0
  · rw [analyzeSingleObjectiveMinMax_of_trivial api dir em ctx _ _ hzero]
    refine ⟨by simp [hzero], by simp [hzero], ?_, fun h => absurd hzero h, ?_, by simp⟩
    · intro _; simp [analyzeTrivialMdpEpochModel, hzero]
    · intro hid hrows
      have := getEntryCount_pos_of_identity _ hid hrows
      omega
  · rw [analyzeSingleObjectiveMinMax_of_nonTrivial api dir em ctx _ _ hzero]
    refine ⟨by simp [hzero, hno], by simp [hzero], fun h => absurd h hzero, fun _ => rfl,
      fun _ _ => ⟨by simp, by simp [hno]⟩, ?_⟩
    rcases analyzeNonTrivialMdpEpochModel_result_cases api dir em ctx lowerBound upperBound
      with ⟨r, h⟩ | h | h | ⟨m, h⟩
    · simp only [h]; exact fun hcon => by cases hcon
    · simp only [h]; exact fun hcon => by cases hcon
    · simp only [h]
      intro hcon
      simp only [Except.error.injEq, Failure.AssertionFailure.injEq] at hcon
      exact absurd hcon (by decide)
    · simp only [h]; exact fun hcon => by cases hcon

/-- C7 at `identityMdp`: the 1 x 1 identity matrix goes to the non-trivial analyzer. -/
theorem analyzeSingleObjectiveMinMax_trivial_iff_witness :
    identityMdp.epochMatrix.isIdentityMatrix = true ∧
    0 < identityMdp.epochMatrix.getRowCount ∧
    SolverCall.analyzer .NonTrivialMdp ∈
      (identityMdp.analyzeSingleObjectiveMinMax (valueIterationApi 1 noRequirements)
        .Maximize (staleContext ValueIterationSolver) none none).calls ∧
    SolverCall.analyzer .TrivialMdp ∉
      (identityMdp.analyzeSingleObjectiveMinMax (valueIterationApi 1 noRequirements)
        .Maximize (staleContext ValueIterationSolver) none none).calls :=
  ⟨isIdentityMatrix_identityFixedPoint, by decide,
    (analyzeSingleObjectiveMinMax_trivial_iff (valueIterationApi 1 noRequirements) .Maximize
      identityMdp (staleContext ValueIterationSolver) none none).2.2.2.2.1
      isIdentityMatrix_identityFixedPoint (by decide)⟩

/-! ## The requirement check -/

theorem setUpCallsMdp_no_solve (dir : OptimizationDirection) (em : EpochModel)
    (lowerBound upperBound : Option ValueType) (x b : List ValueType) :
    SolverCall.solveEquations x b ∉ setUpCallsMdp dir em lowerBound upperBound := by
  intro h
  rcases setUpCallsMdp_mem _ _ _ _ _ h with
    h | h | h | h | h | h | ⟨_, _, h⟩ | ⟨_, _, h⟩ <;> cases h

theorem solveDtmc_result_cases {S R : Type} (api : LinearEquationSolver S R)
    (em : EpochModel) (ctx : Context S) (calls : List SolverCall) :
    (∃ r, (solveDtmc api em ctx calls).result = .ok r) ∨
      (solveDtmc api em ctx calls).result = .error .NullSolver ∨
      (solveDtmc api em ctx calls).result =
        .error (.AssertionFailure "stepSolutionIt == epochModel.stepSolutions.end()") := by
  by_cases hlen : (prepareRhsDtmc em).2 = em.stepSolutions.length
  · cases hsolver : ctx.solver with
    | none => rw [solveDtmc_of_null api em ctx calls hlen hsolver]; exact Or.inr (Or.inl rfl)
    | some solver =>
      rw [solveDtmc_of_solver api em ctx calls solver hlen hsolver]; exact Or.inl ⟨_, rfl⟩
  · rw [solveDtmc_of_assert api em ctx calls hlen]; exact Or.inr (Or.inr rfl)

theorem analyzeNonTrivialDtmcEpochModel_unchanged_no_requirements {S R : Type}
    (api : LinearEquationSolver S R) (em : EpochModel) (ctx : Context S)
    (lowerBound upperBound : Option ValueType) (hchanged : em.epochMatrixChanged = false) :
    SolverCall.getRequirements ∉
        (analyzeNonTrivialDtmcEpochModel api em ctx lowerBound upperBound).calls ∧
      ∀ message, (analyzeNonTrivialDtmcEpochModel api em ctx lowerBound upperBound).result ≠
        .error (.UncheckedRequirementException message) := by
  constructor
  · intro h
    rcases analyzeNonTrivialDtmcEpochModel_calls_mem _ _ _ _ _ _ h with ⟨h, _⟩ | ⟨_, _, h⟩
    · rw [hchanged] at h; cases h
    · cases h
  · intro message h
    rw [analyzeNonTrivialDtmcEpochModel_of_unchanged api em ctx _ _ hchanged] at h
    rcases solveDtmc_result_cases api em ctx [] with ⟨r, h2⟩ | h2 | h2 <;>
      rw [h2] at h <;> cases h

theorem analyzeNonTrivialMdpEpochModel_unchanged_no_requirements {S R : Type}
    (api : MinMaxLinearEquationSolver S R) (dir : OptimizationDirection) (em : EpochModel)
    (ctx : Context S) (lowerBound upperBound : Option ValueType)
    (hchanged : em.epochMatrixChanged = false) :
    SolverCall.getRequirements ∉
        (analyzeNonTrivialMdpEpochModel api dir em ctx lowerBound upperBound).calls ∧
      SolverCall.setRequirementsChecked ∉
        (analyzeNonTrivialMdpEpochModel api dir em ctx lowerBound upperBound).calls ∧
      ∀ message,
        (analyzeNonTrivialMdpEpochModel api dir em ctx lowerBound upperBound).result ≠
          .error (.UncheckedRequirementException message) := by
  refine ⟨?_, ?_, ?_⟩
  · intro h
    rcases analyzeNonTrivialMdpEpochModel_calls_mem _ _ _ _ _ _ _ h with
      ⟨h, _⟩ | ⟨_, h | ⟨_, h⟩⟩ | ⟨_, _, h⟩
    · rw [hchanged] at h; cases h
    · cases h
    · cases h
    · cases h
  · intro h
    rcases analyzeNonTrivialMdpEpochModel_calls_mem _ _ _ _ _ _ _ h with
      ⟨h, _⟩ | ⟨_, h | ⟨_, h⟩⟩ | ⟨_, _, h⟩
    · rw [hchanged] at h; cases h
    · cases h
    · cases h
    · cases h
  · intro message h
    cases hsolver : ctx.solver with
    | none =>
      rw [analyzeNonTrivialMdpEpochModel_of_unchanged_null api dir em ctx _ _ hchanged
        hsolver] at h
      cases h
    | some solver =>
      rw [analyzeNonTrivialMdpEpochModel_of_unchanged api dir em ctx _ _ solver hchanged
        hsolver] at h
      rcases solveMdp_result_cases api em
          { ctx with solver := some (api.setInitialScheduler solver
            (api.getSchedulerChoices solver)) }
          [.getSchedulerChoices, .setInitialScheduler (api.getSchedulerChoices solver)] with
        ⟨r, h2⟩ | h2 | h2 <;> rw [h2] at h <;> cases h

/-- C8, as amended: on an epoch with a changed matrix, when the requirements of the newly
built solver, with the lower and upper bound requirements cleared for the bounds that are
supplied, still hold an enabled critical requirement, the non-trivial deterministic and
non-deterministic analyzers end with the UncheckedRequirementException whose message
carries the requirement list, return no result and make no `solveEquations` call. On an
epoch with an unchanged matrix, whatever the solver, the context and the bounds, neither
analyzer queries the requirements (nor does the non-deterministic one mark them as
checked): the call never ends with the UncheckedRequirementException, and it returns a
result whenever the handle holds a solver and there are as many step solutions as step
choices. -/
theorem analyzeNonTrivial_unchecked_requirement {S R S2 R2 : Type}
    (api : LinearEquationSolver S R) (apiM : MinMaxLinearEquationSolver S2 R2)
    (dir : OptimizationDirection) (em : EpochModel) (ctx : Context S) (ctxM : Context S2)
    (lowerBound upperBound : Option ValueType)
    (hchanged : em.epochMatrixChanged = true) :
    (api.hasEnabledCriticalRequirement
        (remainingRequirementsDtmc api em lowerBound upperBound) = true →
      (analyzeNonTrivialDtmcEpochModel api em ctx lowerBound upperBound).result =
        .error (.UncheckedRequirementException ("Solver requirements " ++
          api.getEnabledRequirementsAsString
            (remainingRequirementsDtmc api em lowerBound upperBound) ++ " not checked.")) ∧
      ∀ x b, SolverCall.solveEquations x b ∉
        (analyzeNonTrivialDtmcEpochModel api em ctx lowerBound upperBound).calls) ∧
    (apiM.hasEnabledCriticalRequirement
        (remainingRequirementsMdp apiM dir em lowerBound upperBound) = true →
      (analyzeNonTrivialMdpEpochModel apiM dir em ctxM lowerBound upperBound).result =
        .error (.UncheckedRequirementException ("Solver requirements " ++
          apiM.getEnabledRequirementsAsString
            (remainingRequirementsMdp apiM dir em lowerBound upperBound) ++ " not checked.")) ∧
      ∀ x b, SolverCall.solveEquations x b ∉
        (analyzeNonTrivialMdpEpochModel apiM dir em ctxM lowerBound upperBound).calls) ∧
    (∀ (em0 : EpochModel) (ctx0 : Context S) (lowerBound0 upperBound0 : Option ValueType),
      em0.epochMatrixChanged = false →
      SolverCall.getRequirements ∉
        (analyzeNonTrivialDtmcEpochModel api em0 ctx0 lowerBound0 upperBound0).calls ∧
      (∀ message,
        (analyzeNonTrivialDtmcEpochModel api em0 ctx0 lowerBound0 upperBound0).result ≠
          .error (.UncheckedRequirementException message)) ∧
      (em0.stepSolutions.length = em0.stepChoices.length → ctx0.solver.isSome = true →
        ∃ r, (analyzeNonTrivialDtmcEpochModel api em0 ctx0 lowerBound0 upperBound0).result
          = .ok r)) ∧
    (∀ (dir0 : OptimizationDirection) (em0 : EpochModel) (ctx0 : Context S2)
        (lowerBound0 upperBound0 : Option ValueType),
      em0.epochMatrixChanged = false →
      SolverCall.getRequirements ∉
        (analyzeNonTrivialMdpEpochModel apiM dir0 em0 ctx0 lowerBound0 upperBound0).calls ∧
      SolverCall.setRequirementsChecked ∉
        (analyzeNonTrivialMdpEpochModel apiM dir0 em0 ctx0 lowerBound0 upperBound0).calls ∧
      (∀ message,
        (analyzeNonTrivialMdpEpochModel apiM dir0 em0 ctx0 lowerBound0 upperBound0).result ≠
          .error (.UncheckedRequirementException message)) ∧
      (em0.stepSolutions.length = em0.stepChoices.length → ctx0.solver.isSome = true →
        ∃ r,
          (analyzeNonTrivialMdpEpochModel apiM dir0 em0 ctx0 lowerBound0 upperBound0).result
            = .ok r)) := by
  refine ⟨?_, ?_, ?_, ?_⟩
  · intro hcrit
    rw [analyzeNonTrivialDtmcEpochModel_of_critical api em ctx _ _ hchanged hcrit]
    refine ⟨rfl, ?_⟩
    intro x b h
    rcases setUpCallsDtmc_mem _ _ _ _ h with h | h | h | ⟨_, _, h⟩ | ⟨_, _, h⟩ <;> cases h
  · intro hcrit
    rw [analyzeNonTrivialMdpEpochModel_of_critical apiM dir em ctxM _ _ hchanged hcrit]
    exact ⟨rfl, fun x b => setUpCallsMdp_no_solve _ _ _ _ _ _⟩
  · intro em0 ctx0 lowerBound0 upperBound0 h0
    obtain ⟨h1, h2⟩ :=
      analyzeNonTrivialDtmcEpochModel_unchanged_no_requirements api em0 ctx0 lowerBound0
        upperBound0 h0
    refine ⟨h1, h2, ?_⟩
    intro hlen hsolver
    exact analyzeNonTrivialDtmcEpochModel_succeeds api em0 ctx0 lowerBound0 upperBound0 hlen
      (by simp [h0, hsolver])
  · intro dir0 em0 ctx0 lowerBound0 upperBound0 h0
    obtain ⟨h1, h2, h3⟩ :=
      analyzeNonTrivialMdpEpochModel_unchanged_no_requirements apiM dir0 em0 ctx0 lowerBound0
        upperBound0 h0
    refine ⟨h1, h2, h3, ?_⟩
    intro hlen hsolver
    exact analyzeNonTrivialMdpEpochModel_succeeds apiM dir0 em0 ctx0 lowerBound0 upperBound0
      hlen (by simp [h0, hsolver])

/-- C8 as amended, at epoch 1 of scenario C with solvers that require convergence: the
call ends with the exception. At epoch 0, whose matrix is unchanged, on a context whose
handle holds such a solver, the non-deterministic analyzer does not query the requirements
and returns a result. -/
theorem analyzeNonTrivial_unchecked_requirement_witness :
    scenarioC1.epochMatrixChanged = true ∧
    (sweepSolverApi 1 convergenceRequired).hasEnabledCriticalRequirement
      (remainingRequirementsDtmc (sweepSolverApi 1 convergenceRequired) scenarioC1
        (some 0) (some 2)) = true ∧
    (analyzeNonTrivialDtmcEpochModel (sweepSolverApi 1 convergenceRequired) scenarioC1
        (staleContext SweepSolver) (some 0) (some 2)).result =
      .error (.UncheckedRequirementException ("Solver requirements " ++
        (sweepSolverApi 1 convergenceRequired).getEnabledRequirementsAsString
          (remainingRequirementsDtmc (sweepSolverApi 1 convergenceRequired) scenarioC1
            (some 0) (some 2)) ++ " not checked.")) ∧
    scenarioC0.epochMatrixChanged = false ∧
    SolverCall.getRequirements ∉
      (analyzeNonTrivialMdpEpochModel (valueIterationApi 1 convergenceRequired) .Maximize
        scenarioC0
        ⟨[0], [], some ((valueIterationApi 1 convergenceRequired).create
          scenarioC0.epochMatrix)⟩ none none).calls ∧
    ∃ r, (analyzeNonTrivialMdpEpochModel (valueIterationApi 1 convergenceRequired) .Maximize
        scenarioC0
        ⟨[0], [], some ((valueIterationApi 1 convergenceRequired).create
          scenarioC0.epochMatrix)⟩ none none).result = .ok r :=
  ⟨rfl, by decide,
    ((analyzeNonTrivial_unchecked_requirement (sweepSolverApi 1 convergenceRequired)
      (valueIterationApi 1 convergenceRequired) .Minimize scenarioC1
      (staleContext SweepSolver) (staleContext ValueIterationSolver) (some 0) (some 2) rfl).1
      (by decide)).1,
    rfl,
    ((analyzeNonTrivial_unchecked_requirement (sweepSolverApi 1 convergenceRequired)
      (valueIterationApi 1 convergenceRequired) .Minimize scenarioC1
      (staleContext SweepSolver) (staleContext ValueIterationSolver) (some 0) (some 2)
      rfl).2.2.2 .Maximize scenarioC0 _ none none rfl).1,
    ((analyzeNonTrivial_unchecked_requirement (sweepSolverApi 1 convergenceRequired)
      (valueIterationApi 1 convergenceRequired) .Minimize scenarioC1
      (staleContext SweepSolver) (staleContext ValueIterationSolver) (some 0) (some 2)
      rfl).2.2.2 .Maximize scenarioC0 _ none none rfl).2.2.2 (by decide) rfl⟩

theorem contextAfterEpoch1_solver :
    contextAfterEpoch1.solver =
      some ⟨scenarioC1.epochMatrix, 1, lowerBoundsRequired, true, some 0, none⟩ := by
  unfold contextAfterEpoch1
  rw [analyzeNonTrivialDtmcEpochModel_of_changed _ _ _ _ _ rfl (by decide),
    solveDtmc_of_solver _ _ _ _ _ (prepareRhsDtmc_pos _) rfl]
  rfl

/-- C8 as stated fails on an epoch with an unchanged matrix: after epoch 1 of scenario C,
solved with the lower bound 0 by a solver that requires lower bounds, epoch 0 is analyzed
without bounds; the solver in the handle reports the critical lower bound requirement, no
bound is supplied that would clear it, and yet the analyzer returns a result. -/
theorem analyzeNonTrivialDtmcEpochModel_unchanged_skips_requirements :
    scenarioC0.epochMatrixChanged = false ∧
    (∃ solver, contextAfterEpoch1.solver = some solver ∧
      (sweepSolverApi 1 lowerBoundsRequired).hasEnabledCriticalRequirement
        ((sweepSolverApi 1 lowerBoundsRequired).getRequirements solver) = true) ∧
    (∃ r, (analyzeNonTrivialDtmcEpochModel (sweepSolverApi 1 lowerBoundsRequired) scenarioC0
      contextAfterEpoch1 none none).result = .ok r) ∧
    SolverCall.getRequirements ∉
      (analyzeNonTrivialDtmcEpochModel (sweepSolverApi 1 lowerBoundsRequired) scenarioC0
        contextAfterEpoch1 none none).calls := by
  refine ⟨rfl, ⟨_, contextAfterEpoch1_solver, by decide⟩, ?_, ?_⟩
  · apply analyzeNonTrivialDtmcEpochModel_succeeds _ _ _ _ _ (by decide)
    simp [scenarioC0, contextAfterEpoch1_solver]
  · intro h
    rcases analyzeNonTrivialDtmcEpochModel_calls_mem _ _ _ _ _ _ h with ⟨h, _⟩ | ⟨_, _, h⟩
    · exact absurd h (by decide)
    · cases h

/-! ## Reuse of the solver on an unchanged matrix -/

/-- C9: a call of the non-trivial deterministic analyzer with an unchanged matrix makes no
call but `solveEquations`, with the `x` of the caller as the vector to start from: no
solver is created and no requirements are queried; the handle holds afterwards what it
held before, after its solve when it held a solver. When the handle holds a solver and
there are as many step solutions as step choices, the one call is made. -/
theorem analyzeNonTrivialDtmcEpochModel_unchanged_reuses_solver {S R : Type}
    (api : LinearEquationSolver S R) (em : EpochModel) (ctx : Context S)
    (lowerBound upperBound : Option ValueType)
    (hchanged : em.epochMatrixChanged = false) :
    (∀ call ∈ (analyzeNonTrivialDtmcEpochModel api em ctx lowerBound upperBound).calls,
      call = .solveEquations ctx.x (prepareRhsDtmc em).1) ∧
    (∀ m, SolverCall.create m ∉
      (analyzeNonTrivialDtmcEpochModel api em ctx lowerBound upperBound).calls) ∧
    SolverCall.getRequirements ∉
      (analyzeNonTrivialDtmcEpochModel api em ctx lowerBound upperBound).calls ∧
    (∀ x b, SolverCall.solveEquations x b ∈
        (analyzeNonTrivialDtmcEpochModel api em ctx lowerBound upperBound).calls →
      x = ctx.x) ∧
    ((analyzeNonTrivialDtmcEpochModel api em ctx lowerBound upperBound).context.solver
        = ctx.solver ∨
      ∃ solver, ctx.solver = some solver ∧
        (analyzeNonTrivialDtmcEpochModel api em ctx lowerBound upperBound).context.solver
          = some (api.solveEquations solver ctx.x (prepareRhsDtmc em).1).1) ∧
    (∀ solver, ctx.solver = some solver →
      em.stepSolutions.length = em.stepChoices.length →
      (analyzeNonTrivialDtmcEpochModel api em ctx lowerBound upperBound).calls
        = [.solveEquations ctx.x (prepareRhsDtmc em).1] ∧
      (analyzeNonTrivialDtmcEpochModel api em ctx lowerBound upperBound).context.solver
        = some (api.solveEquations solver ctx.x (prepareRhsDtmc em).1).1) := by
  have hall : ∀ call ∈ (analyzeNonTrivialDtmcEpochModel api em ctx lowerBound upperBound).calls,
      call = .solveEquations ctx.x (prepareRhsDtmc em).1 := by
    intro call hmem
    rw [analyzeNonTrivialDtmcEpochModel_of_unchanged api em ctx _ _ hchanged] at hmem
    rcases solveDtmc_calls_mem _ _ _ _ _ hmem with h | h
    · simp at h
    · exact h
  refine ⟨hall, ?_, ?_, ?_, ?_, ?_⟩
  · intro m h; cases hall _ h
  · intro h; cases hall _ h
  · intro x b h
    have := hall _ h
    simp only [SolverCall.solveEquations.injEq] at this
    exact this.1
  · rw [analyzeNonTrivialDtmcEpochModel_of_unchanged api em ctx _ _ hchanged]
    by_cases hlen : (prepareRhsDtmc em).2 = em.stepSolutions.length
    · cases hsolver : ctx.solver with
      | none => rw [solveDtmc_of_null api em ctx _ hlen hsolver]; exact Or.inl hsolver
      | some solver =>
        rw [solveDtmc_of_solver api em ctx _ solver hlen hsolver]
        exact Or.inr ⟨solver, rfl, rfl⟩
    · rw [solveDtmc_of_assert api em ctx _ hlen]; exact Or.inl rfl
  · intro solver hsolver hlen
    rw [analyzeNonTrivialDtmcEpochModel_of_unchanged api em ctx _ _ hchanged,
      solveDtmc_of_solver api em ctx _ solver (by rw [prepareRhsDtmc_pos, hlen]) hsolver]
    exact ⟨rfl, rfl⟩

/-- C9 at epoch 0 of scenario C, on the context that epoch 1 left. -/
theorem analyzeNonTrivialDtmcEpochModel_unchanged_reuses_solver_witness :
    scenarioC0.epochMatrixChanged = false ∧
    (∀ m, SolverCall.create m ∉
      (analyzeNonTrivialDtmcEpochModel (sweepSolverApi 1 lowerBoundsRequired) scenarioC0
        contextAfterEpoch1 none none).calls) ∧
    (∀ x b, SolverCall.solveEquations x b ∈
        (analyzeNonTrivialDtmcEpochModel (sweepSolverApi 1 lowerBoundsRequired) scenarioC0
          contextAfterEpoch1 none none).calls →
      x = contextAfterEpoch1.x) :=
  ⟨rfl,
    (analyzeNonTrivialDtmcEpochModel_unchanged_reuses_solver
      (sweepSolverApi 1 lowerBoundsRequired) scenarioC0 contextAfterEpoch1 none none rfl).2.1,
    (analyzeNonTrivialDtmcEpochModel_unchanged_reuses_solver
      (sweepSolverApi 1 lowerBoundsRequired) scenarioC0 contextAfterEpoch1 none none
      rfl).2.2.2.1⟩

theorem prepareRhsDtmc_scenarioC0 : prepareRhsDtmc scenarioC0 = ([2], 1) := by
  simp [prepareRhsDtmc, addStepSolutionsDtmc, assignObjectiveRewards, scenarioC0,
    SparseMatrix.getRowCount, EpochModel.rewardFilter, EpochModel.objectiveValues,
    BitVector.setIndices, List.range, List.range.loop]
  norm_num

theorem sweepSolver_scenarioC0 (x : ValueType) :
    (sweepSolverApi 1 noRequirements).solveEquations
      ⟨scenarioC0.epochMatrix, 1, noRequirements, true, none, none⟩ [x] [2] =
      (⟨scenarioC0.epochMatrix, 1, noRequirements, true, none, none⟩, [1 / 2 * x + 2]) := by
  simp [sweepSolverApi, sweepOnce, rowTimesVector, scenarioC0, SparseMatrix.getRowCount,
    List.range, List.range.loop]

theorem analyzeNonTrivialDtmcEpochModel_scenarioC0 (x : ValueType) (b : List ValueType) :
    analyzeNonTrivialDtmcEpochModel (sweepSolverApi 1 noRequirements) scenarioC0
      ⟨[x], b, some ⟨scenarioC0.epochMatrix, 1, noRequirements, true, none, none⟩⟩ none none =
    ⟨⟨[1 / 2 * x + 2], [2],
        some ⟨scenarioC0.epochMatrix, 1, noRequirements, true, none, none⟩⟩,
      [.solveEquations [x] [2]], .ok [1 / 2 * x + 2]⟩ := by
  rw [analyzeNonTrivialDtmcEpochModel_of_unchanged _ _ _ _ _ rfl,
    solveDtmc_of_solver _ _ _ _ _ (prepareRhsDtmc_pos _) rfl]
  simp only [prepareRhsDtmc_scenarioC0, sweepSolver_scenarioC0]
  simp [filterVector, scenarioC0, BitVector.setIndices, List.range, List.range.loop]

/-- C10 as stated fails at epoch 0 of scenario C with a solver that performs one round
`x := A x + b` per solve: the first call, started from [0], returns [2]; the second call,
with the same epoch model on the context the first call left, returns [3]. -/
theorem analyzeNonTrivialDtmcEpochModel_twice_differs :
    scenarioC0.epochMatrixChanged = false ∧
    (analyzeNonTrivialDtmcEpochModel (sweepSolverApi 1 noRequirements) scenarioC0
      coldContext none none).result = .ok [2] ∧
    (analyzeNonTrivialDtmcEpochModel (sweepSolverApi 1 noRequirements) scenarioC0
      (analyzeNonTrivialDtmcEpochModel (sweepSolverApi 1 noRequirements) scenarioC0
        coldContext none none).context none none).result = .ok [3] ∧
    (analyzeNonTrivialDtmcEpochModel (sweepSolverApi 1 noRequirements) scenarioC0
      (analyzeNonTrivialDtmcEpochModel (sweepSolverApi 1 noRequirements) scenarioC0
        coldContext none none).context none none).result ≠
    (analyzeNonTrivialDtmcEpochModel (sweepSolverApi 1 noRequirements) scenarioC0
      coldContext none none).result := by
  unfold coldContext
  simp only [analyzeNonTrivialDtmcEpochModel_scenarioC0]
  refine ⟨rfl, ?_, ?_, ?_⟩ <;> norm_num

/-- C10, as amended: on an unchanged matrix, two successive calls of the non-trivial
deterministic analyzer with the same epoch model, the second on the context that the
first left, return the same result, provided that the solver, handed again the solution
it has just produced for the right-hand side, produces that solution again. -/
theorem analyzeNonTrivialDtmcEpochModel_twice_same {S R : Type}
    (api : LinearEquationSolver S R) (em : EpochModel) (ctx : Context S)
    (lowerBound upperBound lowerBound2 upperBound2 : Option ValueType)
    (hchanged : em.epochMatrixChanged = false)
    (hstable : ∀ solver, ctx.solver = some solver →
      (api.solveEquations (api.solveEquations solver ctx.x (prepareRhsDtmc em).1).1
        (api.solveEquations solver ctx.x (prepareRhsDtmc em).1).2 (prepareRhsDtmc em).1).2
      = (api.solveEquations solver ctx.x (prepareRhsDtmc em).1).2) :
    (analyzeNonTrivialDtmcEpochModel api em
      (analyzeNonTrivialDtmcEpochModel api em ctx lowerBound upperBound).context
      lowerBound2 upperBound2).result =
    (analyzeNonTrivialDtmcEpochModel api em ctx lowerBound upperBound).result := by
  rw [analyzeNonTrivialDtmcEpochModel_of_unchanged api em _ lowerBound2 upperBound2 hchanged,
    analyzeNonTrivialDtmcEpochModel_of_unchanged api em ctx lowerBound upperBound hchanged]
  by_cases hlen : (prepareRhsDtmc em).2 = em.stepSolutions.length
  · cases hsolver : ctx.solver with
    | none =>
      rw [solveDtmc_of_null api em ctx _ hlen hsolver,
        solveDtmc_of_null api em { ctx with b := (prepareRhsDtmc em).1 } _ hlen hsolver]
    | some solver =>
      rw [solveDtmc_of_solver api em ctx _ solver hlen hsolver,
        solveDtmc_of_solver api em
          { x := (api.solveEquations solver ctx.x (prepareRhsDtmc em).1).2,
            b := (prepareRhsDtmc em).1,
            solver := some (api.solveEquations solver ctx.x (prepareRhsDtmc em).1).1 }
          _ _ hlen rfl]
      simp only [hstable solver hsolver]
  · rw [solveDtmc_of_assert api em ctx _ hlen,
      solveDtmc_of_assert api em { ctx with b := (prepareRhsDtmc em).1 } _ hlen]

/-- C10 as amended, at epoch 0 of scenario C, started from its solution [4]. -/
theorem analyzeNonTrivialDtmcEpochModel_twice_same_witness :
    scenarioC0.epochMatrixChanged = false ∧
    (analyzeNonTrivialDtmcEpochModel (sweepSolverApi 1 noRequirements) scenarioC0
      (analyzeNonTrivialDtmcEpochModel (sweepSolverApi 1 noRequirements) scenarioC0
        solvedContext none none).context none none).result =
    (analyzeNonTrivialDtmcEpochModel (sweepSolverApi 1 noRequirements) scenarioC0
      solvedContext none none).result :=
  ⟨rfl, analyzeNonTrivialDtmcEpochModel_twice_same (sweepSolverApi 1 noRequirements)
    scenarioC0 solvedContext none none none none rfl (by
      intro solver hsolver
      cases hsolver
      simp only [solvedContext, prepareRhsDtmc_scenarioC0, sweepSolver_scenarioC0]
      norm_num)⟩

/-! ## The solver built on a changed matrix -/

theorem setLowerBound_mem_setUpCallsDtmc (em : EpochModel)
    (lowerBound upperBound : Option ValueType) (v : ValueType) :
    SolverCall.setLowerBound v ∈ setUpCallsDtmc em lowerBound upperBound ↔
      lowerBound = some v := by
  unfold setUpCallsDtmc
  cases lowerBound <;> cases upperBound <;> simp [eq_comm]

theorem setUpperBound_mem_setUpCallsDtmc (em : EpochModel)
    (lowerBound upperBound : Option ValueType) (v : ValueType) :
    SolverCall.setUpperBound v ∈ setUpCallsDtmc em lowerBound upperBound ↔
      upperBound = some v := by
  unfold setUpCallsDtmc
  cases lowerBound <;> cases upperBound <;> simp [eq_comm]

theorem analyzeNonTrivialDtmcEpochModel_calls_of_changed_rest {S R : Type}
    (api : LinearEquationSolver S R) (em : EpochModel) (ctx : Context S)
    (lowerBound upperBound : Option ValueType) (hchanged : em.epochMatrixChanged = true) :
    ∃ rest, (analyzeNonTrivialDtmcEpochModel api em ctx lowerBound upperBound).calls =
        setUpCallsDtmc em lowerBound upperBound ++ rest ∧
      (rest = [] ∨ rest = [.solveEquations
        (List.replicate em.epochMatrix.getRowGroupCount 0) (prepareRhsDtmc em).1]) ∧
      ((analyzeNonTrivialDtmcEpochModel api em ctx lowerBound upperBound).context.solver
          = some (setUpLinearEquationSolver api em lowerBound upperBound) ∨
        (analyzeNonTrivialDtmcEpochModel api em ctx lowerBound upperBound).context.solver
          = some (api.solveEquations (setUpLinearEquationSolver api em lowerBound upperBound)
            (List.replicate em.epochMatrix.getRowGroupCount 0) (prepareRhsDtmc em).1).1) := by
  cases hcrit : api.hasEnabledCriticalRequirement
      (remainingRequirementsDtmc api em lowerBound upperBound) with
  | true =>
    rw [analyzeNonTrivialDtmcEpochModel_of_critical api em ctx _ _ hchanged hcrit]
    exact ⟨[], by simp, Or.inl rfl, Or.inl rfl⟩
  | false =>
    rw [analyzeNonTrivialDtmcEpochModel_of_changed api em ctx _ _ hchanged hcrit]
    by_cases hlen : (prepareRhsDtmc em).2 = em.stepSolutions.length
    · rw [solveDtmc_of_solver api em _ _ _ hlen rfl]
      exact ⟨_, rfl, Or.inr rfl, Or.inr rfl⟩
    · rw [solveDtmc_of_assert api em _ _ hlen]
      exact ⟨[], by simp, Or.inl rfl, Or.inl rfl⟩

/-- C11: a call of the non-trivial deterministic analyzer on a changed matrix, whatever `x`
held before, creates a solver over the epoch matrix, enables its caching, queries its
requirements and pushes into it the lower and the upper bound that are supplied, and only
those; the handle then holds this solver; every `solveEquations` call starts from the
all-zero vector whose length is the row-group count, and this call is made when the
requirement check passes and there are as many step solutions as step choices. -/
theorem analyzeNonTrivialDtmcEpochModel_changed_builds_solver {S R : Type}
    (api : LinearEquationSolver S R) (em : EpochModel) (ctx : Context S)
    (lowerBound upperBound : Option ValueType) (hchanged : em.epochMatrixChanged = true) :
    (∃ rest, (analyzeNonTrivialDtmcEpochModel api em ctx lowerBound upperBound).calls =
        [.create em.epochMatrix, .setCachingEnabled true, .getRequirements]
          ++ (match lowerBound with
              | some value => [.setLowerBound value]
              | none => [])
          ++ (match upperBound with
              | some value => [.setUpperBound value]
              | none => [])
          ++ rest ∧
      (rest = [] ∨ rest = [.solveEquations
        (List.replicate em.epochMatrix.getRowGroupCount 0) (prepareRhsDtmc em).1])) ∧
    (∀ v, SolverCall.setLowerBound v ∈
        (analyzeNonTrivialDtmcEpochModel api em ctx lowerBound upperBound).calls ↔
      lowerBound = some v) ∧
    (∀ v, SolverCall.setUpperBound v ∈
        (analyzeNonTrivialDtmcEpochModel api em ctx lowerBound upperBound).calls ↔
      upperBound = some v) ∧
    (∀ x b, SolverCall.solveEquations x b ∈
        (analyzeNonTrivialDtmcEpochModel api em ctx lowerBound upperBound).calls →
      x = List.replicate em.epochMatrix.getRowGroupCount 0) ∧
    (∀ built, built =
        (match upperBound with
          | some upper =>
            api.setUpperBound
              (match lowerBound with
                | some lower =>
                  api.setLowerBound (api.setCachingEnabled (api.create em.epochMatrix) true) lower
                | none => api.setCachingEnabled (api.create em.epochMatrix) true)
              upper
          | none =>
            (match lowerBound with
              | some lower =>
                api.setLowerBound (api.setCachingEnabled (api.create em.epochMatrix) true) lower
              | none => api.setCachingEnabled (api.create em.epochMatrix) true)) →
      (analyzeNonTrivialDtmcEpochModel api em ctx lowerBound upperBound).context.solver
          = some built ∨
        (analyzeNonTrivialDtmcEpochModel api em ctx lowerBound upperBound).context.solver
          = some (api.solveEquations built
            (List.replicate em.epochMatrix.getRowGroupCount 0) (prepareRhsDtmc em).1).1) ∧
    (em.stepSolutions.length = em.stepChoices.length →
      api.hasEnabledCriticalRequirement
        (remainingRequirementsDtmc api em lowerBound upperBound) = false →
      (analyzeNonTrivialDtmcEpochModel api em ctx lowerBound upperBound).calls.getLast? =
        some (.solveEquations (List.replicate em.epochMatrix.getRowGroupCount 0)
          (prepareRhsDtmc em).1)) := by
  obtain ⟨rest, hcalls, hrest, hsolver⟩ :=
    analyzeNonTrivialDtmcEpochModel_calls_of_changed_rest api em ctx lowerBound upperBound
      hchanged
  have hnoLower : ∀ v, SolverCall.setLowerBound v ∉ rest := by
    intro v h
    rcases hrest with h0 | h0 <;> rw [h0] at h <;> simp at h
  have hnoUpper : ∀ v, SolverCall.setUpperBound v ∉ rest := by
    intro v h
    rcases hrest with h0 | h0 <;> rw [h0] at h <;> simp at h
  refine ⟨⟨rest, hcalls, hrest⟩, ?_, ?_, ?_, ?_, ?_⟩
  · intro v
    rw [hcalls, List.mem_append, setLowerBound_mem_setUpCallsDtmc]
    exact ⟨fun h => h.elim id (fun h2 => absurd h2 (hnoLower v)), Or.inl⟩
  · intro v
    rw [hcalls, List.mem_append, setUpperBound_mem_setUpCallsDtmc]
    exact ⟨fun h => h.elim id (fun h2 => absurd h2 (hnoUpper v)), Or.inl⟩
  · intro x b hmem
    have := (analyzeNonTrivialDtmcEpochModel_solve_mem _ _ _ _ _ _ _ hmem).2
    simpa [hchanged] using this
  · intro built hbuilt
    have hb : built = setUpLinearEquationSolver api em lowerBound upperBound := by
      rw [hbuilt]
      unfold setUpLinearEquationSolver
      cases lowerBound <;> cases upperBound <;> rfl
    rw [hb]
    exact hsolver
  · intro hlen hcrit
    rw [analyzeNonTrivialDtmcEpochModel_of_changed api em ctx _ _ hchanged hcrit,
      solveDtmc_of_solver api em _ _ _ (by rw [prepareRhsDtmc_pos, hlen]) rfl]
    simp

/-- C11 at epoch 1 of scenario C, called with the lower bound 0 on a context whose `x` is
[9]: the solve starts from [0]. -/
theorem analyzeNonTrivialDtmcEpochModel_changed_builds_solver_witness :
    scenarioC1.epochMatrixChanged = true ∧
    scenarioC1.stepSolutions.length = scenarioC1.stepChoices.length ∧
    (sweepSolverApi 1 noRequirements).hasEnabledCriticalRequirement
      (remainingRequirementsDtmc (sweepSolverApi 1 noRequirements) scenarioC1 (some 0) none)
        = false ∧
    (analyzeNonTrivialDtmcEpochModel (sweepSolverApi 1 noRequirements) scenarioC1
        (staleContext SweepSolver) (some 0) none).calls.getLast? =
      some (.solveEquations (List.replicate scenarioC1.epochMatrix.getRowGroupCount 0)
        (prepareRhsDtmc scenarioC1).1) :=
  ⟨rfl, by decide, by decide,
    (analyzeNonTrivialDtmcEpochModel_changed_builds_solver (sweepSolverApi 1 noRequirements)
      scenarioC1 (staleContext SweepSolver) (some 0) none rfl).2.2.2.2.2 (by decide)
      (by decide)⟩

/-! ## The trivial paths and the cache context -/

theorem analyzeSingleObjective_of_grouping {S R : Type} (api : LinearEquationSolver S R)
    (em : EpochModel) (ctx : Context S) (lowerBound upperBound : Option ValueType)
    (hgroup : em.epochMatrix.hasTrivialRowGrouping = false) :
    em.analyzeSingleObjective api ctx lowerBound upperBound =
      ⟨ctx, [], .error (.AssertionFailure
        "This operation is only allowed if no nondeterminism is present.")⟩ := by
  unfold EpochModel.analyzeSingleObjective
  simp [hgroup]

theorem analyzeSingleObjective_of_no_format {S R : Type} (api : LinearEquationSolver S R)
    (em : EpochModel) (ctx : Context S) (lowerBound upperBound : Option ValueType)
    (hgroup : em.epochMatrix.hasTrivialRowGrouping = true)
    (hformat : em.equationSolverProblemFormat = none) :
    em.analyzeSingleObjective api ctx lowerBound upperBound =
      ⟨ctx, [], .error (.AssertionFailure "Unknown equation problem format.")⟩ := by
  unfold EpochModel.analyzeSingleObjective
  simp [hgroup, hformat]

theorem analyzeSingleObjective_trivial_of_mem {S R : Type} (api : LinearEquationSolver S R)
    (em : EpochModel) (ctx : Context S) (lowerBound upperBound : Option ValueType)
    (hmem : SolverCall.analyzer .TrivialDtmc ∈
      (em.analyzeSingleObjective api ctx lowerBound upperBound).calls) :
    em.epochMatrix.hasTrivialRowGrouping = true ∧
    ((em.equationSolverProblemFormat = some .EquationSystem ∧
        em.epochMatrix.isIdentityMatrix = true) ∨
      (em.equationSolverProblemFormat = some .FixedPointSystem ∧
        em.epochMatrix.getEntryCount = 0)) := by
  cases hgroup : em.epochMatrix.hasTrivialRowGrouping with
  | false =>
    rw [analyzeSingleObjective_of_grouping api em ctx _ _ hgroup] at hmem
    simp at hmem
  | true =>
    cases hformat : em.equationSolverProblemFormat with
    | none =>
      rw [analyzeSingleObjective_of_no_format api em ctx _ _ hgroup hformat] at hmem
      simp at hmem
    | some f =>
      refine ⟨rfl, ?_⟩
      by_contra hcond
      rw [← hformat] at hcond
      rw [analyzeSingleObjective_of_nonTrivial api em ctx _ _ hgroup
        (by rw [hformat]; rfl) hcond] at hmem
      rcases List.mem_cons.mp hmem with h | h
      · cases h
      · exact analyzeNonTrivialDtmcEpochModel_no_analyzer _ _ _ _ _ _ h

theorem analyzeSingleObjectiveMinMax_trivial_of_mem {S R : Type}
    (api : MinMaxLinearEquationSolver S R) (dir : OptimizationDirection) (em : EpochModel)
    (ctx : Context S) (lowerBound upperBound : Option ValueType)
    (hmem : SolverCall.analyzer .TrivialMdp ∈
      (em.analyzeSingleObjectiveMinMax api dir ctx lowerBound upperBound).calls) :
    em.epochMatrix.getEntryCount = 0 := by
  by_contra hzero
  rw [analyzeSingleObjectiveMinMax_of_nonTrivial api dir em ctx _ _ hzero] at hmem
  rcases List.mem_cons.mp hmem with h | h
  · cases h
  · exact analyzeNonTrivialMdpEpochModel_no_analyzer _ _ _ _ _ _ _ h

/-- C12: when the deterministic or the non-deterministic dispatcher runs the trivial
analyzer, the call leaves the cache context as it was (`x`, `b` and the solver handle), its
trace holds nothing but the entry into the trivial analyzer (no solver is created, no
`solveEquations` call is made), and its result is the trivial analyzer's, the same for
every context, every solver and every bounds. -/
theorem analyzeSingleObjective_trivial_frame {S R S2 R2 : Type}
    (api : LinearEquationSolver S R) (apiM : MinMaxLinearEquationSolver S2 R2)
    (dir : OptimizationDirection) (em : EpochModel) (ctx : Context S) (ctxM : Context S2)
    (lowerBound upperBound : Option ValueType) :
    (SolverCall.analyzer .TrivialDtmc ∈
        (em.analyzeSingleObjective api ctx lowerBound upperBound).calls →
      (em.analyzeSingleObjective api ctx lowerBound upperBound).context = ctx ∧
      (em.analyzeSingleObjective api ctx lowerBound upperBound).calls
        = [.analyzer .TrivialDtmc] ∧
      (∀ m, SolverCall.create m ∉
        (em.analyzeSingleObjective api ctx lowerBound upperBound).calls) ∧
      (∀ x b, SolverCall.solveEquations x b ∉
        (em.analyzeSingleObjective api ctx lowerBound upperBound).calls) ∧
      (em.analyzeSingleObjective api ctx lowerBound upperBound).result
        = .ok (analyzeTrivialDtmcEpochModel em) ∧
      ∀ (S3 R3 : Type) (api3 : LinearEquationSolver S3 R3) (ctx3 : Context S3)
        (lowerBound3 upperBound3 : Option ValueType),
        (em.analyzeSingleObjective api3 ctx3 lowerBound3 upperBound3).result =
          (em.analyzeSingleObjective api ctx lowerBound upperBound).result) ∧
    (SolverCall.analyzer .TrivialMdp ∈
        (em.analyzeSingleObjectiveMinMax apiM dir ctxM lowerBound upperBound).calls →
      (em.analyzeSingleObjectiveMinMax apiM dir ctxM lowerBound upperBound).context = ctxM ∧
      (em.analyzeSingleObjectiveMinMax apiM dir ctxM lowerBound upperBound).calls
        = [.analyzer .TrivialMdp] ∧
      (∀ m, SolverCall.create m ∉
        (em.analyzeSingleObjectiveMinMax apiM dir ctxM lowerBound upperBound).calls) ∧
      (∀ x b, SolverCall.solveEquations x b ∉
        (em.analyzeSingleObjectiveMinMax apiM dir ctxM lowerBound upperBound).calls) ∧
      (em.analyzeSingleObjectiveMinMax apiM dir ctxM lowerBound upperBound).result
        = analyzeTrivialMdpEpochModel dir em ∧
      ∀ (S3 R3 : Type) (api3 : MinMaxLinearEquationSolver S3 R3) (ctx3 : Context S3)
        (lowerBound3 upperBound3 : Option ValueType),
        (em.analyzeSingleObjectiveMinMax api3 dir ctx3 lowerBound3 upperBound3).result =
          (em.analyzeSingleObjectiveMinMax apiM dir ctxM lowerBound upperBound).result) := by
  constructor
  · intro hmem
    obtain ⟨hgroup, hcond⟩ := analyzeSingleObjective_trivial_of_mem _ _ _ _ _ hmem
    rw [analyzeSingleObjective_of_trivial api em ctx _ _ hgroup hcond]
    refine ⟨rfl, rfl, by simp, by simp, rfl, ?_⟩
    intro S3 R3 api3 ctx3 lowerBound3 upperBound3
    rw [analyzeSingleObjective_of_trivial api3 em ctx3 _ _ hgroup hcond]
  · intro hmem
    have hzero := analyzeSingleObjectiveMinMax_trivial_of_mem _ _ _ _ _ _ hmem
    rw [analyzeSingleObjectiveMinMax_of_trivial apiM dir em ctxM _ _ hzero]
    refine ⟨rfl, rfl, by simp, by simp, by simp [analyzeTrivialMdpEpochModel, hzero], ?_⟩
    intro S3 R3 api3 ctx3 lowerBound3 upperBound3
    rw [analyzeSingleObjectiveMinMax_of_trivial api3 dir em ctx3 _ _ hzero]

/-- C12 at scenario A in the fixed point format: the context [9], [9], no solver is
returned as it was. -/
theorem analyzeSingleObjective_trivial_frame_witness :
    SolverCall.analyzer .TrivialDtmc ∈
      (scenarioA.analyzeSingleObjective (sweepSolverApi 1 noRequirements)
        (staleContext SweepSolver) none none).calls ∧
    (scenarioA.analyzeSingleObjective (sweepSolverApi 1 noRequirements)
      (staleContext SweepSolver) none none).context = staleContext SweepSolver :=
  have hmem : SolverCall.analyzer .TrivialDtmc ∈
      (scenarioA.analyzeSingleObjective (sweepSolverApi 1 noRequirements)
        (staleContext SweepSolver) none none).calls := by
    rw [analyzeSingleObjective_of_trivial _ _ _ _ _ (by decide) (Or.inr ⟨rfl, by decide⟩)]
    exact List.mem_singleton.mpr rfl
  ⟨hmem, ((analyzeSingleObjective_trivial_frame (sweepSolverApi 1 noRequirements)
    (valueIterationApi 1 noRequirements) .Minimize scenarioA (staleContext SweepSolver)
    (staleContext ValueIterationSolver) none none).1 hmem).1⟩

/-! ## The tie-break of the trivial non-deterministic analyzer -/

theorem bestChoiceStepTracked_toBestChoice (dir : OptimizationDirection) (em : EpochModel)
    (st : TrackedBestChoice) (choice : Nat) :
    (bestChoiceStepTracked dir em st choice).toBestChoice =
      bestChoiceStep dir em st.toBestChoice choice := by
  unfold bestChoiceStepTracked bestChoiceStep TrackedBestChoice.toBestChoice
  simp only
  split_ifs <;> rfl

theorem foldl_bestChoiceStepTracked_toBestChoice (dir : OptimizationDirection)
    (em : EpochModel) :
    ∀ (cs : List Nat) (st : TrackedBestChoice),
      (cs.foldl (bestChoiceStepTracked dir em) st).toBestChoice =
        cs.foldl (bestChoiceStep dir em) st.toBestChoice := by
  intro cs
  induction cs with
  | nil => intro st; rfl
  | cons c rest ih =>
    intro st
    simp only [List.foldl_cons]
    rw [ih, bestChoiceStepTracked_toBestChoice]

theorem trackedBestChoiceOfState_toBestChoice (dir : OptimizationDirection) (em : EpochModel)
    (state pos : Nat) :
    (trackedBestChoiceOfState dir em state pos).toBestChoice =
      bestChoiceOfState dir em state pos := by
  unfold trackedBestChoiceOfState bestChoiceOfState
  rw [foldl_bestChoiceStepTracked_toBestChoice]
  rfl

theorem analyzeTrivialMdpLoopTracked_values (dir : OptimizationDirection) (em : EpochModel) :
    ∀ (states : List Nat) (pos : Nat),
      (analyzeTrivialMdpLoopTracked dir em states pos).map Prod.snd =
        analyzeTrivialMdpLoop dir em states pos := by
  intro states
  induction states with
  | nil => intro pos; rfl
  | cons state rest ih =>
    intro pos
    have h := trackedBestChoiceOfState_toBestChoice dir em state pos
    have hv : (trackedBestChoiceOfState dir em state pos).bestValue =
        (bestChoiceOfState dir em state pos).bestValue := by rw [← h]; rfl
    have hp : (trackedBestChoiceOfState dir em state pos).stepPos =
        (bestChoiceOfState dir em state pos).stepPos := by rw [← h]; rfl
    simp only [analyzeTrivialMdpLoopTracked, analyzeTrivialMdpLoop, List.map_cons]
    rw [ih, hv, hp]

theorem bestChoiceStepTracked_of_not_first (dir : OptimizationDirection) (em : EpochModel)
    (st : TrackedBestChoice) (c : Nat) (hfirst : st.isFirstChoice = false) :
    bestChoiceStepTracked dir em st c =
      ⟨advanceStepIt em.stepChoices c st.stepPos,
        if improves dir (choiceValueAt em (advanceStepIt em.stepChoices c st.stepPos) c)
            st.bestValue = true then
          choiceValueAt em (advanceStepIt em.stepChoices c st.stepPos) c else st.bestValue,
        false,
        if improves dir (choiceValueAt em (advanceStepIt em.stepChoices c st.stepPos) c)
            st.bestValue = true then c else st.selected⟩ := by
  unfold bestChoiceStepTracked improves
  simp only [hfirst, Bool.false_eq_true, if_false]
  cases dir <;> simp only [minimize, if_true, Bool.false_eq_true, if_false, decide_eq_true_eq]
    <;> split_ifs <;> rfl

theorem bestChoiceStepTracked_of_first (dir : OptimizationDirection) (em : EpochModel)
    (st : TrackedBestChoice) (c : Nat) (hfirst : st.isFirstChoice = true) :
    bestChoiceStepTracked dir em st c =
      ⟨advanceStepIt em.stepChoices c st.stepPos,
        choiceValueAt em (advanceStepIt em.stepChoices c st.stepPos) c, false, c⟩ := by
  unfold bestChoiceStepTracked
  simp [hfirst]

theorem improves_trans (dir : OptimizationDirection) (a b c : ValueType)
    (hab : improves dir a b = true) (hbc : improves dir b c = true) :
    improves dir a c = true := by
  cases dir <;> simp only [improves, minimize, if_true, Bool.false_eq_true, if_false,
    decide_eq_true_eq] at * <;> linarith

theorem improves_of_not_improves (dir : OptimizationDirection) (a b c : ValueType)
    (hab : improves dir a b = true) (hcb : improves dir c b = false) :
    improves dir a c = true := by
  cases dir <;> simp only [improves, minimize, if_true, Bool.false_eq_true, if_false,
    decide_eq_true_eq, decide_eq_false_iff_not, not_lt] at * <;> linarith

theorem not_improves_of_fold (dir : OptimizationDirection) (em : EpochModel)
    (hs : em.stepChoices.Sorted (· < ·)) (cs : List Nat) (st : TrackedBestChoice)
    (hfirst : st.isFirstChoice = false) (hsorted : cs.Sorted (· < ·))
    (hinv : ∀ i, i < st.stepPos → ∀ h : i < em.stepChoices.length,
      ∀ c ∈ cs, em.stepChoices[i] < c) :
    (cs.foldl (bestChoiceStepTracked dir em) st).isFirstChoice = false ∧
    (∀ bound, (∀ c ∈ cs, c < bound) →
      (∀ i, i < st.stepPos → ∀ h : i < em.stepChoices.length, em.stepChoices[i] < bound) →
      ∀ i, i < (cs.foldl (bestChoiceStepTracked dir em) st).stepPos →
        ∀ h : i < em.stepChoices.length, em.stepChoices[i] < bound) ∧
    (∀ c ∈ cs, improves dir (choiceValue em c)
      (cs.foldl (bestChoiceStepTracked dir em) st).bestValue = false) ∧
    improves dir st.bestValue (cs.foldl (bestChoiceStepTracked dir em) st).bestValue
      = false := by
  have hto := foldl_bestChoiceStepTracked_toBestChoice dir em cs st
  have hv : (cs.foldl (bestChoiceStepTracked dir em) st).bestValue =
      (cs.foldl (bestChoiceStep dir em) st.toBestChoice).bestValue := by rw [← hto]; rfl
  have hp : (cs.foldl (bestChoiceStepTracked dir em) st).stepPos =
      (cs.foldl (bestChoiceStep dir em) st.toBestChoice).stepPos := by rw [← hto]; rfl
  have hf : (cs.foldl (bestChoiceStepTracked dir em) st).isFirstChoice =
      (cs.foldl (bestChoiceStep dir em) st.toBestChoice).isFirstChoice := by rw [← hto]; rfl
  obtain ⟨h1, h2, _, h4, h5⟩ := bestChoiceStep_fold dir em hs cs st.toBestChoice hfirst
    hsorted hinv
  rw [hv, hp, hf]
  refine ⟨h1, h2, ?_, ?_⟩
  · intro c hc
    cases dir with
    | Minimize =>
      have := (h4 rfl).2 c hc
      simp only [improves, minimize, if_true, decide_eq_false_iff_not, not_lt]
      exact this
    | Maximize =>
      have := (h5 rfl).2 c hc
      simp only [improves, minimize, Bool.false_eq_true, if_false, decide_eq_false_iff_not,
        not_lt, gt_iff_lt]
      exact this
  · cases dir with
    | Minimize =>
      have := (h4 rfl).1
      simp only [improves, minimize, if_true, decide_eq_false_iff_not, not_lt]
      exact this
    | Maximize =>
      have := (h5 rfl).1
      simp only [improves, minimize, Bool.false_eq_true, if_false, decide_eq_false_iff_not,
        not_lt, gt_iff_lt]
      exact this

theorem selected_of_fold (dir : OptimizationDirection) (em : EpochModel)
    (hs : em.stepChoices.Sorted (· < ·)) :
    ∀ (cs : List Nat) (st : TrackedBestChoice), st.isFirstChoice = false →
      cs.Sorted (· < ·) →
      (∀ i, i < st.stepPos → ∀ h : i < em.stepChoices.length,
        ∀ c ∈ cs, em.stepChoices[i] < c) →
      ((cs.foldl (bestChoiceStepTracked dir em) st).selected = st.selected ∧
        (cs.foldl (bestChoiceStepTracked dir em) st).bestValue = st.bestValue) ∨
      ((cs.foldl (bestChoiceStepTracked dir em) st).selected ∈ cs ∧
        (cs.foldl (bestChoiceStepTracked dir em) st).bestValue =
          choiceValue em (cs.foldl (bestChoiceStepTracked dir em) st).selected ∧
        improves dir (cs.foldl (bestChoiceStepTracked dir em) st).bestValue st.bestValue
          = true ∧
        ∀ c ∈ cs, c < (cs.foldl (bestChoiceStepTracked dir em) st).selected →
          improves dir (cs.foldl (bestChoiceStepTracked dir em) st).bestValue
            (choiceValue em c) = true) := by
  intro cs
  induction cs with
  | nil => intro st _ _ _; exact Or.inl ⟨rfl, rfl⟩
  | cons c rest ih =>
    intro st hfirst hsorted hinv
    have hrest := List.sorted_cons.mp hsorted
    have hinvc : ∀ i, i < st.stepPos → ∀ h : i < em.stepChoices.length,
        em.stepChoices[i] < c := fun i hi h => hinv i hi h c (List.mem_cons_self _ _)
    obtain ⟨_, hbelow, _⟩ := advanceStepIt_spec em.stepChoices c st.stepPos hinvc
    have hval := choiceValueAt_advance em hs c st.stepPos hinvc
    have hstep := bestChoiceStepTracked_of_not_first dir em st c hfirst
    rw [hval] at hstep
    have hfirst2 : (bestChoiceStepTracked dir em st c).isFirstChoice = false := by rw [hstep]
    have hinv2 : ∀ i, i < (bestChoiceStepTracked dir em st c).stepPos →
        ∀ h : i < em.stepChoices.length, ∀ c2 ∈ rest, em.stepChoices[i] < c2 := by
      intro i hi h c2 hc2
      rw [hstep] at hi
      exact lt_trans (hbelow i hi h) (hrest.1 c2 hc2)
    have hih := ih (bestChoiceStepTracked dir em st c) hfirst2 hrest.2 hinv2
    simp only [List.foldl_cons]
    generalize hfin : List.foldl (bestChoiceStepTracked dir em)
      (bestChoiceStepTracked dir em st c) rest = fin at hih ⊢
    cases himp : improves dir (choiceValue em c) st.bestValue with
    | true =>
      have hsel : (bestChoiceStepTracked dir em st c).selected = c := by
        rw [hstep]; simp [himp]
      have hbest : (bestChoiceStepTracked dir em st c).bestValue = choiceValue em c := by
        rw [hstep]; simp [himp]
      rw [hsel, hbest] at hih
      rcases hih with ⟨h1, h2⟩ | ⟨h1, h2, h3, h4⟩
      · refine Or.inr ⟨by rw [h1]; exact List.mem_cons_self _ _, by rw [h2, h1],
          by rw [h2]; exact himp, ?_⟩
        intro c2 hc2 hlt
        rw [h1] at hlt
        rcases List.mem_cons.mp hc2 with h | h
        · omega
        · have := hrest.1 c2 h; omega
      · refine Or.inr ⟨List.mem_cons_of_mem _ h1, h2, improves_trans dir _ _ _ h3 himp, ?_⟩
        intro c2 hc2 hlt
        rcases List.mem_cons.mp hc2 with h | h
        · rw [h]; exact h3
        · exact h4 c2 h hlt
    | false =>
      have hsel : (bestChoiceStepTracked dir em st c).selected = st.selected := by
        rw [hstep]; simp [himp]
      have hbest : (bestChoiceStepTracked dir em st c).bestValue = st.bestValue := by
        rw [hstep]; simp [himp]
      rw [hsel, hbest] at hih
      rcases hih with ⟨h1, h2⟩ | ⟨h1, h2, h3, h4⟩
      · exact Or.inl ⟨h1, h2⟩
      · refine Or.inr ⟨List.mem_cons_of_mem _ h1, h2, h3, ?_⟩
        intro c2 hc2 hlt
        rcases List.mem_cons.mp hc2 with h | h
        · rw [h]; exact improves_of_not_improves dir _ _ _ h3 himp
        · exact h4 c2 h hlt

theorem trackedBestChoiceOfState_spec (dir : OptimizationDirection) (em : EpochModel)
    (hs : em.stepChoices.Sorted (· < ·)) (state pos : Nat)
    (hne : em.epochMatrix.getRowGroupIndices.getD state 0
      < em.epochMatrix.getRowGroupIndices.getD (state + 1) 0)
    (hinv : ∀ i, i < pos → ∀ h : i < em.stepChoices.length,
      em.stepChoices[i] < em.epochMatrix.getRowGroupIndices.getD state 0) :
    em.epochMatrix.getRowGroupIndices.getD state 0
      ≤ (trackedBestChoiceOfState dir em state pos).selected ∧
    (trackedBestChoiceOfState dir em state pos).selected
      < em.epochMatrix.getRowGroupIndices.getD (state + 1) 0 ∧
    (trackedBestChoiceOfState dir em state pos).bestValue
      = choiceValue em (trackedBestChoiceOfState dir em state pos).selected ∧
    (∀ c, em.epochMatrix.getRowGroupIndices.getD state 0 ≤ c →
      c < em.epochMatrix.getRowGroupIndices.getD (state + 1) 0 →
      improves dir (choiceValue em c) (trackedBestChoiceOfState dir em state pos).bestValue
        = false) ∧
    (∀ c, em.epochMatrix.getRowGroupIndices.getD state 0 ≤ c →
      c < (trackedBestChoiceOfState dir em state pos).selected →
      improves dir (trackedBestChoiceOfState dir em state pos).bestValue (choiceValue em c)
        = true) := by
  obtain ⟨n, hn⟩ : ∃ n, em.epochMatrix.getRowGroupIndices.getD (state + 1) 0
      - em.epochMatrix.getRowGroupIndices.getD state 0 = n + 1 := ⟨_, (Nat.succ_pred_eq_of_pos
        (Nat.sub_pos_of_lt hne)).symm⟩
  generalize hfirst : em.epochMatrix.getRowGroupIndices.getD state 0 = first at *
  generalize hlast : em.epochMatrix.getRowGroupIndices.getD (state + 1) 0 = last at *
  obtain ⟨_, hbelow, _⟩ := advanceStepIt_spec em.stepChoices first pos hinv
  have hval := choiceValueAt_advance em hs first pos hinv
  have hunf : trackedBestChoiceOfState dir em state pos =
      (List.range' (first + 1) n).foldl (bestChoiceStepTracked dir em)
        ⟨advanceStepIt em.stepChoices first pos, choiceValue em first, false, first⟩ := by
    unfold trackedBestChoiceOfState
    simp only [hfirst, hlast, hn, List.range'_succ, List.foldl_cons]
    congr 1
    rw [bestChoiceStepTracked_of_first dir em _ first rfl, hval]
  have hsortedRange : (List.range' (first + 1) n).Sorted (· < ·) := by
    simpa [List.Sorted] using List.pairwise_lt_range' (first + 1) n
  have hmemRange : ∀ c, c ∈ List.range' (first + 1) n ↔ first + 1 ≤ c ∧ c < last := by
    intro c; rw [List.mem_range'_1]; omega
  have hinv1 : ∀ i, i < (⟨advanceStepIt em.stepChoices first pos, choiceValue em first, false,
      first⟩ : TrackedBestChoice).stepPos → ∀ h : i < em.stepChoices.length,
      ∀ c ∈ List.range' (first + 1) n, em.stepChoices[i] < c :=
    fun i hi h c hc => lt_trans (hbelow i hi h) (by have := (hmemRange c).mp hc; omega)
  obtain ⟨_, _, hopt, hstart⟩ := not_improves_of_fold dir em hs (List.range' (first + 1) n)
    ⟨advanceStepIt em.stepChoices first pos, choiceValue em first, false, first⟩ rfl
    hsortedRange hinv1
  have hsel := selected_of_fold dir em hs (List.range' (first + 1) n)
    ⟨advanceStepIt em.stepChoices first pos, choiceValue em first, false, first⟩ rfl
    hsortedRange hinv1
  rw [hunf]
  generalize List.foldl (bestChoiceStepTracked dir em)
    (⟨advanceStepIt em.stepChoices first pos, choiceValue em first, false, first⟩ :
      TrackedBestChoice) (List.range' (first + 1) n) = fin at hopt hstart hsel ⊢
  simp only at hsel hstart
  have hoptAll : ∀ c, first ≤ c → c < last →
      improves dir (choiceValue em c) fin.bestValue = false := by
    intro c hc1 hc2
    rcases Nat.eq_or_lt_of_le hc1 with h | h
    · rw [← h]; exact hstart
    · exact hopt c ((hmemRange c).mpr ⟨h, hc2⟩)
  rcases hsel with ⟨h1, h2⟩ | ⟨h1, h2, h3, h4⟩
  · refine ⟨by omega, by omega, by rw [h1, h2], hoptAll, ?_⟩
    intro c hc1 hc2
    omega
  · have hw := (hmemRange _).mp h1
    refine ⟨by omega, hw.2, h2, hoptAll, ?_⟩
    intro c hc1 hc2
    rcases Nat.eq_or_lt_of_le hc1 with h | h
    · rw [← h]; exact h3
    · exact h4 c ((hmemRange c).mpr ⟨h, by omega⟩) hc2

theorem analyzeTrivialMdpLoopTracked_entry (dir : OptimizationDirection) (em : EpochModel)
    (hs : em.stepChoices.Sorted (· < ·))
    (hrg : em.epochMatrix.getRowGroupIndices.Sorted (· ≤ ·)) :
    ∀ (states : List Nat) (pos : Nat), states.Sorted (· < ·) →
      (∀ s ∈ states, em.epochMatrix.getRowGroupIndices.getD s 0
          < em.epochMatrix.getRowGroupIndices.getD (s + 1) 0 →
        ∀ i, i < pos → ∀ h : i < em.stepChoices.length,
          em.stepChoices[i] < em.epochMatrix.getRowGroupIndices.getD s 0) →
      ∀ (k s : Nat), states[k]? = some s →
        em.epochMatrix.getRowGroupIndices.getD s 0
          < em.epochMatrix.getRowGroupIndices.getD (s + 1) 0 →
        ∃ (w : Nat) (v : ValueType),
          (analyzeTrivialMdpLoopTracked dir em states pos)[k]? = some (w, v) ∧
          em.epochMatrix.getRowGroupIndices.getD s 0 ≤ w ∧
          w < em.epochMatrix.getRowGroupIndices.getD (s + 1) 0 ∧
          v = choiceValue em w ∧
          (∀ c, em.epochMatrix.getRowGroupIndices.getD s 0 ≤ c →
            c < em.epochMatrix.getRowGroupIndices.getD (s + 1) 0 →
            improves dir (choiceValue em c) v = false) ∧
          (∀ c, em.epochMatrix.getRowGroupIndices.getD s 0 ≤ c → c < w →
            improves dir v (choiceValue em c) = true) := by
  intro states
  induction states with
  | nil => intro pos _ _ k s hk; simp at hk
  | cons state rest ih =>
    intro pos hsorted hinv k s hk hne
    have hrest := List.sorted_cons.mp hsorted
    cases k with
    | zero =>
      simp only [List.getElem?_cons_zero, Option.some.injEq] at hk
      subst hk
      obtain ⟨h1, h2, h3, h4, h5⟩ := trackedBestChoiceOfState_spec dir em hs state pos hne
        (hinv state (List.mem_cons_self _ _) hne)
      exact ⟨_, _, by simp [analyzeTrivialMdpLoopTracked], h1, h2, h3, h4, h5⟩
    | succ k =>
      simp only [List.getElem?_cons_succ] at hk
      have hp : (trackedBestChoiceOfState dir em state pos).stepPos =
          (bestChoiceOfState dir em state pos).stepPos := by
        rw [← trackedBestChoiceOfState_toBestChoice]; rfl
      have hinv2 : ∀ s2 ∈ rest, em.epochMatrix.getRowGroupIndices.getD s2 0
          < em.epochMatrix.getRowGroupIndices.getD (s2 + 1) 0 →
          ∀ i, i < (trackedBestChoiceOfState dir em state pos).stepPos →
            ∀ h : i < em.stepChoices.length,
              em.stepChoices[i] < em.epochMatrix.getRowGroupIndices.getD s2 0 := by
        intro s2 hs2 hne2 i hi h
        rw [hp] at hi
        by_cases hhead : em.epochMatrix.getRowGroupIndices.getD state 0
            < em.epochMatrix.getRowGroupIndices.getD (state + 1) 0
        · obtain ⟨h1, _, _⟩ := bestChoiceOfState_spec dir em hs state pos hhead
            (hinv state (List.mem_cons_self _ _) hhead)
          have hlt : state < s2 := hrest.1 s2 hs2
          have hin : s2 < em.epochMatrix.getRowGroupIndices.length := by
            by_contra hcon
            rw [List.getD_eq_default _ _ (by omega), List.getD_eq_default _ _ (by omega)] at hne2
            exact absurd hne2 (lt_irrefl _)
          exact lt_of_lt_of_le (h1 i hi h) (getD_le_getD_of_sorted hrg hlt hin)
        · rw [bestChoiceOfState_of_empty dir em state pos hhead] at hi
          exact hinv s2 (List.mem_cons_of_mem _ hs2) hne2 i hi h
      obtain ⟨w, v, hv, hrestv⟩ := ih (trackedBestChoiceOfState dir em state pos).stepPos
        hrest.2 hinv2 k s hk hne
      exact ⟨w, v, by simpa [analyzeTrivialMdpLoopTracked] using hv, hrestv⟩

/-- C13: in the trivial non-deterministic analyzer, for a state with a non-empty choice
range and either direction, the choice whose value ends up in `bestValue` (the ghost
variable `selected`) lies in the range, its value is the entry of the result, no choice of
the range improves on it, and it improves strictly on every choice of the range with a
lower index: it is the lowest-indexed choice attaining the optimum. A later choice
replaces `bestValue` only when it is a strict improvement; otherwise value and selected
choice stay. In scenario B choice 1 is selected with value 2; of the choices 0, 1, 2 with
the values 2, 1, 1 the minimizing analyzer selects choice 1. -/
theorem analyzeTrivialMdpEpochModel_tie_break (dir : OptimizationDirection) (em : EpochModel)
    (hzero : em.epochMatrix.getEntryCount = 0)
    (hsorted : em.stepChoices.Sorted (· < ·))
    (_hlen : em.stepSolutions.length = em.stepChoices.length)
    (hrg : em.epochMatrix.getRowGroupIndices.Sorted (· ≤ ·))
    (k s : Nat) (hk : em.epochInStates.setIndices[k]? = some s)
    (hne : em.epochMatrix.getRowGroupIndices.getD s 0
      < em.epochMatrix.getRowGroupIndices.getD (s + 1) 0) :
    (∃ (result : List ValueType) (w : Nat) (v : ValueType),
      analyzeTrivialMdpEpochModel dir em = .ok result ∧
      result = (analyzeTrivialMdpLoopTracked dir em em.epochInStates.setIndices 0).map
        Prod.snd ∧
      (analyzeTrivialMdpLoopTracked dir em em.epochInStates.setIndices 0)[k]? = some (w, v) ∧
      result[k]? = some v ∧
      em.epochMatrix.getRowGroupIndices.getD s 0 ≤ w ∧
      w < em.epochMatrix.getRowGroupIndices.getD (s + 1) 0 ∧
      v = choiceValue em w ∧
      (∀ c, em.epochMatrix.getRowGroupIndices.getD s 0 ≤ c →
        c < em.epochMatrix.getRowGroupIndices.getD (s + 1) 0 →
        improves dir (choiceValue em c) v = false) ∧
      (∀ c, em.epochMatrix.getRowGroupIndices.getD s 0 ≤ c → c < w →
        improves dir v (choiceValue em c) = true)) ∧
    (∀ (st : TrackedBestChoice) (c : Nat), st.isFirstChoice = false →
      ((bestChoiceStepTracked dir em st c).bestValue ≠ st.bestValue ∨
          (bestChoiceStepTracked dir em st c).selected ≠ st.selected →
        improves dir (bestChoiceStepTracked dir em st c).bestValue st.bestValue = true ∧
        (bestChoiceStepTracked dir em st c).selected = c)) ∧
    analyzeTrivialMdpLoopTracked .Minimize scenarioB scenarioB.epochInStates.setIndices 0
      = [(1, 2)] ∧
    analyzeTrivialMdpLoopTracked .Minimize tieExample tieExample.epochInStates.setIndices 0
      = [(1, 1), (3, 0)] := by
  refine ⟨?_, ?_, ?_, ?_⟩
  · obtain ⟨w, v, hv, h1, h2, h3, h4, h5⟩ := analyzeTrivialMdpLoopTracked_entry dir em hsorted
      hrg em.epochInStates.setIndices 0 (setIndices_sorted _)
      (fun _ _ _ i hi => absurd hi (Nat.not_lt_zero _)) k s hk hne
    refine ⟨_, w, v, ?_, (analyzeTrivialMdpLoopTracked_values dir em _ 0).symm, hv, ?_,
      h1, h2, h3, h4, h5⟩
    · simp [analyzeTrivialMdpEpochModel, hzero]
    · rw [← analyzeTrivialMdpLoopTracked_values, List.getElem?_map, hv]
      rfl
  · intro st c hfirst hchange
    rw [bestChoiceStepTracked_of_not_first dir em st c hfirst] at hchange ⊢
    cases himp : improves dir
        (choiceValueAt em (advanceStepIt em.stepChoices c st.stepPos) c) st.bestValue with
    | true => simp [himp]
    | false => simp [himp] at hchange
  · simp [analyzeTrivialMdpLoopTracked, trackedBestChoiceOfState, scenarioB,
      SparseMatrix.getRowGroupIndices, BitVector.setIndices,
      List.range, List.range.loop, List.range', bestChoiceStepTracked, advanceStepIt_nil,
      choiceValueAt, EpochModel.rewardFilter, BitVector.get, stepChoiceIs, stepChoiceAt,
      EpochModel.objectiveValues, minimize]
    norm_num
  · simp [analyzeTrivialMdpLoopTracked, trackedBestChoiceOfState, tieExample,
      SparseMatrix.getRowGroupIndices, BitVector.setIndices,
      List.range, List.range.loop, List.range', bestChoiceStepTracked, advanceStepIt_nil,
      choiceValueAt, EpochModel.rewardFilter, BitVector.get, stepChoiceIs, stepChoiceAt,
      EpochModel.objectiveValues, minimize]

/-- C13 at `tieExample`, minimizing: the choices 1 and 2 of state 0 tie at the value 1. -/
theorem analyzeTrivialMdpEpochModel_tie_break_witness :
    tieExample.epochMatrix.getEntryCount = 0 ∧
    tieExample.stepChoices.Sorted (· < ·) ∧
    tieExample.stepSolutions.length = tieExample.stepChoices.length ∧
    tieExample.epochMatrix.getRowGroupIndices.Sorted (· ≤ ·) ∧
    tieExample.epochInStates.setIndices[0]? = some 0 ∧
    tieExample.epochMatrix.getRowGroupIndices.getD 0 0
      < tieExample.epochMatrix.getRowGroupIndices.getD (0 + 1) 0 ∧
    analyzeTrivialMdpLoopTracked .Minimize tieExample tieExample.epochInStates.setIndices 0
      = [(1, 1), (3, 0)] :=
  ⟨by decide, by decide, by decide, by decide, by decide, by decide,
    (analyzeTrivialMdpEpochModel_tie_break .Minimize tieExample (by decide) (by decide)
      (by decide) (by decide) 0 0 (by decide) (by decide)).2.2.2⟩

/-! ## One entry per in-state -/

theorem analyzeTrivialDtmcLoop_length (em : EpochModel) :
    ∀ (states : List Nat) (pos : Nat),
      (analyzeTrivialDtmcLoop em states pos).length = states.length := by
  intro states
  induction states with
  | nil => intro pos; rfl
  | cons state rest ih => intro pos; simp [analyzeTrivialDtmcLoop, ih]

theorem analyzeTrivialMdpLoop_length (dir : OptimizationDirection) (em : EpochModel) :
    ∀ (states : List Nat) (pos : Nat),
      (analyzeTrivialMdpLoop dir em states pos).length = states.length := by
  intro states
  induction states with
  | nil => intro pos; rfl
  | cons state rest ih => intro pos; simp [analyzeTrivialMdpLoop, ih]

theorem analyzeTrivialMdpEpochModel_ok (dir : OptimizationDirection) (em : EpochModel)
    (r : List ValueType) (hok : analyzeTrivialMdpEpochModel dir em = .ok r) :
    em.epochMatrix.getEntryCount = 0 ∧
      r = analyzeTrivialMdpLoop dir em em.epochInStates.setIndices 0 := by
  unfold analyzeTrivialMdpEpochModel at hok
  by_cases hzero : em.epochMatrix.getEntryCount = 0
  · simp [hzero] at hok
    exact ⟨hzero, hok.symm⟩
  · simp [hzero] at hok

/-- C14: every one of the four analyzers, when it returns a vector, returns one entry per
in-state: the length of the vector is the number of set bits of `epochInStates`, and the
entries follow the in-states in ascending order: entry k belongs to the k-th smallest
in-state (for the non-trivial analyzers it is `x` at that state; for the trivial
deterministic analyzer, with ascending step choices, it is the value of that state; for
the trivial non-deterministic analyzer, with ascending step choices and nondecreasing
row-group boundaries, it is the value of a choice of that state). The trivial
deterministic analyzer always returns, the trivial non-deterministic one when the matrix
has no entries. -/
theorem analyzer_result_length {S R S2 R2 : Type}
    (api : LinearEquationSolver S R) (apiM : MinMaxLinearEquationSolver S2 R2)
    (dir : OptimizationDirection) (em : EpochModel) (ctx : Context S) (ctxM : Context S2)
    (lowerBound upperBound : Option ValueType) :
    em.epochInStates.setIndices.Sorted (· < ·) ∧
    em.epochInStates.getNumberOfSetBits = em.epochInStates.setIndices.length ∧
    (analyzeTrivialDtmcEpochModel em).length = em.epochInStates.getNumberOfSetBits ∧
    (em.stepChoices.Sorted (· < ·) →
      ∀ k s : Nat, em.epochInStates.setIndices[k]? = some s →
        (analyzeTrivialDtmcEpochModel em)[k]? = some (choiceValue em s)) ∧
    (em.epochMatrix.getEntryCount = 0 →
      ∃ r, analyzeTrivialMdpEpochModel dir em = .ok r) ∧
    (∀ r, analyzeTrivialMdpEpochModel dir em = .ok r →
      r.length = em.epochInStates.getNumberOfSetBits ∧
      (em.stepChoices.Sorted (· < ·) →
        em.epochMatrix.getRowGroupIndices.Sorted (· ≤ ·) →
        ∀ k s : Nat, em.epochInStates.setIndices[k]? = some s →
          em.epochMatrix.getRowGroupIndices.getD s 0
            < em.epochMatrix.getRowGroupIndices.getD (s + 1) 0 →
          ∃ v : ValueType, r[k]? = some v ∧
            ∃ c, em.epochMatrix.getRowGroupIndices.getD s 0 ≤ c ∧
              c < em.epochMatrix.getRowGroupIndices.getD (s + 1) 0 ∧
              v = choiceValue em c)) ∧
    (∀ r, (analyzeNonTrivialDtmcEpochModel api em ctx lowerBound upperBound).result = .ok r →
      r.length = em.epochInStates.getNumberOfSetBits ∧
      ∀ k s : Nat, em.epochInStates.setIndices[k]? = some s →
        r[k]? = some ((analyzeNonTrivialDtmcEpochModel api em ctx lowerBound
          upperBound).context.x.getD s 0)) ∧
    (∀ r, (analyzeNonTrivialMdpEpochModel apiM dir em ctxM lowerBound upperBound).result
        = .ok r →
      r.length = em.epochInStates.getNumberOfSetBits ∧
      ∀ k s : Nat, em.epochInStates.setIndices[k]? = some s →
        r[k]? = some ((analyzeNonTrivialMdpEpochModel apiM dir em ctxM lowerBound
          upperBound).context.x.getD s 0)) := by
  refine ⟨setIndices_sorted _, rfl, ?_, ?_, ?_, ?_, ?_, ?_⟩
  · exact analyzeTrivialDtmcLoop_length em _ 0
  · intro hsorted k s hk
    rw [analyzeTrivialDtmcEpochModel_eq em hsorted, List.getElem?_map, hk]
    rfl
  · intro hzero
    exact ⟨analyzeTrivialMdpLoop dir em em.epochInStates.setIndices 0,
      by simp [analyzeTrivialMdpEpochModel, hzero]⟩
  · intro r hok
    rw [(analyzeTrivialMdpEpochModel_ok dir em r hok).2]
    refine ⟨analyzeTrivialMdpLoop_length dir em _ 0, ?_⟩
    intro hsorted hrg k s hk hne
    obtain ⟨v, hv, hc, _⟩ := analyzeTrivialMdpLoop_entry dir em hsorted hrg
      em.epochInStates.setIndices 0 (setIndices_sorted _)
      (fun _ _ _ i hi => absurd hi (Nat.not_lt_zero _)) k s hk hne
    exact ⟨v, hv, hc⟩
  · intro r hok
    obtain ⟨solver, x, _, hx, _, _, hr⟩ :=
      analyzeNonTrivialDtmcEpochModel_result_ok _ _ _ _ _ _ hok
    rw [hr, hx]
    exact filterVector_spec _ _
  · intro r hok
    obtain ⟨solver, x, _, hx, _, _, hr⟩ :=
      analyzeNonTrivialMdpEpochModel_result_ok _ _ _ _ _ _ _ hok
    rw [hr, hx]
    exact filterVector_spec _ _

/-- C14 at `mdpExample`, which has two in-states: the trivial non-deterministic analyzer
returns a vector of length 2. -/
theorem analyzer_result_length_witness :
    mdpExample.epochMatrix.getEntryCount = 0 ∧
    ∃ r, analyzeTrivialMdpEpochModel .Maximize mdpExample = .ok r ∧
      r.length = mdpExample.epochInStates.getNumberOfSetBits ∧
      mdpExample.epochInStates.getNumberOfSetBits = 2 :=
  have h := analyzer_result_length (sweepSolverApi 1 noRequirements)
    (valueIterationApi 1 noRequirements) .Maximize mdpExample (staleContext SweepSolver)
    (staleContext ValueIterationSolver) none none
  ⟨by decide, (h.2.2.2.2.1 (by decide)).elim
    (fun r hr => ⟨r, hr, (h.2.2.2.2.2.1 r hr).1, by decide⟩)⟩

/-! ## Violated preconditions -/

theorem hasTrivialRowGrouping_choices (m : SparseMatrix)
    (hgroup : m.hasTrivialRowGrouping = true) (state : Nat)
    (hstate : state < m.getRowGroupCount) :
    m.getRowGroupIndices.getD (state + 1) 0 - m.getRowGroupIndices.getD state 0 = 1 := by
  unfold SparseMatrix.hasTrivialRowGrouping at hgroup
  have hrg : m.rowGroupIndices = List.range (m.getRowCount + 1) := by simpa using hgroup
  unfold SparseMatrix.getRowGroupCount at hstate
  unfold SparseMatrix.getRowGroupIndices
  rw [hrg] at hstate ⊢
  rw [List.length_range] at hstate
  rw [List.getD_eq_getElem _ _ (by rw [List.length_range]; omega),
    List.getD_eq_getElem _ _ (by rw [List.length_range]; omega)]
  simp

/-- C15: when the row grouping of the epoch matrix is not trivial, which is the case as
soon as some state has other than exactly one choice, the deterministic dispatcher ends
with the failure of its first assertion: it returns no result, runs neither analyzer and
leaves the context as it is. -/
theorem analyzeSingleObjective_grouping_assertion {S R : Type}
    (api : LinearEquationSolver S R) (em : EpochModel) (ctx : Context S)
    (lowerBound upperBound : Option ValueType)
    (hgroup : em.epochMatrix.hasTrivialRowGrouping = false) :
    (em.analyzeSingleObjective api ctx lowerBound upperBound).result =
      .error (.AssertionFailure
        "This operation is only allowed if no nondeterminism is present.") ∧
    (∀ r, (em.analyzeSingleObjective api ctx lowerBound upperBound).result ≠ .ok r) ∧
    (em.analyzeSingleObjective api ctx lowerBound upperBound).calls = [] ∧
    (∀ a, SolverCall.analyzer a ∉
      (em.analyzeSingleObjective api ctx lowerBound upperBound).calls) ∧
    (em.analyzeSingleObjective api ctx lowerBound upperBound).context = ctx ∧
    (∀ (m : SparseMatrix) (state : Nat), state < m.getRowGroupCount →
      m.getRowGroupIndices.getD (state + 1) 0 - m.getRowGroupIndices.getD state 0 ≠ 1 →
      m.hasTrivialRowGrouping = false) := by
  rw [analyzeSingleObjective_of_grouping api em ctx _ _ hgroup]
  refine ⟨rfl, fun r h => (by cases h), rfl, (by simp), rfl, ?_⟩
  intro m state hstate hne
  cases h : m.hasTrivialRowGrouping with
  | false => rfl
  | true => exact absurd (hasTrivialRowGrouping_choices m h state hstate) hne

/-- C15 at `groupedFixedPoint`, whose state 0 has two choices. -/
theorem analyzeSingleObjective_grouping_assertion_witness :
    groupedFixedPoint.epochMatrix.hasTrivialRowGrouping = false ∧
    (groupedFixedPoint.analyzeSingleObjective (sweepSolverApi 1 noRequirements)
      (staleContext SweepSolver) none none).result =
      .error (.AssertionFailure
        "This operation is only allowed if no nondeterminism is present.") :=
  ⟨by decide,
    (analyzeSingleObjective_grouping_assertion (sweepSolverApi 1 noRequirements)
      groupedFixedPoint (staleContext SweepSolver) none none (by decide)).1⟩

/-- C16: called on an epoch matrix with at least one entry, the trivial non-deterministic
analyzer ends with the failure of its assertion that the matrix has no entries, and
returns no result. -/
theorem analyzeTrivialMdpEpochModel_entries_assertion (dir : OptimizationDirection)
    (em : EpochModel) (hentries : 1 ≤ em.epochMatrix.getEntryCount) :
    analyzeTrivialMdpEpochModel dir em =
      .error (.AssertionFailure "epochModel.epochMatrix.getEntryCount() == 0") ∧
    ∀ r, analyzeTrivialMdpEpochModel dir em ≠ .ok r := by
  have h : analyzeTrivialMdpEpochModel dir em =
      .error (.AssertionFailure "epochModel.epochMatrix.getEntryCount() == 0") := by
    unfold analyzeTrivialMdpEpochModel
    have hne : em.epochMatrix.getEntryCount ≠ 0 := by omega
    simp [hne]
  exact ⟨h, fun r hr => by rw [h] at hr; cases hr⟩

/-- C16 at `identityMdp`, whose matrix has one entry. -/
theorem analyzeTrivialMdpEpochModel_entries_assertion_witness :
    1 ≤ identityMdp.epochMatrix.getEntryCount ∧
    analyzeTrivialMdpEpochModel .Minimize identityMdp =
      .error (.AssertionFailure "epochModel.epochMatrix.getEntryCount() == 0") :=
  ⟨by decide, (analyzeTrivialMdpEpochModel_entries_assertion .Minimize identityMdp
    (by decide)).1⟩

/-! ## The warm start of the min/max solver -/

theorem analyzeNonTrivialMdpEpochModel_of_unchanged_solved {S R : Type}
    (api : MinMaxLinearEquationSolver S R) (dir : OptimizationDirection) (em : EpochModel)
    (ctx : Context S) (lowerBound upperBound : Option ValueType) (solver : S)
    (hchanged : em.epochMatrixChanged = false) (hsolver : ctx.solver = some solver)
    (hlen : em.stepSolutions.length = em.stepChoices.length) :
    analyzeNonTrivialMdpEpochModel api dir em ctx lowerBound upperBound =
      ⟨{ x := (api.solveEquations (api.setInitialScheduler solver
            (api.getSchedulerChoices solver)) ctx.x (prepareRhsMdp em).1).2,
         b := (prepareRhsMdp em).1,
         solver := some (api.solveEquations (api.setInitialScheduler solver
            (api.getSchedulerChoices solver)) ctx.x (prepareRhsMdp em).1).1 },
       [.getSchedulerChoices, .setInitialScheduler (api.getSchedulerChoices solver),
         .solveEquations ctx.x (prepareRhsMdp em).1],
       .ok (filterVector (api.solveEquations (api.setInitialScheduler solver
            (api.getSchedulerChoices solver)) ctx.x (prepareRhsMdp em).1).2
         em.epochInStates)⟩ := by
  rw [analyzeNonTrivialMdpEpochModel_of_unchanged api dir em ctx _ _ solver hchanged hsolver,
    solveMdp_of_solver api em _ _ _ (by rw [prepareRhsMdp_eq, prepareRhsDtmc_pos, hlen]) rfl]
  rfl

/-- C17: a call of the non-trivial non-deterministic analyzer on an unchanged matrix
creates no solver and starts the solve from the `x` of the caller; it reads the scheduler
choices of the solver in the handle and sets them as the initial scheduler of that same
solver, which then performs the solve. After a call that returned a result, these are
the scheduler choices of the solver as its solve of that call left it. -/
theorem analyzeNonTrivialMdpEpochModel_unchanged_warm_start {S R : Type}
    (api : MinMaxLinearEquationSolver S R) (dir : OptimizationDirection) (em : EpochModel)
    (ctx : Context S) (lowerBound upperBound : Option ValueType)
    (hchanged : em.epochMatrixChanged = false) :
    (∀ m, SolverCall.create m ∉
      (analyzeNonTrivialMdpEpochModel api dir em ctx lowerBound upperBound).calls) ∧
    (∀ x b, SolverCall.solveEquations x b ∈
        (analyzeNonTrivialMdpEpochModel api dir em ctx lowerBound upperBound).calls →
      x = ctx.x) ∧
    (∀ choices, SolverCall.setInitialScheduler choices ∈
        (analyzeNonTrivialMdpEpochModel api dir em ctx lowerBound upperBound).calls →
      ∃ solver, ctx.solver = some solver ∧ choices = api.getSchedulerChoices solver) ∧
    (∀ solver, ctx.solver = some solver →
      em.stepSolutions.length = em.stepChoices.length →
      (analyzeNonTrivialMdpEpochModel api dir em ctx lowerBound upperBound).calls =
        [.getSchedulerChoices, .setInitialScheduler (api.getSchedulerChoices solver),
          .solveEquations ctx.x (prepareRhsMdp em).1] ∧
      (analyzeNonTrivialMdpEpochModel api dir em ctx lowerBound upperBound).context.solver =
        some (api.solveEquations (api.setInitialScheduler solver
          (api.getSchedulerChoices solver)) ctx.x (prepareRhsMdp em).1).1 ∧
      (analyzeNonTrivialMdpEpochModel api dir em ctx lowerBound upperBound).context.x =
        (api.solveEquations (api.setInitialScheduler solver
          (api.getSchedulerChoices solver)) ctx.x (prepareRhsMdp em).1).2) ∧
    (∀ (previous : EpochModel) (previousDir : OptimizationDirection) (ctx0 : Context S)
      (lowerBound0 upperBound0 : Option ValueType) (r0 : List ValueType),
      (analyzeNonTrivialMdpEpochModel api previousDir previous ctx0 lowerBound0
        upperBound0).result = .ok r0 →
      em.stepSolutions.length = em.stepChoices.length →
      ∃ (solver : S) (x0 b0 : List ValueType),
        (analyzeNonTrivialMdpEpochModel api previousDir previous ctx0 lowerBound0
          upperBound0).calls.getLast? = some (.solveEquations x0 b0) ∧
        (analyzeNonTrivialMdpEpochModel api dir em
          (analyzeNonTrivialMdpEpochModel api previousDir previous ctx0 lowerBound0
            upperBound0).context lowerBound upperBound).calls =
          [.getSchedulerChoices,
            .setInitialScheduler
              (api.getSchedulerChoices (api.solveEquations solver x0 b0).1),
            .solveEquations (api.solveEquations solver x0 b0).2 (prepareRhsMdp em).1]) := by
  have hmem : ∀ call ∈
      (analyzeNonTrivialMdpEpochModel api dir em ctx lowerBound upperBound).calls,
      (call = .getSchedulerChoices ∨
        ∃ solver, ctx.solver = some solver ∧
          call = .setInitialScheduler (api.getSchedulerChoices solver)) ∨
      call = .solveEquations ctx.x (prepareRhsMdp em).1 := by
    intro call hcall
    cases hctx : ctx.solver with
    | none =>
      rw [analyzeNonTrivialMdpEpochModel_of_unchanged_null api dir em ctx _ _ hchanged hctx]
        at hcall
      simp at hcall
    | some old =>
      rw [analyzeNonTrivialMdpEpochModel_of_unchanged api dir em ctx _ _ old hchanged hctx]
        at hcall
      rcases solveMdp_calls_mem _ _ _ _ _ hcall with h | h
      · simp only [List.mem_cons, List.mem_singleton, List.not_mem_nil, or_false] at h
        rcases h with h | h
        · exact Or.inl (Or.inl h)
        · exact Or.inl (Or.inr ⟨old, rfl, h⟩)
      · exact Or.inr h
  refine ⟨?_, ?_, ?_, ?_, ?_⟩
  · intro m h
    rcases hmem _ h with (h | ⟨_, _, h⟩) | h <;> cases h
  · intro x b h
    rcases hmem _ h with (h | ⟨_, _, h⟩) | h
    · cases h
    · cases h
    · simp only [SolverCall.solveEquations.injEq] at h
      exact h.1
  · intro choices h
    rcases hmem _ h with (h | ⟨solver, hs, h⟩) | h
    · cases h
    · simp only [SolverCall.setInitialScheduler.injEq] at h
      exact ⟨solver, hs, h⟩
    · cases h
  · intro solver hsolver hlen
    rw [analyzeNonTrivialMdpEpochModel_of_unchanged_solved api dir em ctx _ _ solver hchanged
      hsolver hlen]
    exact ⟨rfl, rfl, rfl⟩
  · intro previous previousDir ctx0 lowerBound0 upperBound0 r0 hok hlen
    obtain ⟨solver, x0, hlast, hx, _, hsolver, _⟩ :=
      analyzeNonTrivialMdpEpochModel_result_ok _ _ _ _ _ _ _ hok
    refine ⟨solver, x0, _, hlast, ?_⟩
    rw [analyzeNonTrivialMdpEpochModel_of_unchanged_solved api dir em _ _ _ _ hchanged
      hsolver hlen, hx]

/-- C17 at scenario C: epoch 0, unchanged, analyzed on the context that epoch 1 left. -/
theorem analyzeNonTrivialMdpEpochModel_unchanged_warm_start_witness :
    scenarioC0.epochMatrixChanged = false ∧
    ∃ (solver : ValueIterationSolver) (x0 b0 : List ValueType),
      (analyzeNonTrivialMdpEpochModel (valueIterationApi 1 noRequirements) .Maximize
        scenarioC1 (staleContext ValueIterationSolver) none none).calls.getLast?
        = some (.solveEquations x0 b0) ∧
      (analyzeNonTrivialMdpEpochModel (valueIterationApi 1 noRequirements) .Maximize
        scenarioC0
        (analyzeNonTrivialMdpEpochModel (valueIterationApi 1 noRequirements) .Maximize
          scenarioC1 (staleContext ValueIterationSolver) none none).context
        none none).calls =
        [.getSchedulerChoices,
          .setInitialScheduler
            ((valueIterationApi 1 noRequirements).getSchedulerChoices
              ((valueIterationApi 1 noRequirements).solveEquations solver x0 b0).1),
          .solveEquations ((valueIterationApi 1 noRequirements).solveEquations solver x0 b0).2
            (prepareRhsMdp scenarioC0).1] :=
  ⟨rfl,
    (analyzeNonTrivialMdpEpochModel_succeeds (valueIterationApi 1 noRequirements) .Maximize
      scenarioC1 (staleContext ValueIterationSolver) none none (by decide) (by decide)).elim
      (fun r0 hr0 =>
        (analyzeNonTrivialMdpEpochModel_unchanged_warm_start
          (valueIterationApi 1 noRequirements) .Maximize scenarioC0
          (staleContext ValueIterationSolver) none none rfl).2.2.2.2
          scenarioC1 .Maximize (staleContext ValueIterationSolver) none none r0 hr0
          (by decide))⟩

/-! ## The right-hand side of the non-deterministic analyzer -/

theorem analyzeNonTrivialMdpEpochModel_solve_mem {S R : Type}
    (api : MinMaxLinearEquationSolver S R) (dir : OptimizationDirection) (em : EpochModel)
    (ctx : Context S) (lowerBound upperBound : Option ValueType) (x b : List ValueType)
    (hmem : SolverCall.solveEquations x b ∈
      (analyzeNonTrivialMdpEpochModel api dir em ctx lowerBound upperBound).calls) :
    b = (prepareRhsMdp em).1 ∧
      x = if em.epochMatrixChanged then List.replicate em.epochMatrix.getRowGroupCount 0
        else ctx.x := by
  cases hchanged : em.epochMatrixChanged with
  | true =>
    cases hcrit : api.hasEnabledCriticalRequirement
        (remainingRequirementsMdp api dir em lowerBound upperBound) with
    | true =>
      rw [analyzeNonTrivialMdpEpochModel_of_critical api dir em ctx _ _ hchanged hcrit] at hmem
      exact absurd hmem (setUpCallsMdp_no_solve _ _ _ _ _ _)
    | false =>
      rw [analyzeNonTrivialMdpEpochModel_of_changed api dir em ctx _ _ hchanged hcrit] at hmem
      rcases solveMdp_calls_mem _ _ _ _ _ hmem with h | h
      · rcases List.mem_append.mp h with h | h
        · exact absurd h (setUpCallsMdp_no_solve _ _ _ _ _ _)
        · simp at h
      · simp only [SolverCall.solveEquations.injEq] at h
        exact ⟨h.2, by simp [h.1]⟩
  | false =>
    cases hctx : ctx.solver with
    | none =>
      rw [analyzeNonTrivialMdpEpochModel_of_unchanged_null api dir em ctx _ _ hchanged hctx]
        at hmem
      simp at hmem
    | some old =>
      rw [analyzeNonTrivialMdpEpochModel_of_unchanged api dir em ctx _ _ old hchanged hctx]
        at hmem
      rcases solveMdp_calls_mem _ _ _ _ _ hmem with h | h
      · simp at h
      · simp only [SolverCall.solveEquations.injEq] at h
        exact ⟨h.2, by simp [h.1]⟩

theorem prepareRhsMdp_congr (em1 em2 : EpochModel)
    (hrewards : em2.objectiveRewards = em1.objectiveRewards)
    (hfilter : em2.objectiveRewardFilter = em1.objectiveRewardFilter)
    (hchoices : em2.stepChoices = em1.stepChoices)
    (hsolutions : em2.stepSolutions = em1.stepSolutions)
    (hrows : em2.epochMatrix.getRowCount = em1.epochMatrix.getRowCount) :
    prepareRhsMdp em2 = prepareRhsDtmc em1 := by
  unfold prepareRhsMdp prepareRhsDtmc addStepSolutionsMdp addStepSolutionsDtmc
    assignObjectiveRewards EpochModel.rewardFilter EpochModel.objectiveValues
  rw [hrewards, hfilter, hchoices, hsolutions, hrows]

/-- C18: for epoch models with the same objective rewards, reward filter, step choices,
step solutions and row count, whatever the buffers held before, every right-hand side that
the non-trivial non-deterministic analyzer hands to its solver is the one that the
non-trivial deterministic analyzer hands to its solver: the same length and the same
entries; and when both calls return a result, they leave the same vector in `b`. -/
theorem analyzeNonTrivialMdpEpochModel_rhs_eq_dtmc {S R S2 R2 : Type}
    (api : LinearEquationSolver S R) (apiM : MinMaxLinearEquationSolver S2 R2)
    (dir : OptimizationDirection) (em emM : EpochModel) (ctx : Context S)
    (ctxM : Context S2) (lowerBound upperBound lowerBoundM upperBoundM : Option ValueType)
    (hrewards : emM.objectiveRewards = em.objectiveRewards)
    (hfilter : emM.objectiveRewardFilter = em.objectiveRewardFilter)
    (hchoices : emM.stepChoices = em.stepChoices)
    (hsolutions : emM.stepSolutions = em.stepSolutions)
    (hrows : emM.epochMatrix.getRowCount = em.epochMatrix.getRowCount) :
    (∀ x b xM bM,
      SolverCall.solveEquations x b ∈
        (analyzeNonTrivialDtmcEpochModel api em ctx lowerBound upperBound).calls →
      SolverCall.solveEquations xM bM ∈
        (analyzeNonTrivialMdpEpochModel apiM dir emM ctxM lowerBoundM upperBoundM).calls →
      bM = b ∧ bM.length = b.length ∧ ∀ c : Nat, bM[c]? = b[c]?) ∧
    (∀ r rM,
      (analyzeNonTrivialDtmcEpochModel api em ctx lowerBound upperBound).result = .ok r →
      (analyzeNonTrivialMdpEpochModel apiM dir emM ctxM lowerBoundM upperBoundM).result
        = .ok rM →
      (∃ x xM b,
        (analyzeNonTrivialDtmcEpochModel api em ctx lowerBound upperBound).calls.getLast?
          = some (.solveEquations x b) ∧
        (analyzeNonTrivialMdpEpochModel apiM dir emM ctxM lowerBoundM
          upperBoundM).calls.getLast? = some (.solveEquations xM b)) ∧
      (analyzeNonTrivialMdpEpochModel apiM dir emM ctxM lowerBoundM upperBoundM).context.b =
        (analyzeNonTrivialDtmcEpochModel api em ctx lowerBound upperBound).context.b) := by
  have heq := prepareRhsMdp_congr em emM hrewards hfilter hchoices hsolutions hrows
  constructor
  · intro x b xM bM hmem hmemM
    have h1 := (analyzeNonTrivialDtmcEpochModel_solve_mem _ _ _ _ _ _ _ hmem).1
    have h2 := (analyzeNonTrivialMdpEpochModel_solve_mem _ _ _ _ _ _ _ _ hmemM).1
    have hb : bM = b := by rw [h1, h2, heq]
    exact ⟨hb, by rw [hb], fun c => by rw [hb]⟩
  · intro r rM hok hokM
    obtain ⟨_, x, hlast, _, hb, _, _⟩ :=
      analyzeNonTrivialDtmcEpochModel_result_ok _ _ _ _ _ _ hok
    obtain ⟨_, xM, hlastM, _, hbM, _, _⟩ :=
      analyzeNonTrivialMdpEpochModel_result_ok _ _ _ _ _ _ _ hokM
    rw [heq] at hlastM hbM
    exact ⟨⟨x, xM, _, hlast, hlastM⟩, by rw [hb, hbM]⟩

/-- C18 at scenario C, epoch 0: the sweep solver and the value iteration solver are handed
the same right-hand side. -/
theorem analyzeNonTrivialMdpEpochModel_rhs_eq_dtmc_witness :
    ∃ (x xM b : List ValueType),
      (analyzeNonTrivialDtmcEpochModel (sweepSolverApi 1 noRequirements) scenarioC0
        coldContext none none).calls.getLast? = some (.solveEquations x b) ∧
      (analyzeNonTrivialMdpEpochModel (valueIterationApi 1 noRequirements) .Minimize
        scenarioC0Changed (staleContext ValueIterationSolver) none none).calls.getLast?
        = some (.solveEquations xM b) :=
  (analyzeNonTrivialDtmcEpochModel_succeeds (sweepSolverApi 1 noRequirements) scenarioC0
    coldContext none none (by decide) (by decide)).elim (fun r hr =>
    (analyzeNonTrivialMdpEpochModel_succeeds (valueIterationApi 1 noRequirements) .Minimize
      scenarioC0Changed (staleContext ValueIterationSolver) none none (by decide)
      (by decide)).elim (fun rM hrM =>
      ((analyzeNonTrivialMdpEpochModel_rhs_eq_dtmc (sweepSolverApi 1 noRequirements)
        (valueIterationApi 1 noRequirements) .Minimize scenarioC0 scenarioC0Changed
        coldContext (staleContext ValueIterationSolver) none none none none
        rfl rfl rfl rfl rfl).2 r rM hr hrM).1))

/-! ## The min/max solver built on a changed matrix -/

theorem setLowerBound_mem_setUpCallsMdp (dir : OptimizationDirection) (em : EpochModel)
    (lowerBound upperBound : Option ValueType) (v : ValueType) :
    SolverCall.setLowerBound v ∈ setUpCallsMdp dir em lowerBound upperBound ↔
      lowerBound = some v := by
  unfold setUpCallsMdp
  cases lowerBound <;> cases upperBound <;> simp [eq_comm]

theorem setUpperBound_mem_setUpCallsMdp (dir : OptimizationDirection) (em : EpochModel)
    (lowerBound upperBound : Option ValueType) (v : ValueType) :
    SolverCall.setUpperBound v ∈ setUpCallsMdp dir em lowerBound upperBound ↔
      upperBound = some v := by
  unfold setUpCallsMdp
  cases lowerBound <;> cases upperBound <;> simp [eq_comm]

theorem setRequirementsChecked_not_mem_setUpCallsMdp (dir : OptimizationDirection)
    (em : EpochModel) (lowerBound upperBound : Option ValueType) :
    SolverCall.setRequirementsChecked ∉ setUpCallsMdp dir em lowerBound upperBound := by
  intro h
  rcases setUpCallsMdp_mem _ _ _ _ _ h with
    h | h | h | h | h | h | ⟨_, _, h⟩ | ⟨_, _, h⟩ <;> cases h

theorem setUpMinMaxSolver_eq {S R : Type} (api : MinMaxLinearEquationSolver S R)
    (dir : OptimizationDirection) (em : EpochModel)
    (lowerBound upperBound : Option ValueType) :
    setUpMinMaxSolver api dir em lowerBound upperBound =
      (match upperBound with
        | some upper =>
          api.setUpperBound
            (match lowerBound with
              | some lower =>
                api.setLowerBound
                  (api.setTrackScheduler (api.setCachingEnabled (api.setOptimizationDirection
                    (api.setHasUniqueSolution (api.create em.epochMatrix)) dir) true) true)
                  lower
              | none =>
                api.setTrackScheduler (api.setCachingEnabled (api.setOptimizationDirection
                  (api.setHasUniqueSolution (api.create em.epochMatrix)) dir) true) true)
            upper
        | none =>
          (match lowerBound with
            | some lower =>
              api.setLowerBound
                (api.setTrackScheduler (api.setCachingEnabled (api.setOptimizationDirection
                  (api.setHasUniqueSolution (api.create em.epochMatrix)) dir) true) true)
                lower
            | none =>
              api.setTrackScheduler (api.setCachingEnabled (api.setOptimizationDirection
                (api.setHasUniqueSolution (api.create em.epochMatrix)) dir) true) true)) := by
  unfold setUpMinMaxSolver
  cases lowerBound <;> cases upperBound <;> rfl

/-- C20: on a changed matrix the non-trivial non-deterministic analyzer creates a solver
over the epoch matrix, marks it as having a unique solution, sets its direction to `dir`,
enables its caching and its scheduler tracking, queries its requirements and pushes into
it the bounds that are supplied, and only those. When the requirement check passes, the
solver is marked requirements-checked and this solver performs the solve; when the check
fails, the call ends with the exception and the solver in the handle is not marked. For
the value iteration solver, which records these settings, the solver that performs the
solve holds exactly them. -/
theorem analyzeNonTrivialMdpEpochModel_changed_builds_solver {S R : Type}
    (api : MinMaxLinearEquationSolver S R) (dir : OptimizationDirection) (em : EpochModel)
    (ctx : Context S) (lowerBound upperBound : Option ValueType)
    (hchanged : em.epochMatrixChanged = true) :
    (api.hasEnabledCriticalRequirement
        (remainingRequirementsMdp api dir em lowerBound upperBound) = false →
      em.stepSolutions.length = em.stepChoices.length →
      ∀ built, built =
        (match upperBound with
          | some upper =>
            api.setUpperBound
              (match lowerBound with
                | some lower =>
                  api.setLowerBound
                    (api.setTrackScheduler (api.setCachingEnabled (api.setOptimizationDirection
                      (api.setHasUniqueSolution (api.create em.epochMatrix)) dir) true) true)
                    lower
                | none =>
                  api.setTrackScheduler (api.setCachingEnabled (api.setOptimizationDirection
                    (api.setHasUniqueSolution (api.create em.epochMatrix)) dir) true) true)
              upper
          | none =>
            (match lowerBound with
              | some lower =>
                api.setLowerBound
                  (api.setTrackScheduler (api.setCachingEnabled (api.setOptimizationDirection
                    (api.setHasUniqueSolution (api.create em.epochMatrix)) dir) true) true)
                  lower
              | none =>
                api.setTrackScheduler (api.setCachingEnabled (api.setOptimizationDirection
                  (api.setHasUniqueSolution (api.create em.epochMatrix)) dir) true) true)) →
      (analyzeNonTrivialMdpEpochModel api dir em ctx lowerBound upperBound).calls =
        [.create em.epochMatrix, .setHasUniqueSolution, .setOptimizationDirection dir,
          .setCachingEnabled true, .setTrackScheduler true, .getRequirements]
          ++ (match lowerBound with
              | some value => [.setLowerBound value]
              | none => [])
          ++ (match upperBound with
              | some value => [.setUpperBound value]
              | none => [])
          ++ [.setRequirementsChecked,
            .solveEquations (List.replicate em.epochMatrix.getRowGroupCount 0)
              (prepareRhsMdp em).1] ∧
      (analyzeNonTrivialMdpEpochModel api dir em ctx lowerBound upperBound).context.solver =
        some (api.solveEquations (api.setRequirementsChecked built)
          (List.replicate em.epochMatrix.getRowGroupCount 0) (prepareRhsMdp em).1).1 ∧
      (analyzeNonTrivialMdpEpochModel api dir em ctx lowerBound upperBound).context.x =
        (api.solveEquations (api.setRequirementsChecked built)
          (List.replicate em.epochMatrix.getRowGroupCount 0) (prepareRhsMdp em).1).2) ∧
    (api.hasEnabledCriticalRequirement
        (remainingRequirementsMdp api dir em lowerBound upperBound) = true →
      SolverCall.setRequirementsChecked ∉
        (analyzeNonTrivialMdpEpochModel api dir em ctx lowerBound upperBound).calls ∧
      (analyzeNonTrivialMdpEpochModel api dir em ctx lowerBound upperBound).context.solver =
        some (setUpMinMaxSolver api dir em lowerBound upperBound) ∧
      ∃ message,
        (analyzeNonTrivialMdpEpochModel api dir em ctx lowerBound upperBound).result =
          .error (.UncheckedRequirementException message)) ∧
    (api.hasEnabledCriticalRequirement
        (remainingRequirementsMdp api dir em lowerBound upperBound) = false →
      SolverCall.setRequirementsChecked ∈
        (analyzeNonTrivialMdpEpochModel api dir em ctx lowerBound upperBound).calls) ∧
    (∀ v, SolverCall.setLowerBound v ∈
        (analyzeNonTrivialMdpEpochModel api dir em ctx lowerBound upperBound).calls ↔
      lowerBound = some v) ∧
    (∀ v, SolverCall.setUpperBound v ∈
        (analyzeNonTrivialMdpEpochModel api dir em ctx lowerBound upperBound).calls ↔
      upperBound = some v) ∧
    (∀ (sweeps : Nat) (requirements : Requirements),
      (valueIterationApi sweeps requirements).setRequirementsChecked
        (setUpMinMaxSolver (valueIterationApi sweeps requirements) dir em lowerBound
          upperBound) =
        { matrix := em.epochMatrix, sweeps := sweeps, requirements := requirements,
          hasUniqueSolution := true, direction := some dir, cachingEnabled := true,
          trackScheduler := true, requirementsChecked := true, lowerBound := lowerBound,
          upperBound := upperBound, schedulerChoices := [], initialScheduler := none } ∧
      (setUpMinMaxSolver (valueIterationApi sweeps requirements) dir em lowerBound
          upperBound).requirementsChecked = false) := by
  have hcallsOf : ∀ call ∈
      (analyzeNonTrivialMdpEpochModel api dir em ctx lowerBound upperBound).calls,
      call ∈ setUpCallsMdp dir em lowerBound upperBound ∨ call = .setRequirementsChecked ∨
        ∃ x b, call = .solveEquations x b := by
    intro call hcall
    rcases analyzeNonTrivialMdpEpochModel_calls_mem _ _ _ _ _ _ _ hcall with
      ⟨_, h | h⟩ | ⟨hfalse, _⟩ | h
    · exact Or.inl h
    · exact Or.inr (Or.inl h)
    · rw [hchanged] at hfalse; cases hfalse
    · exact Or.inr (Or.inr h)
  have hprefix : ∀ call ∈ setUpCallsMdp dir em lowerBound upperBound, call ∈
      (analyzeNonTrivialMdpEpochModel api dir em ctx lowerBound upperBound).calls := by
    intro call hcall
    cases hcrit : api.hasEnabledCriticalRequirement
        (remainingRequirementsMdp api dir em lowerBound upperBound) with
    | true =>
      rw [analyzeNonTrivialMdpEpochModel_of_critical api dir em ctx _ _ hchanged hcrit]
      exact hcall
    | false =>
      rw [analyzeNonTrivialMdpEpochModel_of_changed api dir em ctx _ _ hchanged hcrit]
      by_cases hlen : (prepareRhsMdp em).2 = em.stepSolutions.length
      · rw [solveMdp_of_solver api em _ _ _ hlen rfl]
        simp [hcall]
      · rw [solveMdp_of_assert api em _ _ hlen]
        simp [hcall]
  refine ⟨?_, ?_, ?_, ?_, ?_, ?_⟩
  · intro hcrit hlen built hbuilt
    rw [← setUpMinMaxSolver_eq] at hbuilt
    rw [analyzeNonTrivialMdpEpochModel_of_changed api dir em ctx _ _ hchanged hcrit,
      solveMdp_of_solver api em _ _ _ (by rw [prepareRhsMdp_eq, prepareRhsDtmc_pos, hlen]) rfl,
      hbuilt]
    refine ⟨?_, rfl, rfl⟩
    simp [setUpCallsMdp]
  · intro hcrit
    rw [analyzeNonTrivialMdpEpochModel_of_critical api dir em ctx _ _ hchanged hcrit]
    exact ⟨setRequirementsChecked_not_mem_setUpCallsMdp _ _ _ _, rfl, _, rfl⟩
  · intro hcrit
    rw [analyzeNonTrivialMdpEpochModel_of_changed api dir em ctx _ _ hchanged hcrit]
    by_cases hlen : (prepareRhsMdp em).2 = em.stepSolutions.length
    · rw [solveMdp_of_solver api em _ _ _ hlen rfl]
      simp
    · rw [solveMdp_of_assert api em _ _ hlen]
      simp
  · intro v
    constructor
    · intro h
      rcases hcallsOf _ h with h | h | ⟨_, _, h⟩
      · exact (setLowerBound_mem_setUpCallsMdp _ _ _ _ _).mp h
      · cases h
      · cases h
    · intro h
      exact hprefix _ ((setLowerBound_mem_setUpCallsMdp _ _ _ _ _).mpr h)
  · intro v
    constructor
    · intro h
      rcases hcallsOf _ h with h | h | ⟨_, _, h⟩
      · exact (setUpperBound_mem_setUpCallsMdp _ _ _ _ _).mp h
      · cases h
      · cases h
    · intro h
      exact hprefix _ ((setUpperBound_mem_setUpCallsMdp _ _ _ _ _).mpr h)
  · intro sweeps requirements
    cases lowerBound <;> cases upperBound <;> exact ⟨rfl, rfl⟩

/-- C20 at scenario C, epoch 1, maximizing with the lower bound 0: the value iteration
solver that performs the solve. -/
theorem analyzeNonTrivialMdpEpochModel_changed_builds_solver_witness :
    scenarioC1.epochMatrixChanged = true ∧
    (valueIterationApi 1 noRequirements).hasEnabledCriticalRequirement
      (remainingRequirementsMdp (valueIterationApi 1 noRequirements) .Maximize scenarioC1
        (some 0) none) = false ∧
    scenarioC1.stepSolutions.length = scenarioC1.stepChoices.length ∧
    (analyzeNonTrivialMdpEpochModel (valueIterationApi 1 noRequirements) .Maximize scenarioC1
        (staleContext ValueIterationSolver) (some 0) none).context.solver =
      some ((valueIterationApi 1 noRequirements).solveEquations
        ((valueIterationApi 1 noRequirements).setRequirementsChecked
          (setUpMinMaxSolver (valueIterationApi 1 noRequirements) .Maximize scenarioC1
            (some 0) none))
        (List.replicate scenarioC1.epochMatrix.getRowGroupCount 0)
        (prepareRhsMdp scenarioC1).1).1 :=
  ⟨rfl, by decide, by decide,
    ((analyzeNonTrivialMdpEpochModel_changed_builds_solver
      (valueIterationApi 1 noRequirements) .Maximize scenarioC1
      (staleContext ValueIterationSolver) (some 0) none rfl).1 (by decide) (by decide)
      _ (setUpMinMaxSolver_eq _ _ _ _ _)).2.1⟩

/-! ## The solver handle over a sequence of epochs -/

theorem solveDtmc_solver_isSome {S R : Type} (api : LinearEquationSolver S R)
    (em : EpochModel) (ctx : Context S) (calls : List SolverCall)
    (hsome : ctx.solver.isSome = true) :
    (solveDtmc api em ctx calls).context.solver.isSome = true ∧
      (solveDtmc api em ctx calls).result ≠ .error .NullSolver := by
  obtain ⟨solver, hs⟩ := Option.isSome_iff_exists.mp hsome
  by_cases hlen : (prepareRhsDtmc em).2 = em.stepSolutions.length
  · rw [solveDtmc_of_solver api em ctx calls solver hlen hs]
    exact ⟨rfl, fun h => by cases h⟩
  · rw [solveDtmc_of_assert api em ctx calls hlen]
    exact ⟨hsome, fun h => by cases h⟩

theorem solveMdp_solver_isSome {S R : Type} (api : MinMaxLinearEquationSolver S R)
    (em : EpochModel) (ctx : Context S) (calls : List SolverCall)
    (hsome : ctx.solver.isSome = true) :
    (solveMdp api em ctx calls).context.solver.isSome = true ∧
      (solveMdp api em ctx calls).result ≠ .error .NullSolver := by
  obtain ⟨solver, hs⟩ := Option.isSome_iff_exists.mp hsome
  by_cases hlen : (prepareRhsMdp em).2 = em.stepSolutions.length
  · rw [solveMdp_of_solver api em ctx calls solver hlen hs]
    exact ⟨rfl, fun h => by cases h⟩
  · rw [solveMdp_of_assert api em ctx calls hlen]
    exact ⟨hsome, fun h => by cases h⟩

theorem analyzeNonTrivialDtmcEpochModel_built {S R : Type}
    (api : LinearEquationSolver S R) (em : EpochModel) (ctx : Context S)
    (lowerBound upperBound : Option ValueType)
    (hbuilt : em.epochMatrixChanged = true ∨ ctx.solver.isSome = true) :
    (analyzeNonTrivialDtmcEpochModel api em ctx lowerBound upperBound).context.solver.isSome
      = true ∧
    (analyzeNonTrivialDtmcEpochModel api em ctx lowerBound upperBound).result
      ≠ .error .NullSolver := by
  cases hchanged : em.epochMatrixChanged with
  | true =>
    cases hcrit : api.hasEnabledCriticalRequirement
        (remainingRequirementsDtmc api em lowerBound upperBound) with
    | true =>
      rw [analyzeNonTrivialDtmcEpochModel_of_critical api em ctx _ _ hchanged hcrit]
      exact ⟨rfl, fun h => by cases h⟩
    | false =>
      rw [analyzeNonTrivialDtmcEpochModel_of_changed api em ctx _ _ hchanged hcrit]
      exact solveDtmc_solver_isSome api em _ _ rfl
  | false =>
    rw [analyzeNonTrivialDtmcEpochModel_of_unchanged api em ctx _ _ hchanged]
    rcases hbuilt with h | h
    · rw [hchanged] at h; cases h
    · exact solveDtmc_solver_isSome api em _ _ h

theorem analyzeNonTrivialMdpEpochModel_built {S R : Type}
    (api : MinMaxLinearEquationSolver S R) (dir : OptimizationDirection) (em : EpochModel)
    (ctx : Context S) (lowerBound upperBound : Option ValueType)
    (hbuilt : em.epochMatrixChanged = true ∨ ctx.solver.isSome = true) :
    (analyzeNonTrivialMdpEpochModel api dir em ctx lowerBound upperBound).context.solver.isSome
      = true ∧
    (analyzeNonTrivialMdpEpochModel api dir em ctx lowerBound upperBound).result
      ≠ .error .NullSolver := by
  cases hchanged : em.epochMatrixChanged with
  | true =>
    cases hcrit : api.hasEnabledCriticalRequirement
        (remainingRequirementsMdp api dir em lowerBound upperBound) with
    | true =>
      rw [analyzeNonTrivialMdpEpochModel_of_critical api dir em ctx _ _ hchanged hcrit]
      exact ⟨rfl, fun h => by cases h⟩
    | false =>
      rw [analyzeNonTrivialMdpEpochModel_of_changed api dir em ctx _ _ hchanged hcrit]
      exact solveMdp_solver_isSome api em _ _ rfl
  | false =>
    rcases hbuilt with h | h
    · rw [hchanged] at h; cases h
    · obtain ⟨solver, hs⟩ := Option.isSome_iff_exists.mp h
      rw [analyzeNonTrivialMdpEpochModel_of_unchanged api dir em ctx _ _ solver hchanged hs]
      exact solveMdp_solver_isSome api em _ _ rfl

theorem analyzeSingleObjective_of_reaches {S R : Type} (api : LinearEquationSolver S R)
    (em : EpochModel) (ctx : Context S) (lowerBound upperBound : Option ValueType)
    (hreaches : em.reachesNonTrivialDtmc = true) :
    em.analyzeSingleObjective api ctx lowerBound upperBound =
      { analyzeNonTrivialDtmcEpochModel api em ctx lowerBound upperBound with
        calls := .analyzer .NonTrivialDtmc ::
          (analyzeNonTrivialDtmcEpochModel api em ctx lowerBound upperBound).calls } := by
  unfold EpochModel.reachesNonTrivialDtmc at hreaches
  simp only [Bool.and_eq_true, Bool.not_eq_true', Bool.or_eq_false_iff,
    Bool.and_eq_false_imp, beq_iff_eq] at hreaches
  obtain ⟨⟨hgroup, hformat⟩, h1, h2⟩ := hreaches
  apply analyzeSingleObjective_of_nonTrivial api em ctx _ _ hgroup hformat
  rintro (⟨hf, hid⟩ | ⟨hf, hzero⟩)
  · have := h1 hf
    rw [hid] at this
    cases this
  · have hne : (em.equationSolverProblemFormat == some .EquationSystem) = false := by
      rw [hf]; rfl
    have := h2 (by simpa using hne)
    simp [hzero] at this

theorem analyzeSingleObjective_of_not_reaches {S R : Type} (api : LinearEquationSolver S R)
    (em : EpochModel) (ctx : Context S) (lowerBound upperBound : Option ValueType)
    (hreaches : em.reachesNonTrivialDtmc = false) :
    (em.analyzeSingleObjective api ctx lowerBound upperBound).context = ctx ∧
    (em.analyzeSingleObjective api ctx lowerBound upperBound).result ≠ .error .NullSolver ∧
    ∀ call ∈ (em.analyzeSingleObjective api ctx lowerBound upperBound).calls,
      call = .analyzer .TrivialDtmc := by
  cases hgroup : em.epochMatrix.hasTrivialRowGrouping with
  | false =>
    rw [analyzeSingleObjective_of_grouping api em ctx _ _ hgroup]
    exact ⟨rfl, fun h => (by cases h), by simp⟩
  | true =>
    cases hformat : em.equationSolverProblemFormat with
    | none =>
      rw [analyzeSingleObjective_of_no_format api em ctx _ _ hgroup hformat]
      exact ⟨rfl, fun h => (by cases h), by simp⟩
    | some f =>
      have hcond : (em.equationSolverProblemFormat = some .EquationSystem ∧
            em.epochMatrix.isIdentityMatrix = true) ∨
          (em.equationSolverProblemFormat = some .FixedPointSystem ∧
            em.epochMatrix.getEntryCount = 0) := by
        unfold EpochModel.reachesNonTrivialDtmc at hreaches
        rw [hgroup, hformat] at hreaches
        cases f with
        | EquationSystem =>
          left
          refine ⟨hformat, ?_⟩
          simpa using hreaches
        | FixedPointSystem =>
          right
          refine ⟨hformat, ?_⟩
          simpa using hreaches
      rw [analyzeSingleObjective_of_trivial api em ctx _ _ hgroup hcond]
      exact ⟨rfl, fun h => (by cases h), by simp⟩

theorem analyzeNonTrivialDtmcEpochModel_unbuilt {S R : Type}
    (api : LinearEquationSolver S R) (em : EpochModel) (ctx : Context S)
    (lowerBound upperBound : Option ValueType)
    (hchanged : em.epochMatrixChanged = false) (hnone : ctx.solver = none) :
    (analyzeNonTrivialDtmcEpochModel api em ctx lowerBound upperBound).calls = [] ∧
    (analyzeNonTrivialDtmcEpochModel api em ctx lowerBound upperBound).context.solver
      = none := by
  rw [analyzeNonTrivialDtmcEpochModel_of_unchanged api em ctx _ _ hchanged]
  by_cases hlen : (prepareRhsDtmc em).2 = em.stepSolutions.length
  · rw [solveDtmc_of_null api em ctx _ hlen hnone]
    exact ⟨rfl, hnone⟩
  · rw [solveDtmc_of_assert api em ctx _ hlen]
    exact ⟨rfl, hnone⟩

theorem analyzeNonTrivialMdpEpochModel_calls_of_changed {S R : Type}
    (api : MinMaxLinearEquationSolver S R) (dir : OptimizationDirection) (em : EpochModel)
    (ctx : Context S) (lowerBound upperBound : Option ValueType)
    (hchanged : em.epochMatrixChanged = true) :
    SolverCall.create em.epochMatrix ∈
      (analyzeNonTrivialMdpEpochModel api dir em ctx lowerBound upperBound).calls := by
  cases hcrit : api.hasEnabledCriticalRequirement
      (remainingRequirementsMdp api dir em lowerBound upperBound) with
  | true =>
    rw [analyzeNonTrivialMdpEpochModel_of_critical api dir em ctx _ _ hchanged hcrit]
    simp [setUpCallsMdp]
  | false =>
    rw [analyzeNonTrivialMdpEpochModel_of_changed api dir em ctx _ _ hchanged hcrit]
    by_cases hlen : (prepareRhsMdp em).2 = em.stepSolutions.length
    · rw [solveMdp_of_solver api em _ _ _ hlen rfl]
      simp [setUpCallsMdp]
    · rw [solveMdp_of_assert api em _ _ hlen]
      simp [setUpCallsMdp]

theorem analyzeNonTrivialDtmcEpochModel_create_of_changed {S R : Type}
    (api : LinearEquationSolver S R) (em : EpochModel) (ctx : Context S)
    (lowerBound upperBound : Option ValueType) (hchanged : em.epochMatrixChanged = true) :
    SolverCall.create em.epochMatrix ∈
      (analyzeNonTrivialDtmcEpochModel api em ctx lowerBound upperBound).calls := by
  obtain ⟨rest, hrest⟩ := analyzeNonTrivialDtmcEpochModel_calls_of_changed api em ctx
    lowerBound upperBound hchanged
  rw [hrest]
  simp [setUpCallsDtmc]

theorem EpochCall.run_spec {S R : Type} (api : LinearEquationSolver S R) (ctx : Context S)
    (call : EpochCall) :
    (call.epochModel.reachesNonTrivialDtmc = true ↔
      SolverCall.analyzer .NonTrivialDtmc ∈ (call.run api ctx).calls) ∧
    (∀ x b, SolverCall.solveEquations x b ∈ (call.run api ctx).calls →
      ctx.solver.isSome = true ∨
        SolverCall.create call.epochModel.epochMatrix ∈ (call.run api ctx).calls) ∧
    (ctx.solver = none → (call.run api ctx).context.solver.isSome = true →
      call.epochModel.epochMatrixChanged = true ∧
        SolverCall.create call.epochModel.epochMatrix ∈ (call.run api ctx).calls) ∧
    (ctx.solver.isSome = true → (call.run api ctx).context.solver.isSome = true) := by
  unfold EpochCall.run
  cases hreaches : call.epochModel.reachesNonTrivialDtmc with
  | false =>
    obtain ⟨hctx, _, hcalls⟩ := analyzeSingleObjective_of_not_reaches api call.epochModel ctx
      call.lowerBound call.upperBound hreaches
    refine ⟨⟨fun h => (by cases h), fun h => (by cases hcalls _ h)⟩,
      fun x b h => (by cases hcalls _ h), ?_, ?_⟩
    · intro hnone hsome
      rw [hctx, hnone] at hsome
      cases hsome
    · intro hsome
      rw [hctx]
      exact hsome
  | true =>
    rw [analyzeSingleObjective_of_reaches api call.epochModel ctx _ _ hreaches]
    refine ⟨⟨fun _ => List.mem_cons_self _ _, fun _ => rfl⟩, ?_, ?_, ?_⟩
    · intro x b h
      rcases List.mem_cons.mp h with h | h
      · cases h
      · cases hchanged : call.epochModel.epochMatrixChanged with
        | true =>
          exact Or.inr (List.mem_cons_of_mem _
            (analyzeNonTrivialDtmcEpochModel_create_of_changed api _ ctx _ _ hchanged))
        | false =>
          cases hctx : ctx.solver with
          | none =>
            rw [(analyzeNonTrivialDtmcEpochModel_unbuilt api _ ctx _ _ hchanged hctx).1] at h
            cases h
          | some solver => exact Or.inl rfl
    · intro hnone hsome
      cases hchanged : call.epochModel.epochMatrixChanged with
      | true =>
        exact ⟨rfl, List.mem_cons_of_mem _
          (analyzeNonTrivialDtmcEpochModel_create_of_changed api _ ctx _ _ hchanged)⟩
      | false =>
        have := (analyzeNonTrivialDtmcEpochModel_unbuilt api _ ctx call.lowerBound
          call.upperBound hchanged hnone).2
        simp only at hsome
        rw [this] at hsome
        cases hsome
    · intro hsome
      exact (analyzeNonTrivialDtmcEpochModel_built api _ ctx _ _ (Or.inr hsome)).1

theorem EpochCall.runMinMax_spec {S R : Type} (api : MinMaxLinearEquationSolver S R)
    (ctx : Context S) (call : EpochCall) :
    (call.epochModel.reachesNonTrivialMdp = true ↔
      SolverCall.analyzer .NonTrivialMdp ∈ (call.runMinMax api ctx).calls) ∧
    (∀ x b, SolverCall.solveEquations x b ∈ (call.runMinMax api ctx).calls →
      ctx.solver.isSome = true ∨
        SolverCall.create call.epochModel.epochMatrix ∈ (call.runMinMax api ctx).calls) ∧
    (ctx.solver = none → (call.runMinMax api ctx).context.solver.isSome = true →
      call.epochModel.epochMatrixChanged = true ∧
        SolverCall.create call.epochModel.epochMatrix ∈ (call.runMinMax api ctx).calls) ∧
    (ctx.solver.isSome = true → (call.runMinMax api ctx).context.solver.isSome = true) := by
  unfold EpochCall.runMinMax EpochModel.reachesNonTrivialMdp
  by_cases hzero : call.epochModel.epochMatrix.getEntryCount = 0
  · rw [analyzeSingleObjectiveMinMax_of_trivial api call.dir call.epochModel ctx _ _ hzero]
    refine ⟨⟨fun h => (by simp [hzero] at h), fun h => (by simp at h)⟩,
      fun x b h => (by simp at h), ?_, fun h => h⟩
    intro hnone hsome
    simp only at hsome
    rw [hnone] at hsome
    cases hsome
  · rw [analyzeSingleObjectiveMinMax_of_nonTrivial api call.dir call.epochModel ctx _ _ hzero]
    refine ⟨⟨fun _ => List.mem_cons_self _ _, fun _ => (by simp [hzero])⟩, ?_, ?_, ?_⟩
    · intro x b h
      cases hchanged : call.epochModel.epochMatrixChanged with
      | true =>
        exact Or.inr (List.mem_cons_of_mem _
          (analyzeNonTrivialMdpEpochModel_calls_of_changed api _ _ ctx _ _ hchanged))
      | false =>
        cases hctx : ctx.solver with
        | none =>
          rw [analyzeNonTrivialMdpEpochModel_of_unchanged_null api _ _ ctx _ _ hchanged hctx]
            at h
          simp at h
        | some solver => exact Or.inl rfl
    · intro hnone hsome
      cases hchanged : call.epochModel.epochMatrixChanged with
      | true =>
        exact ⟨rfl, List.mem_cons_of_mem _
          (analyzeNonTrivialMdpEpochModel_calls_of_changed api _ _ ctx _ _ hchanged)⟩
      | false =>
        rw [analyzeNonTrivialMdpEpochModel_of_unchanged_null api _ _ ctx _ _ hchanged hnone]
          at hsome
        simp only at hsome
        rw [hnone] at hsome
        cases hsome
    · intro hsome
      exact (analyzeNonTrivialMdpEpochModel_built api _ _ ctx _ _ (Or.inr hsome)).1

theorem EpochCall.run_built {S R : Type} (api : LinearEquationSolver S R) (ctx : Context S)
    (call : EpochCall)
    (hbuilt : ctx.solver.isSome = true ∨
      (call.epochModel.reachesNonTrivialDtmc = true →
        call.epochModel.epochMatrixChanged = true)) :
    (call.run api ctx).result ≠ .error .NullSolver ∧
    (call.epochModel.reachesNonTrivialDtmc = true →
      (call.run api ctx).context.solver.isSome = true) ∧
    (call.epochModel.reachesNonTrivialDtmc = false → (call.run api ctx).context = ctx) := by
  unfold EpochCall.run
  cases hreaches : call.epochModel.reachesNonTrivialDtmc with
  | false =>
    obtain ⟨hctx, hres, _⟩ := analyzeSingleObjective_of_not_reaches api call.epochModel ctx
      call.lowerBound call.upperBound hreaches
    exact ⟨hres, fun h => (by cases h), fun _ => hctx⟩
  | true =>
    rw [analyzeSingleObjective_of_reaches api call.epochModel ctx _ _ hreaches]
    have hb : call.epochModel.epochMatrixChanged = true ∨ ctx.solver.isSome = true := by
      rcases hbuilt with h | h
      · exact Or.inr h
      · exact Or.inl (h hreaches)
    obtain ⟨h1, h2⟩ := analyzeNonTrivialDtmcEpochModel_built api call.epochModel ctx
      call.lowerBound call.upperBound hb
    exact ⟨h2, fun _ => h1, fun h => (by cases h)⟩

theorem EpochCall.runMinMax_built {S R : Type} (api : MinMaxLinearEquationSolver S R)
    (ctx : Context S) (call : EpochCall)
    (hbuilt : ctx.solver.isSome = true ∨
      (call.epochModel.reachesNonTrivialMdp = true →
        call.epochModel.epochMatrixChanged = true)) :
    (call.runMinMax api ctx).result ≠ .error .NullSolver ∧
    (call.epochModel.reachesNonTrivialMdp = true →
      (call.runMinMax api ctx).context.solver.isSome = true) ∧
    (call.epochModel.reachesNonTrivialMdp = false →
      (call.runMinMax api ctx).context = ctx) := by
  unfold EpochCall.runMinMax
  by_cases hzero : call.epochModel.epochMatrix.getEntryCount = 0
  · have hreaches : call.epochModel.reachesNonTrivialMdp = false := by
      simp [EpochModel.reachesNonTrivialMdp, hzero]
    rw [analyzeSingleObjectiveMinMax_of_trivial api call.dir call.epochModel ctx _ _ hzero]
    exact ⟨fun h => (by cases h), fun h => (by rw [hreaches] at h; cases h), fun _ => rfl⟩
  · have hreaches : call.epochModel.reachesNonTrivialMdp = true := by
      simp [EpochModel.reachesNonTrivialMdp, hzero]
    rw [analyzeSingleObjectiveMinMax_of_nonTrivial api call.dir call.epochModel ctx _ _ hzero]
    have hb : call.epochModel.epochMatrixChanged = true ∨ ctx.solver.isSome = true := by
      rcases hbuilt with h | h
      · exact Or.inr h
      · exact Or.inl (h hreaches)
    obtain ⟨h1, h2⟩ := analyzeNonTrivialMdpEpochModel_built api call.dir call.epochModel ctx
      call.lowerBound call.upperBound hb
    exact ⟨h2, fun _ => h1, fun h => (by rw [hreaches] at h; cases h)⟩

theorem analyzeSequence_safe {S R : Type} (api : LinearEquationSolver S R) :
    ∀ (calls : List EpochCall) (ctx : Context S),
      (ctx.solver.isSome = true ∨
        firstNonTrivialIsChanged EpochModel.reachesNonTrivialDtmc calls) →
      ∀ run ∈ analyzeSequence api ctx calls,
        run.result ≠ .error .NullSolver ∧
        (ctx.solver.isSome = true → run.context.solver.isSome = true) := by
  intro calls
  induction calls with
  | nil => intro ctx _ run hrun; simp [analyzeSequence] at hrun
  | cons call rest ih =>
    intro ctx hinit run hrun
    have hcall : ctx.solver.isSome = true ∨
        (call.epochModel.reachesNonTrivialDtmc = true →
          call.epochModel.epochMatrixChanged = true) := by
      rcases hinit with h | h
      · exact Or.inl h
      · right
        intro hreaches
        simpa [firstNonTrivialIsChanged, hreaches] using h
    obtain ⟨hres, hsome, hsame⟩ := EpochCall.run_built api ctx call hcall
    have hkeep := (EpochCall.run_spec api ctx call).2.2.2
    simp only [analyzeSequence, List.mem_cons] at hrun
    rcases hrun with hrun | hrun
    · rw [hrun]
      exact ⟨hres, hkeep⟩
    · have hnext : (call.run api ctx).context.solver.isSome = true ∨
          firstNonTrivialIsChanged EpochModel.reachesNonTrivialDtmc rest := by
        cases hreaches : call.epochModel.reachesNonTrivialDtmc with
        | true => exact Or.inl (hsome hreaches)
        | false =>
          rcases hinit with h | h
          · exact Or.inl (hkeep h)
          · right
            simpa [firstNonTrivialIsChanged, hreaches] using h
      obtain ⟨h1, h2⟩ := ih (call.run api ctx).context hnext run hrun
      exact ⟨h1, fun h => h2 (hkeep h)⟩

theorem analyzeSequenceMinMax_safe {S R : Type} (api : MinMaxLinearEquationSolver S R) :
    ∀ (calls : List EpochCall) (ctx : Context S),
      (ctx.solver.isSome = true ∨
        firstNonTrivialIsChanged EpochModel.reachesNonTrivialMdp calls) →
      ∀ run ∈ analyzeSequenceMinMax api ctx calls,
        run.result ≠ .error .NullSolver ∧
        (ctx.solver.isSome = true → run.context.solver.isSome = true) := by
  intro calls
  induction calls with
  | nil => intro ctx _ run hrun; simp [analyzeSequenceMinMax] at hrun
  | cons call rest ih =>
    intro ctx hinit run hrun
    have hcall : ctx.solver.isSome = true ∨
        (call.epochModel.reachesNonTrivialMdp = true →
          call.epochModel.epochMatrixChanged = true) := by
      rcases hinit with h | h
      · exact Or.inl h
      · right
        intro hreaches
        simpa [firstNonTrivialIsChanged, hreaches] using h
    obtain ⟨hres, hsome, hsame⟩ := EpochCall.runMinMax_built api ctx call hcall
    have hkeep := (EpochCall.runMinMax_spec api ctx call).2.2.2
    simp only [analyzeSequenceMinMax, List.mem_cons] at hrun
    rcases hrun with hrun | hrun
    · rw [hrun]
      exact ⟨hres, hkeep⟩
    · have hnext : (call.runMinMax api ctx).context.solver.isSome = true ∨
          firstNonTrivialIsChanged EpochModel.reachesNonTrivialMdp rest := by
        cases hreaches : call.epochModel.reachesNonTrivialMdp with
        | true => exact Or.inl (hsome hreaches)
        | false =>
          rcases hinit with h | h
          · exact Or.inl (hkeep h)
          · right
            simpa [firstNonTrivialIsChanged, hreaches] using h
      obtain ⟨h1, h2⟩ := ih (call.runMinMax api ctx).context hnext run hrun
      exact ⟨h1, fun h => h2 (hkeep h)⟩

theorem firstNonTrivialIsChanged_of_unchangedKeepsMatrix (reaches : EpochModel → Bool)
    (hreaches : ∀ em em2 : EpochModel, em.epochMatrix = em2.epochMatrix →
      em.equationSolverProblemFormat = em2.equationSolverProblemFormat →
      reaches em = reaches em2) :
    ∀ (calls : List EpochCall) (previous : EpochCall),
      unchangedKeepsMatrix previous calls → reaches previous.epochModel = false →
      firstNonTrivialIsChanged reaches calls := by
  intro calls
  induction calls with
  | nil => intro _ _ _; trivial
  | cons call rest ih =>
    intro previous hkeeps hprev
    obtain ⟨hflag, hrest⟩ := hkeeps
    simp only [firstNonTrivialIsChanged]
    by_cases hr : reaches call.epochModel = true
    · rw [if_pos hr]
      cases hc : call.epochModel.epochMatrixChanged with
      | true => rfl
      | false =>
        obtain ⟨hm, hf⟩ := hflag hc
        rw [hreaches _ _ hm hf, hprev] at hr
        cases hr
    · rw [if_neg hr]
      exact ih call hrest (by simpa using hr)

theorem firstNonTrivialIsChanged_of_first_changed (reaches : EpochModel → Bool)
    (hreaches : ∀ em em2 : EpochModel, em.epochMatrix = em2.epochMatrix →
      em.equationSolverProblemFormat = em2.equationSolverProblemFormat →
      reaches em = reaches em2)
    (first : EpochCall) (rest : List EpochCall)
    (hfirst : first.epochModel.epochMatrixChanged = true)
    (hkeeps : unchangedKeepsMatrix first rest) :
    firstNonTrivialIsChanged reaches (first :: rest) := by
  simp only [firstNonTrivialIsChanged]
  by_cases hr : reaches first.epochModel = true
  · rw [if_pos hr]; exact hfirst
  · rw [if_neg hr]
    exact firstNonTrivialIsChanged_of_unchangedKeepsMatrix reaches hreaches rest first hkeeps
      (by simpa using hr)

theorem reachesNonTrivialDtmc_congr (em em2 : EpochModel)
    (hm : em.epochMatrix = em2.epochMatrix)
    (hf : em.equationSolverProblemFormat = em2.equationSolverProblemFormat) :
    em.reachesNonTrivialDtmc = em2.reachesNonTrivialDtmc := by
  simp only [EpochModel.reachesNonTrivialDtmc, hm, hf]

theorem reachesNonTrivialMdp_congr (em em2 : EpochModel)
    (hm : em.epochMatrix = em2.epochMatrix)
    (_hf : em.equationSolverProblemFormat = em2.equationSolverProblemFormat) :
    em.reachesNonTrivialMdp = em2.reachesNonTrivialMdp := by
  simp only [EpochModel.reachesNonTrivialMdp, hm]

/-- C19, as amended: on one cache context, for a sequence of calls of the deterministic
dispatcher, or of the non-deterministic one, in which the first epoch that reaches the
non-trivial analyzer has a changed matrix, no call reaches a member call on the solver
through a handle that holds no solver. A single call makes a `solveEquations` call only
with a handle that held a solver before or for which it has created one; a handle without
solver gets one only in a call with a changed matrix that creates it; and a handle that
holds a solver holds one after every later call, whatever the flags of the later epochs,
and none of these calls meets an empty handle. The condition on the sequence holds when the
first epoch has a changed matrix and every epoch flagged as unchanged has the matrix and
the problem format of the epoch before it. -/
theorem solver_handle_state_machine {S R S2 R2 : Type}
    (api : LinearEquationSolver S R) (apiM : MinMaxLinearEquationSolver S2 R2)
    (calls : List EpochCall) (ctx : Context S) (ctxM : Context S2) :
    (firstNonTrivialIsChanged EpochModel.reachesNonTrivialDtmc calls →
      ∀ run ∈ analyzeSequence api ctx calls, run.result ≠ .error .NullSolver) ∧
    (firstNonTrivialIsChanged EpochModel.reachesNonTrivialMdp calls →
      ∀ run ∈ analyzeSequenceMinMax apiM ctxM calls, run.result ≠ .error .NullSolver) ∧
    (∀ (call : EpochCall) (c : Context S),
      (call.epochModel.reachesNonTrivialDtmc = true ↔
        SolverCall.analyzer .NonTrivialDtmc ∈ (call.run api c).calls) ∧
      (∀ x b, SolverCall.solveEquations x b ∈ (call.run api c).calls →
        c.solver.isSome = true ∨
          SolverCall.create call.epochModel.epochMatrix ∈ (call.run api c).calls) ∧
      (c.solver = none → (call.run api c).context.solver.isSome = true →
        call.epochModel.epochMatrixChanged = true ∧
          SolverCall.create call.epochModel.epochMatrix ∈ (call.run api c).calls) ∧
      (c.solver.isSome = true → (call.run api c).context.solver.isSome = true)) ∧
    (∀ (call : EpochCall) (c : Context S2),
      (call.epochModel.reachesNonTrivialMdp = true ↔
        SolverCall.analyzer .NonTrivialMdp ∈ (call.runMinMax apiM c).calls) ∧
      (∀ x b, SolverCall.solveEquations x b ∈ (call.runMinMax apiM c).calls →
        c.solver.isSome = true ∨
          SolverCall.create call.epochModel.epochMatrix ∈ (call.runMinMax apiM c).calls) ∧
      (c.solver = none → (call.runMinMax apiM c).context.solver.isSome = true →
        call.epochModel.epochMatrixChanged = true ∧
          SolverCall.create call.epochModel.epochMatrix ∈ (call.runMinMax apiM c).calls) ∧
      (c.solver.isSome = true → (call.runMinMax apiM c).context.solver.isSome = true)) ∧
    (∀ (c : Context S) (later : List EpochCall), c.solver.isSome = true →
      ∀ run ∈ analyzeSequence api c later,
        run.context.solver.isSome = true ∧ run.result ≠ .error .NullSolver) ∧
    (∀ (c : Context S2) (later : List EpochCall), c.solver.isSome = true →
      ∀ run ∈ analyzeSequenceMinMax apiM c later,
        run.context.solver.isSome = true ∧ run.result ≠ .error .NullSolver) ∧
    (∀ (first : EpochCall) (rest : List EpochCall),
      first.epochModel.epochMatrixChanged = true → unchangedKeepsMatrix first rest →
      firstNonTrivialIsChanged EpochModel.reachesNonTrivialDtmc (first :: rest) ∧
        firstNonTrivialIsChanged EpochModel.reachesNonTrivialMdp (first :: rest)) := by
  refine ⟨?_, ?_, fun call c => EpochCall.run_spec api c call,
    fun call c => EpochCall.runMinMax_spec apiM c call, ?_, ?_,
    fun first rest hfirst hkeeps =>
      ⟨firstNonTrivialIsChanged_of_first_changed _ reachesNonTrivialDtmc_congr first rest
          hfirst hkeeps,
        firstNonTrivialIsChanged_of_first_changed _ reachesNonTrivialMdp_congr first rest
          hfirst hkeeps⟩⟩
  · intro h run hrun
    exact (analyzeSequence_safe api calls ctx (Or.inr h) run hrun).1
  · intro h run hrun
    exact (analyzeSequenceMinMax_safe apiM calls ctxM (Or.inr h) run hrun).1
  · intro c later hsome run hrun
    obtain ⟨h1, h2⟩ := analyzeSequence_safe api later c (Or.inl hsome) run hrun
    exact ⟨h2 hsome, h1⟩
  · intro c later hsome run hrun
    obtain ⟨h1, h2⟩ := analyzeSequenceMinMax_safe apiM later c (Or.inl hsome) run hrun
    exact ⟨h2 hsome, h1⟩

theorem firstNonTrivialIsChanged_scenarioSequence :
    firstNonTrivialIsChanged EpochModel.reachesNonTrivialDtmc scenarioSequence := by
  have h1 : scenarioA.reachesNonTrivialDtmc = false := by
    simp [EpochModel.reachesNonTrivialDtmc, scenarioA, SparseMatrix.getEntryCount]
  have h2 : scenarioC1.reachesNonTrivialDtmc = true := by
    simp [EpochModel.reachesNonTrivialDtmc, scenarioC1, SparseMatrix.getEntryCount,
      SparseMatrix.hasTrivialRowGrouping, SparseMatrix.getRowCount, List.range,
      List.range.loop]
  unfold scenarioSequence
  simp only [firstNonTrivialIsChanged, h1, h2, Bool.false_eq_true, if_false, if_true]
  rfl

/-- C19 as amended, at the sequence scenario A, scenario C epoch 1, scenario C epoch 0 on a
context without solver: no call meets an empty handle. -/
theorem solver_handle_state_machine_witness :
    firstNonTrivialIsChanged EpochModel.reachesNonTrivialDtmc scenarioSequence ∧
    ∀ run ∈ analyzeSequence (sweepSolverApi 1 noRequirements) (staleContext SweepSolver)
        scenarioSequence,
      run.result ≠ .error .NullSolver :=
  ⟨firstNonTrivialIsChanged_scenarioSequence,
    (solver_handle_state_machine (sweepSolverApi 1 noRequirements)
      (valueIterationApi 1 noRequirements) scenarioSequence (staleContext SweepSolver)
      (staleContext ValueIterationSolver)).1 firstNonTrivialIsChanged_scenarioSequence⟩

theorem isIdentityMatrix_halfEquationSystem :
    halfEquationSystem.epochMatrix.isIdentityMatrix = false := by
  simp [SparseMatrix.isIdentityMatrix, halfEquationSystem, scenarioC0,
    SparseMatrix.getRowCount, SparseMatrix.entryAt, List.range, List.range.loop, List.lookup]

/-- C19 as stated fails for the deterministic dispatcher: on a context without solver, the
first epoch has a changed matrix, the identity in the equation system format, and takes the
trivial path, so that no solver is built; the second epoch, flagged as unchanged, has a
matrix of the same sparsity pattern that is not the identity, takes the non-trivial path and
reaches `solveEquations` through the empty handle. -/
theorem analyzeSequence_reaches_empty_handle :
    (staleContext SweepSolver).solver = none ∧
    identityEquationSystem.epochMatrixChanged = true ∧
    halfEquationSystem.epochMatrixChanged = false ∧
    halfEquationSystem.epochMatrix.rowGroupIndices =
      identityEquationSystem.epochMatrix.rowGroupIndices ∧
    halfEquationSystem.epochMatrix.rows.map (fun row => row.map Prod.fst) =
      identityEquationSystem.epochMatrix.rows.map (fun row => row.map Prod.fst) ∧
    halfEquationSystem.equationSolverProblemFormat =
      identityEquationSystem.equationSolverProblemFormat ∧
    (analyzeSequence (sweepSolverApi 1 noRequirements) (staleContext SweepSolver)
      identityThenHalf).map (fun run => run.result) =
      [.ok (analyzeTrivialDtmcEpochModel identityEquationSystem), .error .NullSolver] := by
  have hcond : ¬ ((halfEquationSystem.equationSolverProblemFormat = some .EquationSystem ∧
        halfEquationSystem.epochMatrix.isIdentityMatrix = true) ∨
      (halfEquationSystem.equationSolverProblemFormat = some .FixedPointSystem ∧
        halfEquationSystem.epochMatrix.getEntryCount = 0)) := by
    rintro (⟨_, h⟩ | ⟨h, _⟩)
    · rw [isIdentityMatrix_halfEquationSystem] at h; cases h
    · exact absurd h (by decide)
  refine ⟨rfl, rfl, rfl, rfl, rfl, rfl, ?_⟩
  simp only [identityThenHalf, analyzeSequence, EpochCall.run, List.map_cons, List.map_nil]
  rw [analyzeSingleObjective_of_trivial _ identityEquationSystem _ _ _ (by decide)
    (Or.inl ⟨rfl, isIdentityMatrix_identityFixedPoint⟩)]
  simp only
  rw [analyzeSingleObjective_of_nonTrivial _ halfEquationSystem _ _ _ (by decide) (by decide)
      hcond,
    analyzeNonTrivialDtmcEpochModel_of_unchanged _ _ _ _ _ rfl,
    solveDtmc_of_null _ _ _ _ (by rw [prepareRhsDtmc_pos]; decide) rfl]

/-! ## The trivial analyzers and the right-hand side -/

theorem getRowGroupCount_of_trivialRowGrouping (m : SparseMatrix)
    (hgroup : m.hasTrivialRowGrouping = true) : m.getRowGroupCount = m.getRowCount := by
  have h : m.rowGroupIndices = List.range (m.getRowCount + 1) := by
    simpa [SparseMatrix.hasTrivialRowGrouping] using hgroup
  simp [SparseMatrix.getRowGroupCount, h]

theorem analyzeTrivialDtmcEpochModel_eq_filterVector (em : EpochModel)
    (hsorted : em.stepChoices.Sorted (· < ·))
    (hrows : ∀ s ∈ em.epochInStates.setIndices, s < em.epochMatrix.getRowCount) :
    analyzeTrivialDtmcEpochModel em =
      filterVector (prepareRhsDtmc em).1 em.epochInStates := by
  rw [analyzeTrivialDtmcEpochModel_eq em hsorted]
  unfold filterVector
  apply List.map_congr_left
  intro s hs
  have h := (prepareRhsDtmc_spec em hsorted).2.2 s (hrows s hs)
  have h2 : (prepareRhsDtmc em).1.getD s 0 = choiceValue em s := by
    rw [List.getD_eq_getElem?_getD, h]
    rfl
  rw [h2]
  rfl

theorem prepareRhsDtmc_mergeExampleChanged :
    (prepareRhsDtmc mergeExampleChanged).1 = [4, 5, 10] := by
  simp [prepareRhsDtmc, addStepSolutionsDtmc, assignObjectiveRewards, mergeExampleChanged,
    mergeExample, SparseMatrix.getRowCount, EpochModel.rewardFilter, BitVector.setIndices,
    List.range, List.range.loop, EpochModel.objectiveValues, List.replicate]
  norm_num

/-- C21: for a deterministic epoch model (trivial row grouping, in-states that are row
groups) with strictly ascending step choices and as many step solutions, the trivial
deterministic analyzer returns the restriction to the in-states of the right-hand side `b`
that the non-trivial deterministic analyzer builds, entry by entry; a call of the
non-trivial analyzer that succeeds and in which the solver leaves `x = b` returns the vector
of the trivial analyzer, and the call succeeds and leaves this `b` in the context when the
requirement check passes (changed matrix) or the handle holds a solver (unchanged matrix).
On `mergeExampleChanged`, whose matrix has no entries, one sweep of `x := A x + b` yields
`x = b` and both analyzers return [4, 10]. -/
theorem analyzeTrivialDtmcEpochModel_eq_restricted_rhs {S R : Type}
    (api : LinearEquationSolver S R) (em : EpochModel) (ctx : Context S)
    (lowerBound upperBound : Option ValueType)
    (hgroup : em.epochMatrix.hasTrivialRowGrouping = true)
    (hin : ∀ s ∈ em.epochInStates.setIndices, s < em.epochMatrix.getRowGroupCount)
    (hsorted : em.stepChoices.Sorted (· < ·))
    (hlen : em.stepSolutions.length = em.stepChoices.length) :
    analyzeTrivialDtmcEpochModel em =
      filterVector (prepareRhsDtmc em).1 em.epochInStates ∧
    (∀ k s : Nat, em.epochInStates.setIndices[k]? = some s →
      s < (prepareRhsDtmc em).1.length ∧
      (analyzeTrivialDtmcEpochModel em)[k]? = (prepareRhsDtmc em).1[s]?) ∧
    (analyzeTrivialDtmcEpochModel em).length = em.epochInStates.getNumberOfSetBits ∧
    (∀ r, (analyzeNonTrivialDtmcEpochModel api em ctx lowerBound upperBound).result = .ok r →
      (analyzeNonTrivialDtmcEpochModel api em ctx lowerBound upperBound).context.x =
        (analyzeNonTrivialDtmcEpochModel api em ctx lowerBound upperBound).context.b →
      r = analyzeTrivialDtmcEpochModel em) ∧
    ((if em.epochMatrixChanged then
        api.hasEnabledCriticalRequirement
          (remainingRequirementsDtmc api em lowerBound upperBound) = false
      else ctx.solver.isSome) →
      ∃ r, (analyzeNonTrivialDtmcEpochModel api em ctx lowerBound upperBound).result = .ok r ∧
        (analyzeNonTrivialDtmcEpochModel api em ctx lowerBound upperBound).context.b =
          (prepareRhsDtmc em).1) ∧
    (analyzeNonTrivialDtmcEpochModel (sweepSolverApi 1 noRequirements) mergeExampleChanged
        (staleContext SweepSolver) none none).result =
      .ok (analyzeTrivialDtmcEpochModel mergeExampleChanged) ∧
    analyzeTrivialDtmcEpochModel mergeExampleChanged = [4, 10] := by
  have hrows : ∀ s ∈ em.epochInStates.setIndices, s < em.epochMatrix.getRowCount := by
    intro s hs
    rw [← getRowGroupCount_of_trivialRowGrouping _ hgroup]
    exact hin s hs
  have heq := analyzeTrivialDtmcEpochModel_eq_filterVector em hsorted hrows
  have hmerge : analyzeTrivialDtmcEpochModel mergeExampleChanged = [4, 10] := by
    rw [analyzeTrivialDtmcEpochModel_eq_filterVector mergeExampleChanged (by decide)
      (by decide), prepareRhsDtmc_mergeExampleChanged]
    simp [filterVector, mergeExampleChanged, mergeExample, BitVector.setIndices, List.range,
      List.range.loop]
  refine ⟨heq, ?_, ?_, ?_, ?_, ?_, hmerge⟩
  · intro k s hk
    have hs : s ∈ em.epochInStates.setIndices := by
      obtain ⟨hlt, hget⟩ := List.getElem?_eq_some.mp hk
      rw [← hget]
      exact List.getElem_mem _
    refine ⟨by rw [(prepareRhsDtmc_spec em hsorted).2.1]; exact hrows s hs, ?_⟩
    rw [heq, (filterVector_spec _ _).2 k s hk, List.getD_eq_getElem?_getD,
      (prepareRhsDtmc_spec em hsorted).2.2 s (hrows s hs)]
    rfl
  · rw [heq, (filterVector_spec _ _).1]
    rfl
  · intro r hok hx
    obtain ⟨solver, x, _, hx2, hb, _, hr⟩ :=
      analyzeNonTrivialDtmcEpochModel_result_ok api em ctx lowerBound upperBound r hok
    rw [hr, ← hx2, hx, hb, heq]
  · intro hsolver
    obtain ⟨r, hok⟩ :=
      analyzeNonTrivialDtmcEpochModel_succeeds api em ctx lowerBound upperBound hlen hsolver
    obtain ⟨_, _, _, _, hb, _, _⟩ :=
      analyzeNonTrivialDtmcEpochModel_result_ok api em ctx lowerBound upperBound r hok
    exact ⟨r, hok, hb⟩
  · rw [hmerge, analyzeNonTrivialDtmcEpochModel_of_changed _ _ _ _ _ rfl rfl,
      solveDtmc_of_solver _ _ _ _ _ (by rw [prepareRhsDtmc_pos]; rfl) rfl,
      prepareRhsDtmc_mergeExampleChanged]
    simp [sweepSolverApi, setUpLinearEquationSolver, sweepOnce, rowTimesVector, filterVector,
      mergeExampleChanged, mergeExample, SparseMatrix.getRowCount,
      SparseMatrix.getRowGroupCount, BitVector.setIndices, List.range, List.range.loop]

/-- C21 at `mergeExample`: the vector of the trivial analyzer is the right-hand side at the
in-states 0 and 2. -/
theorem analyzeTrivialDtmcEpochModel_eq_restricted_rhs_witness :
    mergeExample.epochMatrix.hasTrivialRowGrouping = true ∧
    (∀ s ∈ mergeExample.epochInStates.setIndices,
      s < mergeExample.epochMatrix.getRowGroupCount) ∧
    mergeExample.stepChoices.Sorted (· < ·) ∧
    mergeExample.stepSolutions.length = mergeExample.stepChoices.length ∧
    analyzeTrivialDtmcEpochModel mergeExample =
      filterVector (prepareRhsDtmc mergeExample).1 mergeExample.epochInStates :=
  ⟨by decide, by decide, by decide, by decide,
    (analyzeTrivialDtmcEpochModel_eq_restricted_rhs (sweepSolverApi 1 noRequirements)
      mergeExample (staleContext SweepSolver) none none (by decide) (by decide) (by decide)
      (by decide)).1⟩

/-! ## The trivial analyzers under trivial row grouping -/

theorem getRowGroupIndices_of_trivialRowGrouping (m : SparseMatrix)
    (hgroup : m.hasTrivialRowGrouping = true) (i : Nat) (hi : i ≤ m.getRowGroupCount) :
    m.getRowGroupIndices.getD i 0 = i := by
  have h : m.rowGroupIndices = List.range (m.getRowCount + 1) := by
    simpa [SparseMatrix.hasTrivialRowGrouping] using hgroup
  have hcount := getRowGroupCount_of_trivialRowGrouping m hgroup
  have hlt : i < (List.range (m.getRowCount + 1)).length := by
    rw [List.length_range]; omega
  rw [SparseMatrix.getRowGroupIndices, h, List.getD_eq_getElem?_getD,
    List.getElem?_eq_getElem hlt, List.getElem_range]
  rfl

theorem bestChoiceOfState_of_single (dir : OptimizationDirection) (em : EpochModel)
    (state pos : Nat) (hfirst : em.epochMatrix.getRowGroupIndices.getD state 0 = state)
    (hlast : em.epochMatrix.getRowGroupIndices.getD (state + 1) 0 = state + 1) :
    bestChoiceOfState dir em state pos =
      ⟨advanceStepIt em.stepChoices state pos,
        choiceValueAt em (advanceStepIt em.stepChoices state pos) state, false⟩ := by
  unfold bestChoiceOfState
  simp only [hfirst, hlast, Nat.add_sub_cancel_left, List.range', List.foldl_cons,
    List.foldl_nil]
  simp [bestChoiceStep]

theorem analyzeTrivialMdpLoop_eq_dtmc (dir : OptimizationDirection) (em : EpochModel) :
    ∀ (states : List Nat) (pos : Nat),
      (∀ s ∈ states, em.epochMatrix.getRowGroupIndices.getD s 0 = s ∧
        em.epochMatrix.getRowGroupIndices.getD (s + 1) 0 = s + 1) →
      analyzeTrivialMdpLoop dir em states pos = analyzeTrivialDtmcLoop em states pos := by
  intro states
  induction states with
  | nil => intro _ _; rfl
  | cons state rest ih =>
    intro pos hgroups
    obtain ⟨hfirst, hlast⟩ := hgroups state (List.mem_cons_self _ _)
    simp only [analyzeTrivialMdpLoop, analyzeTrivialDtmcLoop,
      bestChoiceOfState_of_single dir em state pos hfirst hlast]
    rw [ih _ (fun s hs => hgroups s (List.mem_cons_of_mem _ hs))]
    congr 1
    unfold choiceValueAt
    by_cases hf : em.rewardFilter.get state = true <;>
      by_cases hc : stepChoiceIs em.stepChoices
        (advanceStepIt em.stepChoices state pos) state = true <;>
      simp [hf, hc]

/-- C22: for an epoch model without matrix entries whose row grouping is trivial (the rows
of state i are i .. i + 1, for every state) and whose in-states are states, with strictly
ascending step choices and as many step solutions, the trivial non-deterministic analyzer
returns, for both optimization directions, the vector that the trivial deterministic
analyzer returns. -/
theorem analyzeTrivialMdpEpochModel_eq_dtmc (dir : OptimizationDirection) (em : EpochModel)
    (hentries : em.epochMatrix.getEntryCount = 0)
    (hgroup : em.epochMatrix.hasTrivialRowGrouping = true)
    (hin : ∀ s ∈ em.epochInStates.setIndices, s < em.epochMatrix.getRowGroupCount)
    (_hsorted : em.stepChoices.Sorted (· < ·))
    (_hlen : em.stepSolutions.length = em.stepChoices.length) :
    analyzeTrivialMdpEpochModel dir em = .ok (analyzeTrivialDtmcEpochModel em) ∧
    analyzeTrivialMdpEpochModel .Minimize em = analyzeTrivialMdpEpochModel .Maximize em ∧
    (∀ state, state < em.epochMatrix.getRowGroupCount →
      em.epochMatrix.getRowGroupIndices.getD state 0 = state ∧
      em.epochMatrix.getRowGroupIndices.getD (state + 1) 0 = state + 1) := by
  have hrg : ∀ state, state < em.epochMatrix.getRowGroupCount →
      em.epochMatrix.getRowGroupIndices.getD state 0 = state ∧
      em.epochMatrix.getRowGroupIndices.getD (state + 1) 0 = state + 1 :=
    fun state hstate =>
      ⟨getRowGroupIndices_of_trivialRowGrouping _ hgroup state (Nat.le_of_lt hstate),
        getRowGroupIndices_of_trivialRowGrouping _ hgroup (state + 1) hstate⟩
  have hall : ∀ d : OptimizationDirection,
      analyzeTrivialMdpEpochModel d em = .ok (analyzeTrivialDtmcEpochModel em) := by
    intro d
    unfold analyzeTrivialMdpEpochModel analyzeTrivialDtmcEpochModel
    rw [if_pos (by simp [hentries]),
      analyzeTrivialMdpLoop_eq_dtmc d em _ 0 (fun s hs => hrg s (hin s hs))]
  exact ⟨hall dir, by rw [hall, hall], hrg⟩

/-- C22 at `mergeExampleMdp`, maximizing: both analyzers return the same vector. -/
theorem analyzeTrivialMdpEpochModel_eq_dtmc_witness :
    mergeExampleMdp.epochMatrix.getEntryCount = 0 ∧
    mergeExampleMdp.epochMatrix.hasTrivialRowGrouping = true ∧
    (∀ s ∈ mergeExampleMdp.epochInStates.setIndices,
      s < mergeExampleMdp.epochMatrix.getRowGroupCount) ∧
    mergeExampleMdp.stepChoices.Sorted (· < ·) ∧
    mergeExampleMdp.stepSolutions.length = mergeExampleMdp.stepChoices.length ∧
    analyzeTrivialMdpEpochModel .Maximize mergeExampleMdp =
      .ok (analyzeTrivialDtmcEpochModel mergeExampleMdp) :=
  ⟨by decide, by decide, by decide, by decide, by decide,
    (analyzeTrivialMdpEpochModel_eq_dtmc .Maximize mergeExampleMdp (by decide) (by decide)
      (by decide) (by decide) (by decide)).1⟩

/-! ## The arguments of a call on an unchanged matrix -/

theorem analyzeNonTrivialMdpEpochModel_unchanged_congr {S R : Type}
    (api : MinMaxLinearEquationSolver S R) (em : EpochModel) (ctx : Context S)
    (hchanged : em.epochMatrixChanged = false) (dir dir2 : OptimizationDirection)
    (lowerBound upperBound lowerBound2 upperBound2 : Option ValueType) :
    analyzeNonTrivialMdpEpochModel api dir em ctx lowerBound upperBound =
      analyzeNonTrivialMdpEpochModel api dir2 em ctx lowerBound2 upperBound2 := by
  cases hsolver : ctx.solver with
  | none =>
    rw [analyzeNonTrivialMdpEpochModel_of_unchanged_null api dir em ctx _ _ hchanged hsolver,
      analyzeNonTrivialMdpEpochModel_of_unchanged_null api dir2 em ctx _ _ hchanged hsolver]
  | some solver =>
    rw [analyzeNonTrivialMdpEpochModel_of_unchanged api dir em ctx _ _ solver hchanged hsolver,
      analyzeNonTrivialMdpEpochModel_of_unchanged api dir2 em ctx _ _ solver hchanged hsolver]

/-- C23: on an unchanged matrix the arguments `dir`, `lowerBound` and `upperBound` are
ignored. Two calls of the non-trivial non-deterministic analyzer on the same epoch model and
context end with the same context, the same trace of solver operations and the same result
whatever these arguments are; the trace holds no `setOptimizationDirection`,
`setLowerBound` or `setUpperBound`, and a `solveEquations` call in it receives the `x` of
the context and the right-hand side of the epoch model. The same holds for the bounds of
the non-trivial deterministic analyzer. -/
theorem analyzeNonTrivial_unchanged_ignores_arguments {S R S2 R2 : Type}
    (api : LinearEquationSolver S R) (apiM : MinMaxLinearEquationSolver S2 R2)
    (em : EpochModel) (ctx : Context S) (ctxM : Context S2)
    (hchanged : em.epochMatrixChanged = false) (dir dir2 : OptimizationDirection)
    (lowerBound upperBound lowerBound2 upperBound2 : Option ValueType) :
    analyzeNonTrivialMdpEpochModel apiM dir em ctxM lowerBound upperBound =
      analyzeNonTrivialMdpEpochModel apiM dir2 em ctxM lowerBound2 upperBound2 ∧
    (∀ call ∈ (analyzeNonTrivialMdpEpochModel apiM dir em ctxM lowerBound upperBound).calls,
      (∀ d, call ≠ .setOptimizationDirection d) ∧ (∀ v, call ≠ .setLowerBound v) ∧
        (∀ v, call ≠ .setUpperBound v) ∧
        (∀ x b, call = .solveEquations x b → x = ctxM.x ∧ b = (prepareRhsMdp em).1)) ∧
    analyzeNonTrivialDtmcEpochModel api em ctx lowerBound upperBound =
      analyzeNonTrivialDtmcEpochModel api em ctx lowerBound2 upperBound2 ∧
    (∀ call ∈ (analyzeNonTrivialDtmcEpochModel api em ctx lowerBound upperBound).calls,
      (∀ v, call ≠ .setLowerBound v) ∧ (∀ v, call ≠ .setUpperBound v) ∧
        (∀ x b, call = .solveEquations x b → x = ctx.x ∧ b = (prepareRhsDtmc em).1)) := by
  refine ⟨analyzeNonTrivialMdpEpochModel_unchanged_congr apiM em ctxM hchanged _ _ _ _ _ _,
    ?_, ?_, ?_⟩
  · intro call hmem
    have hsolve : ∀ x b, call = .solveEquations x b →
        x = ctxM.x ∧ b = (prepareRhsMdp em).1 := by
      intro x b hcall
      rw [hcall] at hmem
      have h := analyzeNonTrivialMdpEpochModel_solve_mem _ _ _ _ _ _ _ _ hmem
      rw [hchanged] at h
      exact ⟨by simpa using h.2, h.1⟩
    rcases analyzeNonTrivialMdpEpochModel_calls_mem _ _ _ _ _ _ _ hmem with
      ⟨h, _⟩ | ⟨_, h | ⟨choices, h⟩⟩ | ⟨x, b, h⟩
    · rw [hchanged] at h; cases h
    · refine ⟨?_, ?_, ?_, hsolve⟩ <;> intro v hv <;> rw [h] at hv <;> cases hv
    · refine ⟨?_, ?_, ?_, hsolve⟩ <;> intro v hv <;> rw [h] at hv <;> cases hv
    · refine ⟨?_, ?_, ?_, hsolve⟩ <;> intro v hv <;> rw [h] at hv <;> cases hv
  · rw [analyzeNonTrivialDtmcEpochModel_of_unchanged api em ctx _ _ hchanged,
      analyzeNonTrivialDtmcEpochModel_of_unchanged api em ctx _ _ hchanged]
  · intro call hmem
    have hsolve : ∀ x b, call = .solveEquations x b →
        x = ctx.x ∧ b = (prepareRhsDtmc em).1 := by
      intro x b hcall
      rw [hcall] at hmem
      have h := analyzeNonTrivialDtmcEpochModel_solve_mem _ _ _ _ _ _ _ hmem
      rw [hchanged] at h
      exact ⟨by simpa using h.2, h.1⟩
    rcases analyzeNonTrivialDtmcEpochModel_calls_mem _ _ _ _ _ _ hmem with
      ⟨h, _⟩ | ⟨x, b, h⟩
    · rw [hchanged] at h; cases h
    · refine ⟨?_, ?_, hsolve⟩ <;> intro v hv <;> rw [h] at hv <;> cases hv

/-- C23 at scenario C, epoch 0, on a context with a value iteration solver: minimizing
without bounds and maximizing with the bounds 0 and 9 are the same call, and it returns a
vector. -/
theorem analyzeNonTrivial_unchanged_ignores_arguments_witness :
    scenarioC0.epochMatrixChanged = false ∧
    analyzeNonTrivialMdpEpochModel (valueIterationApi 1 noRequirements) .Minimize scenarioC0
        coldMinMaxContext none none =
      analyzeNonTrivialMdpEpochModel (valueIterationApi 1 noRequirements) .Maximize scenarioC0
        coldMinMaxContext (some 0) (some 9) ∧
    ∃ r, (analyzeNonTrivialMdpEpochModel (valueIterationApi 1 noRequirements) .Maximize
      scenarioC0 coldMinMaxContext (some 0) (some 9)).result = .ok r :=
  ⟨rfl,
    (analyzeNonTrivial_unchanged_ignores_arguments (sweepSolverApi 1 noRequirements)
      (valueIterationApi 1 noRequirements) scenarioC0 coldContext coldMinMaxContext rfl
      .Minimize .Maximize none none (some 0) (some 9)).1,
    analyzeNonTrivialMdpEpochModel_succeeds _ _ _ _ _ _ (by decide) (by decide)⟩

/-! ## The integer logarithm -/

theorem math_S_spec (k : Nat) (hk : k ≤ 32) (n0 : Nat) (st : Nat × Nat) (bound : Nat)
    (hi : st.2 ≤ bound) (hbound : bound + k < 2 ^ 64) (hn : 1 ≤ st.1)
    (hlt : st.1 < 2 ^ k * 2 ^ k) (hdiv : n0 / 2 ^ st.2 = st.1) :
    1 ≤ (math.S k st).1 ∧ (math.S k st).1 < 2 ^ k ∧
      n0 / 2 ^ (math.S k st).2 = (math.S k st).1 ∧ (math.S k st).2 ≤ bound + k := by
  have h2k : (1 <<< k) % 2 ^ 64 = 2 ^ k := by
    rw [Nat.shiftLeft_eq, one_mul, Nat.mod_eq_of_lt]
    exact lt_of_le_of_lt (Nat.pow_le_pow_right (by norm_num) hk) (by norm_num)
  have hpos : 0 < 2 ^ k := Nat.two_pow_pos k
  unfold math.S
  rw [h2k]
  by_cases h : st.1 ≥ 2 ^ k
  · rw [if_pos h]
    have hmod : (st.2 + k) % 2 ^ 64 = st.2 + k := Nat.mod_eq_of_lt (by omega)
    simp only [hmod, Nat.shiftRight_eq_div_pow]
    refine ⟨Nat.div_pos h hpos, Nat.div_lt_of_lt_mul hlt, ?_, by omega⟩
    rw [pow_add, ← Nat.div_div_eq_div_mul, hdiv]
  · rw [if_neg h]
    exact ⟨hn, not_le.mp h, hdiv, by omega⟩

theorem uint64_log2_bounds (n : Nat) (hpos : 1 ≤ n) (hlt : n < 2 ^ 64) :
    ∃ r, math.uint64_log2 n = .ok r ∧ r ≤ 63 ∧ 2 ^ r ≤ n ∧ n < 2 ^ (r + 1) := by
  obtain ⟨a32, b32, c32, d32⟩ := math_S_spec 32 (by norm_num) n (n, 0) 0 (le_refl _)
    (by norm_num) hpos (by norm_num at hlt ⊢; exact hlt) (by simp)
  obtain ⟨a16, b16, c16, d16⟩ := math_S_spec 16 (by norm_num) n _ _ d32 (by norm_num) a32
    (by norm_num at b32 ⊢; exact b32) c32
  obtain ⟨a8, b8, c8, d8⟩ := math_S_spec 8 (by norm_num) n _ _ d16 (by norm_num) a16
    (by norm_num at b16 ⊢; exact b16) c16
  obtain ⟨a4, b4, c4, d4⟩ := math_S_spec 4 (by norm_num) n _ _ d8 (by norm_num) a8
    (by norm_num at b8 ⊢; exact b8) c8
  obtain ⟨a2, b2, c2, d2⟩ := math_S_spec 2 (by norm_num) n _ _ d4 (by norm_num) a4
    (by norm_num at b4 ⊢; exact b4) c4
  obtain ⟨a1, b1, c1, d1⟩ := math_S_spec 1 (by norm_num) n _ _ d2 (by norm_num) a2
    (by norm_num at b2 ⊢; exact b2) c2
  refine ⟨_, by unfold math.uint64_log2; rw [if_neg (by omega)], by omega, ?_, ?_⟩
  · have h1 : 1 ≤ n / 2 ^ (math.S 1 (math.S 2 (math.S 4 (math.S 8 (math.S 16
        (math.S 32 (n, 0))))))).2 := by rw [c1]; exact a1
    have h := (Nat.le_div_iff_mul_le (Nat.two_pow_pos _)).mp h1
    omega
  · have h1 : n / 2 ^ (math.S 1 (math.S 2 (math.S 4 (math.S 8 (math.S 16
        (math.S 32 (n, 0))))))).2 < 2 := by rw [c1]; simpa using b1
    have h := (Nat.div_lt_iff_lt_mul (Nat.two_pow_pos _)).mp h1
    rw [pow_succ]
    omega

theorem log2_unique (n r r2 : Nat) (hr : 2 ^ r ≤ n) (hr2 : n < 2 ^ (r2 + 1)) : r ≤ r2 := by
  have h : 2 ^ r < 2 ^ (r2 + 1) := lt_of_le_of_lt hr hr2
  have := (Nat.pow_lt_pow_iff_right (by norm_num : 1 < 2)).mp h
  omega

/-- C25: for every 64-bit unsigned `n` with `n ≥ 1`, `uint64_log2` returns the floor of
the base-2 logarithm of `n`: it returns an `r ≤ 63` with `2 ^ r ≤ n < 2 ^ (r + 1)`, which is
the only number with these bounds; and it returns `k` at `2 ^ k` for every `k ≤ 63`. -/
theorem uint64_log2_floor (n : Nat) (hpos : 1 ≤ n) (hlt : n < 2 ^ 64) :
    ∃ r, math.uint64_log2 n = .ok r ∧ r ≤ 63 ∧ 2 ^ r ≤ n ∧ n < 2 ^ (r + 1) ∧
      (∀ r2, 2 ^ r2 ≤ n → n < 2 ^ (r2 + 1) → r2 = r) ∧
      (∀ k, k ≤ 63 → math.uint64_log2 (2 ^ k) = .ok k) := by
  obtain ⟨r, hr, h63, hlow, hhigh⟩ := uint64_log2_bounds n hpos hlt
  refine ⟨r, hr, h63, hlow, hhigh, ?_, ?_⟩
  · intro r2 hlow2 hhigh2
    exact le_antisymm (log2_unique n r2 r hlow2 hhigh) (log2_unique n r r2 hlow hhigh2)
  · intro k hk
    have hk64 : 2 ^ k < 2 ^ 64 :=
      (Nat.pow_lt_pow_iff_right (by norm_num : 1 < 2)).mpr (by omega)
    obtain ⟨rk, hrk, _, hlowk, hhighk⟩ :=
      uint64_log2_bounds (2 ^ k) (Nat.two_pow_pos k) hk64
    rw [hrk]
    have h1 : rk ≤ k := log2_unique (2 ^ k) rk k hlowk
      ((Nat.pow_lt_pow_iff_right (by norm_num : 1 < 2)).mpr (by omega))
    have h2 : k ≤ rk := log2_unique (2 ^ k) k rk (le_refl _) hhighk
    rw [le_antisymm h1 h2]

/-- C25 at n = 1000: the result is 9, and 512 ≤ 1000 < 1024. -/
theorem uint64_log2_floor_witness :
    1 ≤ 1000 ∧ 1000 < 2 ^ 64 ∧ math.uint64_log2 1000 = .ok 9 ∧
    ∃ r, math.uint64_log2 1000 = .ok r ∧ r ≤ 63 ∧ 2 ^ r ≤ 1000 ∧ 1000 < 2 ^ (r + 1) ∧
      (∀ r2, 2 ^ r2 ≤ 1000 → 1000 < 2 ^ (r2 + 1) → r2 = r) ∧
      (∀ k, k ≤ 63 → math.uint64_log2 (2 ^ k) = .ok k) :=
  ⟨by decide, by norm_num, by rfl,
    uint64_log2_floor 1000 (by decide) (by norm_num)⟩

/-! ## Stripping the quotes of a name -/

/-- C26 fails on the code: for the string of a blank, a double quote, the letter A, a
double quote and a semicolon, which has two double quotes, `stripQuotsFromName` returns the
letter A followed by a double quote, and not the letter A alone: the second argument of
`substr` is a length, and the code passes the position `secondQuots-1`. The same happens
for the string without the semicolon, which is what line 63 passes for the line
`toplevel  "A";` written with two blanks. -/
theorem stripQuotsFromName_keeps_quote :
    toplevelRest.count doubleQuote = 2 ∧
    betweenQuotes toplevelRest = ['A'] ∧
    stripQuotsFromName toplevelRest = some ['A', doubleQuote] ∧
    stripQuotsFromName toplevelRest ≠ some (betweenQuotes toplevelRest) ∧
    doubleQuote ∈ ['A', doubleQuote] ∧
    toplevelArgument.count doubleQuote = 2 ∧
    betweenQuotes toplevelArgument = ['A'] ∧
    stripQuotsFromName toplevelArgument = some ['A', doubleQuote] ∧
    stripQuotsFromName toplevelArgument ≠ some (betweenQuotes toplevelArgument) := by
  decide

theorem stripQuotsFromName_of_no_quote (name : List Char) (hno : doubleQuote ∉ name) :
    stripQuotsFromName name = some name := by
  simp [stripQuotsFromName, StdString.find, hno]

theorem take_indexOf_eq_takeWhile (c : Char) :
    ∀ l : List Char, l.take (l.indexOf c) = l.takeWhile (fun a => a != c) := by
  intro l
  induction l with
  | nil => rfl
  | cons a t ih =>
    by_cases h : a = c
    · simp [List.indexOf_cons, List.takeWhile_cons, h]
    · have h2 : (a == c) = false := by simpa using h
      simp [List.indexOf_cons, List.takeWhile_cons, h, h2, ih]

theorem stripQuotsFromName_of_leading_quote (rest : List Char)
    (hquote : doubleQuote ∈ rest) (hsize : rest.length + 1 < 2 ^ 64) :
    stripQuotsFromName (doubleQuote :: rest) = some (betweenQuotes (doubleQuote :: rest)) ∧
    doubleQuote ∉ betweenQuotes (doubleQuote :: rest) := by
  have hidx : rest.indexOf doubleQuote < rest.length := List.indexOf_lt_length.mpr hquote
  have hfirst : StdString.find (doubleQuote :: rest) doubleQuote 0 = 0 := by
    simp [StdString.find]
  have hsecond : StdString.find (doubleQuote :: rest) doubleQuote 1 =
      1 + rest.indexOf doubleQuote := by
    simp [StdString.find, hquote]
  have hbetween : betweenQuotes (doubleQuote :: rest) =
      rest.takeWhile (fun a => a != doubleQuote) := by
    simp [betweenQuotes, List.dropWhile_cons]
  have hlen : (1 + rest.indexOf doubleQuote + 2 ^ 64 - 1) % 2 ^ 64 =
      rest.indexOf doubleQuote := by
    have : 1 + rest.indexOf doubleQuote + 2 ^ 64 - 1 = rest.indexOf doubleQuote + 2 ^ 64 := by
      omega
    rw [this, Nat.add_mod_right, Nat.mod_eq_of_lt (by omega)]
  refine ⟨?_, ?_⟩
  · unfold stripQuotsFromName
    simp only [hfirst]
    have h1 : (0 + 1) % 2 ^ 64 = 1 := by norm_num
    rw [h1, hsecond, hlen, if_neg (by unfold StdString.npos; norm_num), hbetween,
      ← take_indexOf_eq_takeWhile]
    simp [StdString.substr]
  · rw [hbetween]
    intro hmem
    have := List.mem_takeWhile_imp hmem
    simp at this

/-! ## The accesses of the trivial analyzers -/

end Storm
